import Mathlib

/-!
KingsMobile: sale processing and GST computation.

A shallow embedding of `Server/controllers/salesController.js` and of the
validators of `Server/routes/salesRoutes.js`.

Numbers.  A JavaScript number is embedded as `JSNum`: a finite value is carried
exactly as a rational, and the three non-finite doubles (`Infinity`,
`-Infinity`, `NaN`) are separate constructors, so that a division by zero is
visible in the embedding.  Binary rounding of finite doubles is not part of the
embedding, and zero carries no sign (every zero divisor the controller can
compute, `1 + gstRate / 100` and the running `totalAmount`, is `+0`).

Store.  The `retailProduct` table is a map from primary key to row and the `sale`
table a list in insertion order.  Stored prices and rates are finite and
quantities are integers.  A request body is typed: a quantity is an integer, a
discount a finite number, an optional field is present or absent.  Persistence
failures other than the ones the controller throws itself are not part of the
embedding, and one clock reading serves a whole request.  A clock reading carries
the time value together with the calendar fields of the server's time zone; a
date-only text such as `2024-04-01` denotes midnight UTC.  The primary key of a sale
is its position in the `sale` table.
-/

namespace KingsMobile

/-! ## JavaScript numbers -/

/-- A JavaScript number: an exact finite value or one of the non-finite doubles. -/
inductive JSNum where
  | fin (q : ℚ)
  | posInf
  | negInf
  | nan
deriving DecidableEq

namespace JSNum

instance : Inhabited JSNum := ⟨fin 0⟩

instance (n : Nat) : OfNat JSNum n := ⟨fin n⟩

/-- Unary minus. -/
def neg : JSNum → JSNum
  | fin a => fin (-a)
  | posInf => negInf
  | negInf => posInf
  | nan => nan

/-- The `+` operator on numbers. -/
def add : JSNum → JSNum → JSNum
  | fin a, fin b => fin (a + b)
  | nan, _ => nan
  | _, nan => nan
  | posInf, negInf => nan
  | negInf, posInf => nan
  | posInf, _ => posInf
  | negInf, _ => negInf
  | fin _, posInf => posInf
  | fin _, negInf => negInf

/-- The `-` operator on numbers. -/
def sub (x y : JSNum) : JSNum := add x (neg y)

/-- An infinity of the sign of `s * t`, or `NaN` when `t` is zero: the product of an
infinity of sign `s` (true for positive) with the finite value `t`. -/
def infTimes (s : Bool) (t : ℚ) : JSNum :=
  if t = 0 then nan else if (0 < t) = s then posInf else negInf

/-- The `*` operator on numbers. -/
def mul : JSNum → JSNum → JSNum
  | fin a, fin b => fin (a * b)
  | nan, _ => nan
  | _, nan => nan
  | posInf, fin b => infTimes true b
  | negInf, fin b => infTimes false b
  | fin a, posInf => infTimes true a
  | fin a, negInf => infTimes false a
  | posInf, posInf => posInf
  | negInf, negInf => posInf
  | posInf, negInf => negInf
  | negInf, posInf => negInf

/-- The `/` operator on numbers.  A finite non-zero value over zero is an infinity of
the sign of the dividend, zero over zero is `NaN`, a finite value over an infinity
is zero. -/
def div : JSNum → JSNum → JSNum
  | fin a, fin b =>
    if b = 0 then (if a = 0 then nan else if 0 < a then posInf else negInf)
    else fin (a / b)
  | nan, _ => nan
  | _, nan => nan
  | fin _, posInf => fin 0
  | fin _, negInf => fin 0
  | posInf, fin b => if 0 ≤ b then posInf else negInf
  | negInf, fin b => if 0 ≤ b then negInf else posInf
  | posInf, posInf => nan
  | posInf, negInf => nan
  | negInf, posInf => nan
  | negInf, negInf => nan

instance : Add JSNum := ⟨add⟩
instance : Sub JSNum := ⟨sub⟩
instance : Mul JSNum := ⟨mul⟩
instance : Div JSNum := ⟨div⟩

/-- Whether the number is finite (`Number.isFinite`). -/
def isFinite : JSNum → Bool
  | fin _ => true
  | _ => false

end JSNum

namespace Math

/-- The function `Math.round`: the nearest integer, a tie going up (towards `+Infinity`); a
non-finite argument is returned as it is. -/
def round : JSNum → JSNum
  | .fin q => .fin (⌊q + 1 / 2⌋ : ℤ)
  | x => x

/-- The function `Math.max` of two numbers: `NaN` when either is `NaN`. -/
def max : JSNum → JSNum → JSNum
  | .nan, _ => .nan
  | _, .nan => .nan
  | .fin a, .fin b => .fin (Max.max a b)
  | .posInf, _ => .posInf
  | _, .posInf => .posInf
  | .negInf, y => y
  | x, .negInf => x

end Math

/-! ## Tax calculator -/

/-- The object returned by `calculateGST`. -/
structure GSTBreakdown where
  baseAmount : JSNum
  igst : JSNum
  cgst : JSNum
  sgst : JSNum
  totalGst : JSNum
deriving DecidableEq

/-- The function `calculateGST(amount, gstRate, isInterState)`: the split of a
tax-inclusive amount into base amount and taxes. -/
def calculateGST (amount gstRate : JSNum) (isInterState : Bool) : GSTBreakdown :=
  let baseAmount := amount / (1 + gstRate / 100)
  let totalGst := amount - baseAmount
  if isInterState then
    { baseAmount := Math.round (baseAmount * 100) / 100
      igst := Math.round (totalGst * 100) / 100
      cgst := 0
      sgst := 0
      totalGst := Math.round (totalGst * 100) / 100 }
  else
    let cgst := totalGst / 2
    let sgst := totalGst / 2
    { baseAmount := Math.round (baseAmount * 100) / 100
      igst := 0
      cgst := Math.round (cgst * 100) / 100
      sgst := Math.round (sgst * 100) / 100
      totalGst := Math.round (totalGst * 100) / 100 }

/-- The spec's rounding: a finite value rounded half-up to 2 decimal places. -/
def roundHalfUp2 (x : ℚ) : ℚ := (⌊x * 100 + 1 / 2⌋ : ℤ) / 100

/-! ## Data model -/

/-- A row of the `retailProduct` table, with the columns the sales controller reads.
The stored price and rate are finite; the quantity is an integer column. -/
structure Product where
  id : String
  name : String
  category : String
  brand : String
  model : String
  sellingPrice : ℚ
  gstRate : ℚ
  quantity : ℤ

/-- A persisted line of a sale (the nested `items.create` rows). -/
structure SaleLine where
  productId : String
  quantity : ℤ
  priceAtSale : ℚ
  gstAtSale : ℚ

/-- A row of the `sale` table; `createdAt` is a time value in milliseconds. -/
structure Sale where
  totalAmount : JSNum
  gstAmount : JSNum
  paymentMode : String
  items : List SaleLine
  createdAt : ℤ

/-- The database as the sales controller sees it: products by primary key, and the
sales in insertion order. -/
structure Db where
  retailProduct : String → Option Product
  sale : List Sale

/-- The write `retailProduct.update({ where: { id }, data: { quantity: { decrement: n } } })`. -/
def Db.decrementQuantity (db : Db) (id : String) (n : ℤ) : Db :=
  { db with
    retailProduct := fun k =>
      if k = id then (db.retailProduct k).map (fun p => { p with quantity := p.quantity - n })
      else db.retailProduct k }

/-- The write `sale.create({ data })`: one more row in the `sale` table. -/
def Db.createSale (db : Db) (sale : Sale) : Db :=
  { db with sale := db.sale ++ [sale] }

/-- The on-hand quantity of a product, when the product exists. -/
def Db.quantityOf (db : Db) (id : String) : Option ℤ :=
  (db.retailProduct id).map (fun p => p.quantity)

/-- The call `prisma.$transaction(callback)`: the writes of the callback reach the database
only when the callback returns; when it throws they are rolled back and the error
is thrown on. -/
def transaction {α : Type} (callback : Db → Except String (Db × α)) (db : Db) :
    Db × Except String α :=
  match callback db with
  | .ok (tx, a) => (tx, .ok a)
  | .error e => (db, .error e)

/-! ## Configuration and invoice numbers -/

namespace GST_CONFIG

/-- HSN code for mobile phones. -/
def HSN_CODE_MOBILE : String := "85171200"

/-- HSN code for mobile accessories. -/
def HSN_CODE_ACCESSORIES : String := "85444900"

/-- Kings Mobile invoice prefix. -/
def INVOICE_PREFIX : String := "KM"

/-- April, the first month of the Indian financial year. -/
def FINANCIAL_YEAR_START : ℤ := 4

end GST_CONFIG

/-- A reading of the clock (`new Date()`): the time value and the calendar fields of
the server's time zone that the controller asks for. -/
structure DateTime where
  time : ℤ
  fullYear : ℤ
  month : ℤ

/-- Days from 1970-01-01 to the given proleptic Gregorian date. -/
def daysFromCivil (y m d : ℤ) : ℤ :=
  let y1 := if m ≤ 2 then y - 1 else y
  let era := y1 / 400
  let yoe := y1 - era * 400
  let doy := (153 * (m + (if 2 < m then -3 else 9)) + 2) / 5 + d - 1
  let doe := yoe * 365 + yoe / 4 - yoe / 100 + doy
  era * 146097 + doe - 719468

/-- The time value of `new Date(year + "-04-01")`: midnight UTC of April 1 (for a
four-digit year, which is what the date-only string form requires). -/
def aprilFirst (year : ℤ) : ℤ := daysFromCivil year 4 1 * 86400000

/-- The call `s.slice(-2)`: the last two characters. -/
def sliceLast2 (s : String) : String := String.mk (s.toList.drop (s.length - 2))

/-- The call `s.padStart(n, c)` for a one-character pad. -/
def padStart (s : String) (n : Nat) (c : Char) : String :=
  String.mk (List.replicate (n - s.length) c) ++ s

/-- The function `generateInvoiceNumber()`, from the clock reading and the `sale` table. -/
def generateInvoiceNumber (now : DateTime) (db : Db) : String :=
  let currentYear := now.fullYear
  let currentMonth := now.month + 1
  let financialYear :=
    if currentMonth ≥ GST_CONFIG.FINANCIAL_YEAR_START then
      toString currentYear ++ "-" ++ sliceLast2 (toString (currentYear + 1))
    else
      toString (currentYear - 1) ++ "-" ++ sliceLast2 (toString currentYear)
  let gte :=
    aprilFirst (if currentMonth ≥ GST_CONFIG.FINANCIAL_YEAR_START then currentYear
      else currentYear - 1)
  let lt :=
    aprilFirst (if currentMonth ≥ GST_CONFIG.FINANCIAL_YEAR_START then currentYear + 1
      else currentYear)
  let invoiceCount : ℤ :=
    ((db.sale.filter (fun s => decide (gte ≤ s.createdAt) && decide (s.createdAt < lt))).length : ℕ)
  GST_CONFIG.INVOICE_PREFIX ++ "/" ++ financialYear ++ "/" ++
    padStart (toString (invoiceCount + 1)) 4 '0'

/-! ## The sale request and its validation -/

/-- The `customerInfo` object of a request; every field is optional. -/
structure CustomerInfo where
  name : Option String
  phone : Option String
  address : Option String
  gstin : Option String
  state : Option String

/-- One requested line: `{ productId, quantity }`. -/
structure Item where
  productId : String
  quantity : ℤ

/-- The body of `POST /api/sales`. -/
structure Body where
  items : List Item
  customerInfo : Option CustomerInfo
  paymentMode : String
  discountAmount : Option ℚ
  isInterState : Option Bool
  notes : Option String

/-- The character class `\d`. -/
def isDigit (c : Char) : Bool := decide ('0' ≤ c) && decide (c ≤ '9')

/-- The character class `[A-Z]`. -/
def isUpper (c : Char) : Bool := decide ('A' ≤ c) && decide (c ≤ 'Z')

/-- The character class `\s`. -/
def isSpace (c : Char) : Bool :=
  let n := c.toNat
  (9 ≤ n && n ≤ 13) || n = 0x20 || n = 0xA0 || n = 0x1680 || (0x2000 ≤ n && n ≤ 0x200A) ||
    n = 0x2028 || n = 0x2029 || n = 0x202F || n = 0x205F || n = 0x3000 || n = 0xFEFF

/-- The pattern `^\+?[\d\s\-\(\)]{10,15}$`. -/
def matchesPhone (s : String) : Bool :=
  let cs := s.toList
  let rest := match cs with
    | '+' :: t => t
    | _ => cs
  rest.all (fun c => isDigit c || isSpace c || c = '-' || c = '(' || c = ')') &&
    decide (10 ≤ rest.length) && decide (rest.length ≤ 15)

/-- The pattern `^[0-9]{2}[A-Z]{5}[0-9]{4}[A-Z]{1}[1-9A-Z]{1}Z[0-9A-Z]{1}$`. -/
def matchesGstin (s : String) : Bool :=
  match s.toList with
  | [d1, d2, a1, a2, a3, a4, a5, n1, n2, n3, n4, b, e, z, k] =>
    isDigit d1 && isDigit d2 && isUpper a1 && isUpper a2 && isUpper a3 && isUpper a4 &&
      isUpper a5 && isDigit n1 && isDigit n2 && isDigit n3 && isDigit n4 && isUpper b &&
      ((isDigit e && e != '0') || isUpper e) && z = 'Z' && (isDigit k || isUpper k)
  | _ => false

/-- The message of a validator that fails, none when it passes. -/
def check (ok : Bool) (message : String) : List String := if ok then [] else [message]

/-- A validator behind `.optional()`: skipped when the field is absent. -/
def optionalCheck {α : Type} (field : Option α) (ok : α → Bool) (message : String) :
    List String :=
  match field with
  | none => []
  | some v => check (ok v) message

/-- The messages `validationResult(req)` holds after the validators of
`POST /api/sales` have run on the body. -/
def validationResult (body : Body) : List String :=
  let customer : CustomerInfo := body.customerInfo.getD ⟨none, none, none, none, none⟩
  check (decide (1 ≤ body.items.length))
      "Items array is required and must contain at least one item" ++
    (body.items.map (fun item =>
      check (item.productId != "") "Product ID is required for each item")).flatten ++
    (body.items.map (fun item =>
      check (decide (1 ≤ item.quantity)) "Quantity must be a positive integer")).flatten ++
    check (["CASH", "UPI", "CARD"].contains body.paymentMode)
      "Payment mode must be CASH, UPI, or CARD" ++
    optionalCheck body.discountAmount (fun d => decide (0 ≤ d))
      "Discount amount must be a positive number" ++
    optionalCheck customer.name (fun v => decide (2 ≤ v.length))
      "Customer name must be at least 2 characters" ++
    optionalCheck customer.phone matchesPhone "Please provide a valid phone number" ++
    optionalCheck customer.gstin matchesGstin "Please provide a valid GSTIN format" ++
    optionalCheck customer.address (fun v => decide (10 ≤ v.length))
      "Address must be at least 10 characters" ++
    optionalCheck customer.state (fun v => decide (2 ≤ v.length))
      "State must be at least 2 characters" ++
    optionalCheck body.notes (fun v => decide (v.length ≤ 500))
      "Notes must not exceed 500 characters"

/-! ## Sale transactor -/

/-- An entry of the `saleItems` array built while the lines are processed. -/
structure SaleItem where
  productId : String
  quantity : ℤ
  priceAtSale : ℚ
  gstAtSale : ℚ
  itemTotal : JSNum
  gstBreakdown : GSTBreakdown
  hsnCode : String
  productName : String
  productBrand : String
  productModel : String

/-- The object the transaction callback of `processSale` returns. -/
structure SaleData where
  sale : Sale
  saleItems : List SaleItem
  invoiceNumber : String
  totalAmount : JSNum
  discountAmount : JSNum
  discountedAmount : JSNum
  finalGstAmount : JSNum
  customerInfo : CustomerInfo
  isInterState : Bool
  notes : String

/-- What `processSale` sends: `400` with the validation errors, `201` with the sale
(`result.sale`) and the invoice composed from `result`, or `500` with an error
text. -/
inductive Response where
  | badRequest (errors : List String)
  | created (result : SaleData)
  | serverError (error : String)

/-- The variables of the line loop: the transaction's view of the database and the
running totals. -/
structure LoopState where
  tx : Db
  totalAmount : JSNum
  totalGstAmount : JSNum
  saleItems : List SaleItem

/-- The message thrown for a product that does not exist. -/
def notFoundMessage (productId : String) : String :=
  "Product with ID " ++ productId ++ " not found"

/-- The message thrown for a line that asks for more than is on hand. -/
def insufficientStockMessage (name : String) (available requested : ℤ) : String :=
  "Insufficient stock for " ++ name ++ ". Available: " ++ toString available ++
    ", Requested: " ++ toString requested

/-- One iteration of `for (const item of items)` inside the transaction. -/
def processItem (isInterState : Bool) (st : LoopState) (item : Item) :
    Except String LoopState :=
  match st.tx.retailProduct item.productId with
  | none => .error (notFoundMessage item.productId)
  | some product =>
    if product.quantity < item.quantity then
      .error (insufficientStockMessage product.name product.quantity item.quantity)
    else
      let itemTotal := JSNum.fin product.sellingPrice * JSNum.fin item.quantity
      let gstBreakdown := calculateGST itemTotal (JSNum.fin product.gstRate) isInterState
      .ok
        { tx := st.tx.decrementQuantity item.productId item.quantity
          totalAmount := st.totalAmount + itemTotal
          totalGstAmount := st.totalGstAmount + gstBreakdown.totalGst
          saleItems := st.saleItems ++
            [{ productId := item.productId
               quantity := item.quantity
               priceAtSale := product.sellingPrice
               gstAtSale := product.gstRate
               itemTotal := itemTotal
               gstBreakdown := gstBreakdown
               hsnCode :=
                 if product.category = "Mobile Phone" then GST_CONFIG.HSN_CODE_MOBILE
                 else GST_CONFIG.HSN_CODE_ACCESSORIES
               productName := product.name
               productBrand := product.brand
               productModel := product.model }] }

/-- The whole line loop, stopping at the first line that throws. -/
def processItems (isInterState : Bool) : LoopState → List Item → Except String LoopState
  | st, [] => .ok st
  | st, item :: rest =>
    match processItem isInterState st item with
    | .error e => .error e
    | .ok st1 => processItems isInterState st1 rest

/-- The state in which the line loop starts. -/
def initialLoopState (db : Db) : LoopState :=
  { tx := db, totalAmount := 0, totalGstAmount := 0, saleItems := [] }

/-- The callback given to `prisma.$transaction` by `processSale`. -/
def saleTransaction (now : DateTime) (items : List Item) (customerInfo : CustomerInfo)
    (paymentMode : String) (discountAmount : JSNum) (isInterState : Bool) (notes : String)
    (invoiceNumber : String) (tx : Db) : Except String (Db × SaleData) :=
  match processItems isInterState (initialLoopState tx) items with
  | .error e => .error e
  | .ok st =>
    let totalAmount := st.totalAmount
    let totalGstAmount := st.totalGstAmount
    let discountedAmount := Math.max 0 (totalAmount - discountAmount)
    let finalGstAmount := totalGstAmount * (discountedAmount / totalAmount)
    let sale : Sale :=
      { totalAmount := Math.round (discountedAmount * 100) / 100
        gstAmount := Math.round (finalGstAmount * 100) / 100
        paymentMode := paymentMode
        items := st.saleItems.map (fun item =>
          { productId := item.productId
            quantity := item.quantity
            priceAtSale := item.priceAtSale
            gstAtSale := item.gstAtSale })
        createdAt := now.time }
    .ok (st.tx.createSale sale,
      { sale := sale
        saleItems := st.saleItems
        invoiceNumber := invoiceNumber
        totalAmount := totalAmount
        discountAmount := discountAmount
        discountedAmount := discountedAmount
        finalGstAmount := finalGstAmount
        customerInfo := customerInfo
        isInterState := isInterState
        notes := notes })

/-- The handler `processSale(req, res)`: the database after the request and the response sent.
`now` is the clock reading of the request. -/
def processSale (now : DateTime) (body : Body) (db : Db) : Db × Response :=
  let errors := validationResult body
  if !errors.isEmpty then (db, .badRequest errors)
  else
    let customerInfo := body.customerInfo.getD ⟨none, none, none, none, none⟩
    let discountAmount := JSNum.fin (body.discountAmount.getD 0)
    let isInterState := body.isInterState.getD false
    let notes := body.notes.getD ""
    let invoiceNumber := generateInvoiceNumber now db
    match transaction (saleTransaction now body.items customerInfo body.paymentMode
        discountAmount isInterState notes invoiceNumber) db with
    | (db1, .ok result) => (db1, .created result)
    | (db1, .error message) =>
      (db1, .serverError (if message = "" then "Internal server error" else message))

/-! ## Invoice composer -/

/-- The operator `a || b` on an optional text: `b` when `a` is absent or empty. -/
def orElse (a : Option String) (b : String) : String :=
  match a with
  | some v => if v = "" then b else v
  | none => b

/-- The company block of an invoice. -/
structure CompanyInfo where
  name : String
  address : String
  gstin : String
  phone : String
  email : String
  stateCode : String

/-- The company the invoices are issued by. -/
def companyInfo : CompanyInfo :=
  { name := "Kings Mobile"
    address := "Shop No. 123, Mobile Market, Tamil Nadu, India"
    gstin := "33AAAAA0000A1Z5"
    phone := "+91-9876543210"
    email := "info@kingsmobile.com"
    stateCode := "33" }

/-- The customer block of an invoice. -/
structure InvoiceCustomer where
  name : String
  phone : String
  address : String
  gstin : String

/-- One line of an invoice. -/
structure InvoiceItem where
  description : String
  hsnCode : String
  quantity : ℤ
  unitPrice : ℚ
  totalPrice : JSNum
  gstRate : ℚ
  cgst : JSNum
  sgst : JSNum
  igst : JSNum
  taxableValue : JSNum

/-- The running tax totals of `generateGSTInvoice`. -/
structure ConsolidatedGST where
  totalCGST : JSNum
  totalSGST : JSNum
  totalIGST : JSNum
  totalGST : JSNum

/-- The financial summary of an invoice. -/
structure InvoiceSummary where
  subtotal : JSNum
  discount : JSNum
  taxableAmount : JSNum
  totalCGST : JSNum
  totalSGST : JSNum
  totalIGST : JSNum
  totalGST : JSNum
  grandTotal : JSNum
  roundOff : JSNum
  paymentMode : String

/-- The GST compliance block of an invoice. -/
structure GstDetails where
  isInterState : Bool
  placeOfSupply : String
  reverseCharge : String
  transportationMode : String

/-- The invoice document.  The header texts rendered from the clock (`invoiceDate`,
`invoiceTime`, `generatedAt`) are left out. -/
structure Invoice where
  invoiceNumber : String
  company : CompanyInfo
  customer : InvoiceCustomer
  items : List InvoiceItem
  summary : InvoiceSummary
  notes : String
  termsAndConditions : List String
  gstDetails : GstDetails
  generatedBy : String

/-- The function `generateGSTInvoice(saleData)`. -/
def generateGSTInvoice (saleData : SaleData) : Invoice :=
  let customerInfo := saleData.customerInfo
  let consolidatedGST : ConsolidatedGST :=
    saleData.saleItems.foldl
      (fun acc item =>
        { totalCGST := acc.totalCGST + item.gstBreakdown.cgst
          totalSGST := acc.totalSGST + item.gstBreakdown.sgst
          totalIGST := acc.totalIGST + item.gstBreakdown.igst
          totalGST := acc.totalGST + item.gstBreakdown.totalGst })
      { totalCGST := 0, totalSGST := 0, totalIGST := 0, totalGST := 0 }
  let invoiceItems : List InvoiceItem :=
    saleData.saleItems.map (fun item =>
      { description := item.productBrand ++ " " ++ item.productName ++ " - " ++ item.productModel
        hsnCode := item.hsnCode
        quantity := item.quantity
        unitPrice := item.priceAtSale
        totalPrice := item.itemTotal
        gstRate := item.gstAtSale
        cgst := Math.round (item.gstBreakdown.cgst * 100) / 100
        sgst := Math.round (item.gstBreakdown.sgst * 100) / 100
        igst := Math.round (item.gstBreakdown.igst * 100) / 100
        taxableValue := Math.round (item.gstBreakdown.baseAmount * 100) / 100 })
  { invoiceNumber := saleData.invoiceNumber
    company := companyInfo
    customer :=
      { name := orElse customerInfo.name "Walk-in Customer"
        phone := orElse customerInfo.phone ""
        address := orElse customerInfo.address ""
        gstin := orElse customerInfo.gstin "" }
    items := invoiceItems
    summary :=
      { subtotal := Math.round (saleData.totalAmount * 100) / 100
        discount := Math.round (saleData.discountAmount * 100) / 100
        taxableAmount :=
          Math.round ((saleData.discountedAmount - saleData.finalGstAmount) * 100) / 100
        totalCGST := Math.round (consolidatedGST.totalCGST * 100) / 100
        totalSGST := Math.round (consolidatedGST.totalSGST * 100) / 100
        totalIGST := Math.round (consolidatedGST.totalIGST * 100) / 100
        totalGST := Math.round (consolidatedGST.totalGST * 100) / 100
        grandTotal := Math.round (saleData.discountedAmount * 100) / 100
        roundOff := 0
        paymentMode := saleData.sale.paymentMode }
    notes := saleData.notes
    termsAndConditions :=
      ["Goods once sold will not be taken back or exchanged",
       "All disputes are subject to Tamil Nadu jurisdiction only",
       "Warranty as per manufacturer terms and conditions"]
    gstDetails :=
      { isInterState := saleData.isInterState
        placeOfSupply :=
          if saleData.isInterState then orElse customerInfo.state "Unknown" else "Tamil Nadu"
        reverseCharge := "No"
        transportationMode := "By Hand" }
    generatedBy := "Kings Mobile POS System" }

/-! ## Sale retrieval -/

/-- What `getSaleById` sends: `200` with the sale and its regenerated invoice, `404`,
or `500`. -/
inductive SaleResponse where
  | ok (sale : Sale) (invoice : Invoice)
  | notFound (error : String)
  | serverError (error : String)

/-- The `saleItems` that `getSaleById` rebuilds from the stored lines, each joined
with its product row; none when a line has no product row, in which case reading
`item.product.id` throws. -/
def regenerateSaleItems (db : Db) : List SaleLine → Option (List SaleItem)
  | [] => some []
  | item :: rest =>
    match db.retailProduct item.productId with
    | none => none
    | some product =>
      match regenerateSaleItems db rest with
      | none => none
      | some saleItems =>
        some
          ({ productId := product.id
             quantity := item.quantity
             priceAtSale := item.priceAtSale
             gstAtSale := item.gstAtSale
             itemTotal := JSNum.fin item.priceAtSale * JSNum.fin item.quantity
             gstBreakdown :=
               calculateGST (JSNum.fin item.priceAtSale * JSNum.fin item.quantity)
                 (JSNum.fin item.gstAtSale) false
             hsnCode :=
               if product.category = "Mobile Phone" then GST_CONFIG.HSN_CODE_MOBILE
               else GST_CONFIG.HSN_CODE_ACCESSORIES
             productName := product.name
             productBrand := product.brand
             productModel := product.model } :: saleItems)

/-- The handler `getSaleById(req, res)`.  The primary key of a sale is its position
in the `sale` table. -/
def getSaleById (now : DateTime) (id : Nat) (db : Db) : SaleResponse :=
  match db.sale.get? id with
  | none => .notFound "Sale not found"
  | some sale =>
    match regenerateSaleItems db sale.items with
    | none => .serverError "Internal server error"
    | some saleItems =>
      let invoiceNumber := generateInvoiceNumber now db
      .ok sale
        (generateGSTInvoice
          { sale := sale
            saleItems := saleItems
            invoiceNumber := invoiceNumber
            totalAmount := sale.totalAmount
            discountAmount := 0
            discountedAmount := sale.totalAmount
            finalGstAmount := sale.gstAmount
            customerInfo := ⟨none, none, none, none, none⟩
            isInterState := false
            notes := "" })

/-! ## Sales cart -/

/-- An entry of the `cartItems` array. -/
structure CartItem where
  product : Product
  quantity : ℤ
  unitPrice : ℚ
  itemTotal : JSNum
  gstBreakdown : GSTBreakdown
  hsnCode : String

/-- An entry of the `productValidation` array. -/
structure ProductValidation where
  productId : String
  requestedQuantity : ℤ
  availableQuantity : ℤ

/-- The `cart` object of a `createSalesCart` response. -/
structure Cart where
  items : List CartItem
  subtotal : JSNum
  discountAmount : JSNum
  discountedAmount : JSNum
  totalGstAmount : JSNum
  finalAmount : JSNum
  customerInfo : Option CustomerInfo
  paymentMode : String
  productValidation : List ProductValidation

/-- What `createSalesCart` sends: `400` with the validation errors, `404` for a
missing product, `400` for insufficient stock, or `200` with the cart. -/
inductive CartResponse where
  | badRequest (errors : List String)
  | notFound (error : String)
  | insufficientStock (error : String)
  | ok (cart : Cart)

/-- The variables of the line loop of `createSalesCart`. -/
structure CartState where
  totalAmount : JSNum
  totalGstAmount : JSNum
  cartItems : List CartItem
  productValidation : List ProductValidation

/-- One iteration of the line loop of `createSalesCart`; an early response when
the line fails its checks. -/
def cartItem (db : Db) (st : CartState) (item : Item) : Except CartResponse CartState :=
  match db.retailProduct item.productId with
  | none => .error (.notFound (notFoundMessage item.productId))
  | some product =>
    if product.quantity < item.quantity then
      .error (.insufficientStock
        (insufficientStockMessage product.name product.quantity item.quantity))
    else
      let itemTotal := JSNum.fin product.sellingPrice * JSNum.fin item.quantity
      let gstBreakdown := calculateGST itemTotal (JSNum.fin product.gstRate) false
      .ok
        { totalAmount := st.totalAmount + itemTotal
          totalGstAmount := st.totalGstAmount + gstBreakdown.totalGst
          cartItems := st.cartItems ++
            [{ product := product
               quantity := item.quantity
               unitPrice := product.sellingPrice
               itemTotal := itemTotal
               gstBreakdown := gstBreakdown
               hsnCode :=
                 if product.category = "Mobile Phone" then GST_CONFIG.HSN_CODE_MOBILE
                 else GST_CONFIG.HSN_CODE_ACCESSORIES }]
          productValidation := st.productValidation ++
            [{ productId := product.id
               requestedQuantity := item.quantity
               availableQuantity := product.quantity }] }

/-- The whole line loop of `createSalesCart`. -/
def cartItems (db : Db) : CartState → List Item → Except CartResponse CartState
  | st, [] => .ok st
  | st, item :: rest =>
    match cartItem db st item with
    | .error r => .error r
    | .ok st1 => cartItems db st1 rest

/-- The messages `validationResult(req)` holds after the validators of
`POST /api/sales/cart` have run on the body. -/
def cartValidationResult (body : Body) : List String :=
  let customer : CustomerInfo := body.customerInfo.getD ⟨none, none, none, none, none⟩
  check (decide (1 ≤ body.items.length))
      "Items array is required and must contain at least one item" ++
    (body.items.map (fun item =>
      check (item.productId != "") "Product ID is required for each item")).flatten ++
    (body.items.map (fun item =>
      check (decide (1 ≤ item.quantity)) "Quantity must be a positive integer")).flatten ++
    check (["CASH", "UPI", "CARD"].contains body.paymentMode)
      "Payment mode must be CASH, UPI, or CARD" ++
    optionalCheck body.discountAmount (fun d => decide (0 ≤ d))
      "Discount amount must be a positive number" ++
    optionalCheck customer.name (fun v => decide (2 ≤ v.length))
      "Customer name must be at least 2 characters" ++
    optionalCheck customer.phone matchesPhone "Please provide a valid phone number" ++
    optionalCheck customer.gstin matchesGstin "Please provide a valid GSTIN format"

/-- The handler `createSalesCart(req, res)`; it writes nothing to the database. -/
def createSalesCart (body : Body) (db : Db) : CartResponse :=
  let errors := cartValidationResult body
  if !errors.isEmpty then .badRequest errors
  else
    let discountAmount := JSNum.fin (body.discountAmount.getD 0)
    match cartItems db
        { totalAmount := 0, totalGstAmount := 0, cartItems := [], productValidation := [] }
        body.items with
    | .error r => r
    | .ok st =>
      let totalAmount := st.totalAmount
      let totalGstAmount := st.totalGstAmount
      let discountedAmount := Math.max 0 (totalAmount - discountAmount)
      let finalGstAmount := totalGstAmount * (discountedAmount / totalAmount)
      .ok
        { items := st.cartItems
          subtotal := totalAmount
          discountAmount := discountAmount
          discountedAmount := discountedAmount
          totalGstAmount := Math.round (finalGstAmount * 100) / 100
          finalAmount := Math.round (discountedAmount * 100) / 100
          customerInfo := body.customerInfo
          paymentMode := body.paymentMode
          productValidation := st.productValidation }

/-! ## Sale listing -/

/-- The function `Math.ceil`; a non-finite argument is returned as it is. -/
def Math.ceil : JSNum → JSNum
  | .fin q => .fin (⌈q⌉ : ℤ)
  | x => x

/-- The query of `GET /api/sales`, typed: a date is the time value of `new Date(text)`,
an amount the value of `parseFloat(text)`, `page` and `limit` the value `parseInt`
gives for a text of decimal digits; an absent or empty parameter is `none`. -/
structure SalesQuery where
  startDate : Option ℤ
  endDate : Option ℤ
  paymentMode : Option String
  minAmount : Option ℚ
  maxAmount : Option ℚ
  page : Option ℕ
  limit : Option ℕ

/-- The comparison `amount >= bound` of the store on a stored amount. -/
def amountGe (amount : JSNum) (bound : ℚ) : Bool :=
  match amount with
  | .fin a => decide (bound ≤ a)
  | .posInf => true
  | _ => false

/-- The comparison `amount <= bound` of the store on a stored amount. -/
def amountLe (amount : JSNum) (bound : ℚ) : Bool :=
  match amount with
  | .fin a => decide (a ≤ bound)
  | .negInf => true
  | _ => false

/-- The `whereClause` that `getAllSales` builds from the query, as a test on a sale. -/
def whereClause (query : SalesQuery) (sale : Sale) : Bool :=
  (match query.startDate with
    | some d => decide (d ≤ sale.createdAt)
    | none => true) &&
  (match query.endDate with
    | some d => decide (sale.createdAt ≤ d)
    | none => true) &&
  (match query.paymentMode with
    | some m => sale.paymentMode = m
    | none => true) &&
  (match query.minAmount with
    | some a => amountGe sale.totalAmount a
    | none => true) &&
  (match query.maxAmount with
    | some a => amountLe sale.totalAmount a
    | none => true)

/-- The `pagination` object of a sale listing. -/
structure Pagination where
  currentPage : ℤ
  totalPages : JSNum
  totalCount : ℕ
  hasNext : Bool
  hasPrev : Bool

/-- What `getAllSales` sends: `200` with a page of sales and the pagination block, or
`500`. -/
inductive SalesListResponse where
  | ok (sales : List Sale) (pagination : Pagination)
  | serverError (error : String)

/-- The rows `findMany` returns: those passing the test, newest first, after `skip`
rows, at most `take` rows. -/
def findManySales (db : Db) (test : Sale → Bool) (skip take : ℕ) : List Sale :=
  (((db.sale.filter test).mergeSort (fun a b => decide (b.createdAt ≤ a.createdAt))).drop
    skip).take take

/-- The handler `getAllSales(req, res)`.  It does not read `validationResult(req)`.
A negative `skip` is rejected by the store, which the `catch` block reports. -/
def getAllSales (query : SalesQuery) (db : Db) : SalesListResponse :=
  let page : ℤ := ((query.page.getD 1 : ℕ) : ℤ)
  let limit : ℤ := ((query.limit.getD 50 : ℕ) : ℤ)
  let skip : ℤ := (page - 1) * limit
  if skip < 0 then .serverError "Internal server error"
  else
    let sales := findManySales db (whereClause query) skip.toNat limit.toNat
    let totalCount := (db.sale.filter (whereClause query)).length
    .ok sales
      { currentPage := page
        totalPages := Math.ceil (JSNum.fin totalCount / JSNum.fin limit)
        totalCount := totalCount
        hasNext := decide (skip + limit < (totalCount : ℤ))
        hasPrev := decide (page > 1) }

/-! ## A failing store -/

/-- The callback of `processSale` on a store whose `sale.create` rejects with the
given message, when one is given. -/
def saleTransactionWith (createError : Option String) (now : DateTime) (items : List Item)
    (customerInfo : CustomerInfo) (paymentMode : String) (discountAmount : JSNum)
    (isInterState : Bool) (notes : String) (invoiceNumber : String) (tx : Db) :
    Except String (Db × SaleData) :=
  match createError with
  | none =>
    saleTransaction now items customerInfo paymentMode discountAmount isInterState notes
      invoiceNumber tx
  | some message =>
    match processItems isInterState (initialLoopState tx) items with
    | .error e => .error e
    | .ok _ => .error message

/-- The handler `processSale(req, res)` on a store whose `sale.create` rejects with the
given message, when one is given. -/
def processSaleWith (createError : Option String) (now : DateTime) (body : Body) (db : Db) :
    Db × Response :=
  let errors := validationResult body
  if !errors.isEmpty then (db, .badRequest errors)
  else
    let customerInfo := body.customerInfo.getD ⟨none, none, none, none, none⟩
    let discountAmount := JSNum.fin (body.discountAmount.getD 0)
    let isInterState := body.isInterState.getD false
    let notes := body.notes.getD ""
    let invoiceNumber := generateInvoiceNumber now db
    match transaction (saleTransactionWith createError now body.items customerInfo
        body.paymentMode discountAmount isInterState notes invoiceNumber) db with
    | (db1, .ok result) => (db1, .created result)
    | (db1, .error message) =>
      (db1, .serverError (if message = "" then "Internal server error" else message))

/-! ## Repair jobs and spare parts -/

/-- A row of the `repairPart` table. -/
structure RepairPart where
  id : String
  name : String
  partNumber : String
  costPrice : ℚ
  quantity : ℤ

/-- A row of the `repairPartUsage` table. -/
structure RepairPartUsage where
  repairJobId : String
  repairPartId : String
  quantityUsed : ℤ

/-- A row of the `repairJob` table, with the columns the status update writes. -/
structure RepairJob where
  id : String
  status : String
  laborCost : ℚ
  totalCost : ℚ

/-- The repair tables.  The generated key of a usage record is the value of a
counter; the usage table lists the records with their keys in insertion order. -/
structure RepairDb where
  repairJob : String → Option RepairJob
  repairPart : String → Option RepairPart
  repairPartUsage : List (ℕ × RepairPartUsage)
  nextUsageId : ℕ

/-- The call `repairPartUsage.findUnique({ where: { id } })`. -/
def RepairDb.findUsage (db : RepairDb) (usageId : ℕ) : Option RepairPartUsage :=
  (db.repairPartUsage.find? (fun e => e.1 = usageId)).map (fun e => e.2)

/-- The write `repairPartUsage.create({ data })`, with the key it generates. -/
def RepairDb.createUsage (db : RepairDb) (usage : RepairPartUsage) : RepairDb :=
  { db with
    repairPartUsage := db.repairPartUsage ++ [(db.nextUsageId, usage)]
    nextUsageId := db.nextUsageId + 1 }

/-- The write `repairPartUsage.delete({ where: { id } })`. -/
def RepairDb.deleteUsage (db : RepairDb) (usageId : ℕ) : RepairDb :=
  { db with repairPartUsage := db.repairPartUsage.filter (fun e => e.1 ≠ usageId) }

/-- The write `repairPart.update` with `quantity: { increment: n }` (a decrement is an
increment by `-n`). -/
def RepairDb.incrementQuantity (db : RepairDb) (id : String) (n : ℤ) : RepairDb :=
  { db with
    repairPart := fun k =>
      if k = id then (db.repairPart k).map (fun p => { p with quantity := p.quantity + n })
      else db.repairPart k }

/-- The quantity of a spare part, when the part exists. -/
def RepairDb.quantityOf (db : RepairDb) (id : String) : Option ℤ :=
  (db.repairPart id).map (fun p => p.quantity)

/-- The body of `POST /api/repairs/:id/parts`. -/
structure AddPartBody where
  repairPartId : String
  quantityUsed : ℤ

/-- The body of `PUT /api/repairs/:id/status`. -/
structure StatusBody where
  status : String
  laborCost : Option ℚ

/-- What the repair handlers send. -/
inductive RepairResponse where
  | badRequest (errors : List String)
  | notFound (error : String)
  | rejected (error : String)
  | partAdded (usageId : ℕ) (partUsage : RepairPartUsage)
  | partRemoved
  | statusUpdated (repairJob : RepairJob)
  | serverError (error : String)

/-- The messages `validationResult(req)` holds for `POST /api/repairs/:id/parts`. -/
def addPartValidationResult (body : AddPartBody) : List String :=
  check (body.repairPartId != "") "Repair part ID is required" ++
    check (decide (1 ≤ body.quantityUsed)) "Quantity used must be a positive integer"

/-- The message for a part that is short of stock. -/
def partStockMessage (available requested : ℤ) : String :=
  "Insufficient stock. Available: " ++ toString available ++ ", Requested: " ++
    toString requested

/-- The handler `addPartToRepairJob(req, res)`: the tables after the request and the
response. -/
def addPartToRepairJob (id : String) (body : AddPartBody) (db : RepairDb) :
    RepairDb × RepairResponse :=
  let errors := addPartValidationResult body
  if !errors.isEmpty then (db, .badRequest errors)
  else
    match db.repairJob id with
    | none => (db, .notFound "Repair job not found")
    | some _ =>
      match db.repairPart body.repairPartId with
      | none => (db, .notFound "Repair part not found")
      | some repairPart =>
        if repairPart.quantity < body.quantityUsed then
          (db, .rejected (partStockMessage repairPart.quantity body.quantityUsed))
        else
          let partUsage : RepairPartUsage :=
            { repairJobId := id, repairPartId := body.repairPartId,
              quantityUsed := body.quantityUsed }
          ((db.createUsage partUsage).incrementQuantity body.repairPartId (-body.quantityUsed),
            .partAdded db.nextUsageId partUsage)

/-- The handler `removePartFromRepairJob(req, res)`.  An update of a part that has no
row is rejected by the store and rolled back, which the `catch` block reports. -/
def removePartFromRepairJob (id : String) (usageId : ℕ) (db : RepairDb) :
    RepairDb × RepairResponse :=
  match db.findUsage usageId with
  | none => (db, .notFound "Part usage record not found")
  | some partUsage =>
    if partUsage.repairJobId ≠ id then
      (db, .rejected "Part usage does not belong to this repair job")
    else
      match db.repairPart partUsage.repairPartId with
      | none => (db, .serverError "Internal server error")
      | some _ =>
        ((db.incrementQuantity partUsage.repairPartId partUsage.quantityUsed).deleteUsage
          usageId, .partRemoved)

/-- The messages `validationResult(req)` holds for `PUT /api/repairs/:id/status`. -/
def statusValidationResult (body : StatusBody) : List String :=
  check (["RECEIVED", "IN_PROGRESS", "COMPLETED", "DELIVERED"].contains body.status)
      "Status must be RECEIVED, IN_PROGRESS, COMPLETED, or DELIVERED" ++
    optionalCheck body.laborCost (fun c => decide (0 ≤ c)) "Labor cost must be a positive number"

/-- The usages joined with their parts (`include: { repairPart: true }`); none when
a usage has no part row, in which case reading `usage.repairPart.costPrice` throws. -/
def joinParts (db : RepairDb) :
    List RepairPartUsage → Option (List (RepairPartUsage × RepairPart))
  | [] => some []
  | usage :: rest =>
    match db.repairPart usage.repairPartId with
    | none => none
    | some part =>
      match joinParts db rest with
      | none => none
      | some joined => some ((usage, part) :: joined)

/-- The `partsUsed` of a job, each usage joined with its part. -/
def partsUsed (db : RepairDb) (id : String) : Option (List (RepairPartUsage × RepairPart)) :=
  joinParts db ((db.repairPartUsage.filter (fun e => e.2.repairJobId = id)).map (fun e => e.2))

/-- The handler `updateRepairJobStatus(req, res)`. -/
def updateRepairJobStatus (id : String) (body : StatusBody) (db : RepairDb) :
    RepairDb × RepairResponse :=
  let errors := statusValidationResult body
  if !errors.isEmpty then (db, .badRequest errors)
  else
    match db.repairJob id, partsUsed db id with
    | none, _ => (db, .notFound "Repair job not found")
    | some existingJob, joined =>
      match body.laborCost with
      | some laborCost =>
        if body.status = "COMPLETED" then
          match joined with
          | none => (db, .serverError "Internal server error")
          | some usages =>
            let partsCost : ℚ :=
              usages.foldl (fun total usage => total + usage.2.costPrice * usage.1.quantityUsed) 0
            let labor : ℚ := if laborCost = 0 then 0 else laborCost
            let updatedJob : RepairJob :=
              { existingJob with
                status := body.status, laborCost := labor, totalCost := partsCost + labor }
            ({ db with repairJob := fun k => if k = id then some updatedJob else db.repairJob k },
              .statusUpdated updatedJob)
        else
          let updatedJob : RepairJob := { existingJob with status := body.status }
          ({ db with repairJob := fun k => if k = id then some updatedJob else db.repairJob k },
            .statusUpdated updatedJob)
      | none =>
        let updatedJob : RepairJob := { existingJob with status := body.status }
        ({ db with repairJob := fun k => if k = id then some updatedJob else db.repairJob k },
          .statusUpdated updatedJob)

/-! ## Quantities the statements are about -/

/-- The product row with its quantity lowered by `n`, every other column kept. -/
def Product.less (p : Product) (n : ℤ) : Product := { p with quantity := p.quantity - n }

/-- The unit selling price of a product as stored in `db` (0 for a missing product). -/
def unitPrice (db : Db) (id : String) : ℚ :=
  ((db.retailProduct id).map (fun p => p.sellingPrice)).getD 0

/-- The sum over the lines of unit selling price times quantity. -/
def lineTotal (db : Db) (items : List Item) : ℚ :=
  (items.map (fun item => unitPrice db item.productId * item.quantity)).sum

/-- The total quantity the lines request for one product. -/
def requestedFor (items : List Item) (id : String) : ℤ :=
  ((items.filter (fun item => decide (item.productId = id))).map (fun item => item.quantity)).sum

/-- The GST rate of a product as stored in `db` (0 for a missing product). -/
def gstRateOf (db : Db) (id : String) : ℚ :=
  ((db.retailProduct id).map (fun p => p.gstRate)).getD 0

/-- Every product row of the store has a non-negative quantity. -/
def Db.quantitiesNonneg (db : Db) : Prop :=
  ∀ k p, db.retailProduct k = some p → 0 ≤ p.quantity

/-- The sum of the per-line `totalGst` values, added up in line order from 0. -/
def sumLineGst (items : List SaleItem) : JSNum :=
  (items.map (fun x => x.gstBreakdown.totalGst)).foldl (fun acc g => acc + g) 0

/-- The persisted line of a `saleItems` entry. -/
def SaleItem.toLine (item : SaleItem) : SaleLine :=
  { productId := item.productId, quantity := item.quantity, priceAtSale := item.priceAtSale,
    gstAtSale := item.gstAtSale }

/-- The line a request line is expected to be persisted as: the price and the rate
are those of the product in `db`. -/
def expectedLine (db : Db) (item : Item) : SaleLine :=
  { productId := item.productId, quantity := item.quantity,
    priceAtSale := unitPrice db item.productId, gstAtSale := gstRateOf db item.productId }

/-- The start year `S` of the financial year of a clock reading: the calendar year
from April on, the year before until March. -/
def startYear (now : DateTime) : ℤ :=
  if now.month + 1 ≥ 4 then now.fullYear else now.fullYear - 1

/-- The number of sales created in the window `[April 1 of S, April 1 of S+1)`. -/
def countInWindow (db : Db) (S : ℤ) : ℕ :=
  (db.sale.filter (fun s =>
    decide (aprilFirst S ≤ s.createdAt) && decide (s.createdAt < aprilFirst (S + 1)))).length

/-- The last two decimal digits of a number, as text. -/
def twoDigits (n : ℕ) : String :=
  String.mk [Nat.digitChar (n / 10 % 10), Nat.digitChar (n % 10)]

/-- A number below 10000 written with exactly four decimal digits. -/
def fourDigits (n : ℕ) : String :=
  String.mk [Nat.digitChar (n / 1000 % 10), Nat.digitChar (n / 100 % 10),
    Nat.digitChar (n / 10 % 10), Nat.digitChar (n % 10)]

/-- The number a list of decimal digit characters denotes. -/
def decimalValue : List Char → ℕ
  | [] => 0
  | c :: cs => (c.toNat - 48) * 10 ^ cs.length + decimalValue cs

/-- The figures of an invoice line that do not depend on the tax split. -/
def InvoiceItem.figures (x : InvoiceItem) : ℤ × ℚ × JSNum × ℚ × JSNum :=
  (x.quantity, x.unitPrice, x.totalPrice, x.gstRate, x.taxableValue)

/-- The tax split of an invoice line. -/
def InvoiceItem.taxes (x : InvoiceItem) : JSNum × JSNum × JSNum :=
  (x.cgst, x.sgst, x.igst)

/-- The figures of a `saleItems` entry that an invoice line is computed from. -/
def SaleItem.core (x : SaleItem) : ℤ × ℚ × JSNum × ℚ × GSTBreakdown :=
  (x.quantity, x.priceAtSale, x.itemTotal, x.gstAtSale, x.gstBreakdown)

/-- The figures `getSaleById` recomputes from a stored line: the line total is price
times quantity and the tax split is the intra-state one. -/
def SaleLine.core (l : SaleLine) : ℤ × ℚ × JSNum × ℚ × GSTBreakdown :=
  (l.quantity, l.priceAtSale, JSNum.fin l.priceAtSale * JSNum.fin l.quantity, l.gstAtSale,
    calculateGST (JSNum.fin l.priceAtSale * JSNum.fin l.quantity) (JSNum.fin l.gstAtSale) false)

/-- Quantity, unit price, total price, GST rate and taxable value of an invoice line,
from the figures of its entry. -/
def figuresOf (c : ℤ × ℚ × JSNum × ℚ × GSTBreakdown) : ℤ × ℚ × JSNum × ℚ × JSNum :=
  (c.1, c.2.1, c.2.2.1, c.2.2.2.1, Math.round (c.2.2.2.2.baseAmount * 100) / 100)

/-- The `cgst`, `sgst` and `igst` of an invoice line, from the figures of its entry. -/
def taxesOf (c : ℤ × ℚ × JSNum × ℚ × GSTBreakdown) : JSNum × JSNum × JSNum :=
  (Math.round (c.2.2.2.2.cgst * 100) / 100, Math.round (c.2.2.2.2.sgst * 100) / 100,
    Math.round (c.2.2.2.2.igst * 100) / 100)

/-- The HSN code of a category: the mobile-phone code for `Mobile Phone`, the
accessories code for every other category. -/
def hsnCodeOf (category : String) : String :=
  if category = "Mobile Phone" then "85171200" else "85444900"

/-- The category of a product as stored in `db` (empty for a missing product). -/
def categoryOf (db : Db) (id : String) : String :=
  ((db.retailProduct id).map (fun p => p.category)).getD ""

/-- The state in which the line loop of `createSalesCart` starts. -/
def initialCartState : CartState :=
  { totalAmount := 0, totalGstAmount := 0, cartItems := [], productValidation := [] }

/-- The sum of a list of numbers, added up in order from 0. -/
def sumOf (xs : List JSNum) : JSNum := xs.foldl (fun acc x => acc + x) 0

/-- A number with at most 2 decimals. -/
def IsCents (x : JSNum) : Prop := ∃ n : ℤ, x = JSNum.fin (n / 100)

/-- The cost of the parts of a job: the sum of cost price times quantity used. -/
def partsCostOf (usages : List (RepairPartUsage × RepairPart)) : ℚ :=
  (usages.map (fun u => u.2.costPrice * (u.1.quantityUsed : ℚ))).sum

/-- The key counter is above every key in use, so that a generated key is new. -/
def RepairDb.keysFresh (db : RepairDb) : Prop :=
  ∀ e ∈ db.repairPartUsage, e.1 < db.nextUsageId

/-- The four tax fields of a breakdown have at most 2 decimals. -/
def GSTBreakdown.InCents (b : GSTBreakdown) : Prop :=
  IsCents b.cgst ∧ IsCents b.sgst ∧ IsCents b.igst ∧ IsCents b.totalGst

/-! ## A sample store and request -/

/-- The product of the spec's scenarios: price 1000, GST rate 18, quantity 5. -/
def sampleProduct : Product :=
  { id := "P", name := "P", category := "Mobile Phone", brand := "B", model := "M",
    sellingPrice := 1000, gstRate := 18, quantity := 5 }

/-- A store holding only `sampleProduct`, with no sale yet. -/
def sampleDb : Db :=
  { retailProduct := fun k => if k = "P" then some sampleProduct else none, sale := [] }

/-- A cash request for the given lines with every optional field absent. -/
def sampleBody (items : List Item) : Body :=
  { items := items, customerInfo := none, paymentMode := "CASH", discountAmount := none,
    isInterState := none, notes := none }

/-- A clock reading in July 2024. -/
def sampleNow : DateTime := { time := 1720000000000, fullYear := 2024, month := 6 }

/-- A store with two products, `A` at 6000 and `B` at 4000, both at 18 percent. -/
def sampleDb2 : Db :=
  { retailProduct := fun k =>
      if k = "A" then
        some { id := "A", name := "A", category := "Mobile Phone", brand := "B", model := "M",
               sellingPrice := 6000, gstRate := 18, quantity := 5 }
      else if k = "B" then
        some { id := "B", name := "B", category := "Accessory", brand := "B", model := "M",
               sellingPrice := 4000, gstRate := 18, quantity := 5 }
      else none
    sale := [] }

/-- A store holding one product with selling price 0. -/
def zeroPriceDb : Db :=
  { retailProduct := fun k =>
      if k = "Z" then
        some { id := "Z", name := "Z", category := "Accessory", brand := "B", model := "M",
               sellingPrice := 0, gstRate := 18, quantity := 5 }
      else none
    sale := [] }

/-- A cash request for the given lines with a discount. -/
def sampleBodyWith (items : List Item) (discount : ℚ) (isInterState : Bool) : Body :=
  { items := items, customerInfo := none, paymentMode := "CASH",
    discountAmount := some discount, isInterState := some isInterState, notes := none }

/-- The clock at 2024-04-01 01:30 in India (UTC+5:30), which is 2024-03-31 20:00 UTC:
the local calendar reads April 2024. -/
def indiaNow1 : DateTime := { time := 1711915200000, fullYear := 2024, month := 3 }

/-- The clock one hour later, 2024-04-01 02:30 in India. -/
def indiaNow2 : DateTime := { time := 1711918800000, fullYear := 2024, month := 3 }

/-- A stored sale without lines, created at the given time. -/
def sampleSaleAt (createdAt : ℤ) : Sale :=
  { totalAmount := .fin 2000, gstAmount := .fin (30508 / 100), paymentMode := "CASH",
    items := [], createdAt := createdAt }

/-- A sale data object without lines, for the given customer. -/
def sampleSaleData (customerInfo : CustomerInfo) : SaleData :=
  { sale := sampleSaleAt 1720000000000, saleItems := [], invoiceNumber := "KM/2024-25/0001",
    totalAmount := .fin 2000, discountAmount := .fin 0, discountedAmount := .fin 2000,
    finalGstAmount := .fin (30508 / 100), customerInfo := customerInfo, isInterState := false,
    notes := "" }

/-- A store holding 101 sales and no product. -/
def manySalesDb : Db :=
  { retailProduct := fun _ => none, sale := List.replicate 101 (sampleSaleAt 1720000000000) }

/-- A listing query without filters that asks for pages of 1000 sales. -/
def wideQuery : SalesQuery :=
  { startDate := none, endDate := none, paymentMode := none, minAmount := none,
    maxAmount := none, page := none, limit := some 1000 }

/-- Repair tables with one job `J`, one part `S` (cost 250, 4 on hand) and no usage. -/
def sampleRepairDb : RepairDb :=
  { repairJob := fun k =>
      if k = "J" then some { id := "J", status := "IN_PROGRESS", laborCost := 0, totalCost := 0 }
      else none
    repairPart := fun k =>
      if k = "S" then
        some { id := "S", name := "Display", partNumber := "D-1", costPrice := 250, quantity := 4 }
      else none
    repairPartUsage := []
    nextUsageId := 0 }

/-- Repair tables in which job `J` has used one display of cost 250. -/
def usedRepairDb : RepairDb :=
  { sampleRepairDb with
    repairPartUsage := [(0, { repairJobId := "J", repairPartId := "S", quantityUsed := 1 })]
    nextUsageId := 1 }

/-! ## Arithmetic on finite values -/

namespace JSNum

@[simp]
theorem ofNat_eq_fin (n : Nat) [n.AtLeastTwo] :
    (OfNat.ofNat n : JSNum) = fin (OfNat.ofNat n) := by
  show fin ((n : ℕ) : ℚ) = fin (OfNat.ofNat n)
  rw [Nat.cast_eq_ofNat]

@[simp]
theorem zero_eq_fin : (0 : JSNum) = fin 0 := by
  show fin ((0 : ℕ) : ℚ) = fin 0
  simp

@[simp]
theorem one_eq_fin : (1 : JSNum) = fin 1 := by
  show fin ((1 : ℕ) : ℚ) = fin 1
  simp

@[simp]
theorem fin_add_fin (a b : ℚ) : fin a + fin b = fin (a + b) := rfl

@[simp]
theorem fin_sub_fin (a b : ℚ) : fin a - fin b = fin (a - b) := by
  show add (fin a) (neg (fin b)) = fin (a - b)
  simp [add, neg, sub_eq_add_neg]

@[simp]
theorem fin_mul_fin (a b : ℚ) : fin a * fin b = fin (a * b) := rfl

theorem fin_div_fin (a b : ℚ) (hb : b ≠ 0) : fin a / fin b = fin (a / b) := by
  show div (fin a) (fin b) = fin (a / b)
  simp [div, hb]

@[simp]
theorem fin_div_hundred (a : ℚ) : fin a / fin 100 = fin (a / 100) :=
  fin_div_fin a 100 (by norm_num)

@[simp]
theorem fin_div_two (a : ℚ) : fin a / fin 2 = fin (a / 2) :=
  fin_div_fin a 2 (by norm_num)

end JSNum

@[simp]
theorem Math.round_fin (q : ℚ) : Math.round (.fin q) = .fin (⌊q + 1 / 2⌋ : ℤ) := rfl

@[simp]
theorem Math.max_fin (a b : ℚ) : Math.max (.fin a) (.fin b) = .fin (Max.max a b) := rfl

/-- Rounding a finite value and dividing by 100 is the spec's `roundHalfUp2`. -/
theorem round_times_hundred (x : ℚ) :
    Math.round (JSNum.fin x * 100) / 100 = JSNum.fin (roundHalfUp2 x) := by
  simp [roundHalfUp2]

/-- The divisor `1 + gstRate / 100` is zero only at rate `-100`. -/
theorem one_add_rate_ne_zero (r : ℚ) (hr : r ≠ -100) : 1 + r / 100 ≠ 0 := by
  intro h
  apply hr
  linarith

/-- The result of `calculateGST` on finite arguments with a rate other than `-100`. -/
theorem calculateGST_fin (a r : ℚ) (hr : r ≠ -100) (isInterState : Bool) :
    calculateGST (.fin a) (.fin r) isInterState =
      if isInterState then
        { baseAmount := .fin (roundHalfUp2 (a / (1 + r / 100)))
          igst := .fin (roundHalfUp2 (a - a / (1 + r / 100)))
          cgst := .fin 0
          sgst := .fin 0
          totalGst := .fin (roundHalfUp2 (a - a / (1 + r / 100))) }
      else
        { baseAmount := .fin (roundHalfUp2 (a / (1 + r / 100)))
          igst := .fin 0
          cgst := .fin (roundHalfUp2 ((a - a / (1 + r / 100)) / 2))
          sgst := .fin (roundHalfUp2 ((a - a / (1 + r / 100)) / 2))
          totalGst := .fin (roundHalfUp2 (a - a / (1 + r / 100))) } := by
  have h := one_add_rate_ne_zero r hr
  cases isInterState <;>
    simp [calculateGST, JSNum.fin_div_fin _ _ h, roundHalfUp2]

/-- Evaluating `roundHalfUp2` from the two bounds that pin the floor. -/
theorem roundHalfUp2_eq (x : ℚ) (n : ℤ) (h1 : (n : ℚ) ≤ x * 100 + 1 / 2)
    (h2 : x * 100 + 1 / 2 < n + 1) : roundHalfUp2 x = n / 100 := by
  unfold roundHalfUp2
  rw [Int.floor_eq_iff.mpr ⟨h1, h2⟩]

/-- The rounding error of `roundHalfUp2`, in hundredths. -/
theorem roundHalfUp2_bounds (x : ℚ) :
    x - 1 / 200 < roundHalfUp2 x ∧ roundHalfUp2 x ≤ x + 1 / 200 := by
  unfold roundHalfUp2
  have h1 := Int.floor_le (x * 100 + 1 / 2)
  have h2 := Int.lt_floor_add_one (x * 100 + 1 / 2)
  constructor <;> linarith

/-! ## The line loop -/

/-- What a line that passes its checks does to the loop state. -/
theorem processItem_ok {isInterState : Bool} {st st1 : LoopState} {item : Item}
    (h : processItem isInterState st item = .ok st1) :
    ∃ p, st.tx.retailProduct item.productId = some p ∧ item.quantity ≤ p.quantity ∧
      st1.tx = st.tx.decrementQuantity item.productId item.quantity ∧
      st1.totalAmount = st.totalAmount + .fin (p.sellingPrice * item.quantity) ∧
      st1.totalGstAmount = st.totalGstAmount +
        (calculateGST (.fin (p.sellingPrice * item.quantity)) (.fin p.gstRate)
          isInterState).totalGst ∧
      st1.saleItems.map (fun x => x.itemTotal) =
        st.saleItems.map (fun x => x.itemTotal) ++ [.fin (p.sellingPrice * item.quantity)] ∧
      st1.saleItems.map (fun x => x.gstBreakdown) =
        st.saleItems.map (fun x => x.gstBreakdown) ++
          [calculateGST (.fin (p.sellingPrice * item.quantity)) (.fin p.gstRate) isInterState] := by
  unfold processItem at h
  cases hp : st.tx.retailProduct item.productId with
  | none => simp [hp] at h
  | some p =>
    simp only [hp] at h
    by_cases hq : p.quantity < item.quantity
    · simp [hq] at h
    · simp only [hq, if_false, Except.ok.injEq] at h
      subst h
      exact ⟨p, rfl, not_lt.mp hq, rfl, rfl, rfl, by simp, by simp⟩

/-- What a line that fails its checks throws. -/
theorem processItem_error {isInterState : Bool} {st : LoopState} {item : Item} {e : String}
    (h : processItem isInterState st item = .error e) :
    (st.tx.retailProduct item.productId = none ∧ e = notFoundMessage item.productId) ∨
      ∃ p, st.tx.retailProduct item.productId = some p ∧ p.quantity < item.quantity ∧
        e = insufficientStockMessage p.name p.quantity item.quantity := by
  unfold processItem at h
  cases hp : st.tx.retailProduct item.productId with
  | none =>
    simp only [hp, Except.error.injEq] at h
    exact Or.inl ⟨rfl, h.symm⟩
  | some p =>
    simp only [hp] at h
    by_cases hq : p.quantity < item.quantity
    · simp only [hq, if_true, Except.error.injEq] at h
      exact Or.inr ⟨p, rfl, hq, h.symm⟩
    · simp [hq] at h

theorem requestedFor_nil (k : String) : requestedFor [] k = 0 := rfl

theorem requestedFor_cons (item : Item) (rest : List Item) (k : String) :
    requestedFor (item :: rest) k =
      (if item.productId = k then item.quantity else 0) + requestedFor rest k := by
  unfold requestedFor
  by_cases h : item.productId = k <;> simp [List.filter_cons, h]

theorem requestedFor_append (xs ys : List Item) (k : String) :
    requestedFor (xs ++ ys) k = requestedFor xs k + requestedFor ys k := by
  unfold requestedFor
  simp [List.filter_append]

theorem Product.less_zero (p : Product) : p.less 0 = p := by
  cases p
  simp [Product.less]

theorem Product.less_less (p : Product) (m n : ℤ) : (p.less m).less n = p.less (m + n) := by
  cases p
  simp [Product.less, sub_sub]

theorem decrementQuantity_retailProduct (db : Db) (id : String) (n : ℤ) (k : String) :
    (db.decrementQuantity id n).retailProduct k =
      if k = id then (db.retailProduct k).map (fun p => p.less n) else db.retailProduct k := rfl

theorem unitPrice_decrementQuantity (db : Db) (id : String) (n : ℤ) (k : String) :
    unitPrice (db.decrementQuantity id n) k = unitPrice db k := by
  unfold unitPrice
  rw [decrementQuantity_retailProduct]
  by_cases h : k = id
  · simp only [h, if_true]
    cases db.retailProduct id <;> rfl
  · simp only [h, if_false]

theorem lineTotal_decrementQuantity (db : Db) (id : String) (n : ℤ) (items : List Item) :
    lineTotal (db.decrementQuantity id n) items = lineTotal db items := by
  unfold lineTotal
  simp only [unitPrice_decrementQuantity]

/-- The database a successful loop leaves in the transaction: the `sale` table is
untouched and every product row has its quantity lowered by what the lines ask
for it. -/
theorem processItems_tx {isInterState : Bool} :
    ∀ (items : List Item) (st st1 : LoopState),
      processItems isInterState st items = .ok st1 →
      st1.tx.sale = st.tx.sale ∧
        ∀ k, st1.tx.retailProduct k =
          (st.tx.retailProduct k).map (fun p => p.less (requestedFor items k)) := by
  intro items
  induction items with
  | nil =>
    intro st st1 h
    simp only [processItems, Except.ok.injEq] at h
    subst h
    refine ⟨rfl, fun k => ?_⟩
    simp [requestedFor_nil, Product.less_zero]
  | cons item rest ih =>
    intro st st1 h
    unfold processItems at h
    cases h1 : processItem isInterState st item with
    | error e => simp [h1] at h
    | ok st2 =>
      simp only [h1] at h
      obtain ⟨p, -, -, htx, -⟩ := processItem_ok h1
      obtain ⟨hs, hk⟩ := ih st2 st1 h
      refine ⟨by rw [hs, htx]; rfl, fun k => ?_⟩
      rw [hk k, htx, decrementQuantity_retailProduct, requestedFor_cons]
      by_cases hid : k = item.productId
      · subst hid
        simp only [if_true, Option.map_map]
        congr 1
        funext q
        simp [Product.less_less]
      · have hid1 : ¬ item.productId = k := fun h => hid h.symm
        simp [hid, hid1]

/-- The running total a successful loop ends with. -/
theorem processItems_totalAmount {isInterState : Bool} :
    ∀ (items : List Item) (st st1 : LoopState) (t : ℚ),
      processItems isInterState st items = .ok st1 → st.totalAmount = .fin t →
      st1.totalAmount = .fin (t + lineTotal st.tx items) := by
  intro items
  induction items with
  | nil =>
    intro st st1 t h ht
    simp only [processItems, Except.ok.injEq] at h
    subst h
    simp [ht, lineTotal]
  | cons item rest ih =>
    intro st st1 t h ht
    unfold processItems at h
    cases h1 : processItem isInterState st item with
    | error e => simp [h1] at h
    | ok st2 =>
      simp only [h1] at h
      obtain ⟨p, hp, -, htx, htot, -⟩ := processItem_ok h1
      rw [ht, JSNum.fin_add_fin] at htot
      rw [ih st2 st1 _ h htot, htx, lineTotal_decrementQuantity]
      congr 1
      simp [lineTotal, unitPrice, hp]
      ring

/-- A loop that throws does so at a first failing line, the lines before it having
been processed. -/
theorem processItems_error {isInterState : Bool} :
    ∀ (items : List Item) (st : LoopState) (e : String),
      processItems isInterState st items = .error e →
      ∃ pre line post st1, items = pre ++ line :: post ∧
        processItems isInterState st pre = .ok st1 ∧
        processItem isInterState st1 line = .error e := by
  intro items
  induction items with
  | nil =>
    intro st e h
    simp [processItems] at h
  | cons item rest ih =>
    intro st e h
    unfold processItems at h
    cases h1 : processItem isInterState st item with
    | error e1 =>
      simp only [h1, Except.error.injEq] at h
      subst h
      exact ⟨[], item, rest, st, rfl, rfl, h1⟩
    | ok st2 =>
      simp only [h1] at h
      obtain ⟨pre, line, post, st1, hsplit, hpre, hline⟩ := ih st2 e h
      refine ⟨item :: pre, line, post, st1, by rw [hsplit]; rfl, ?_, hline⟩
      unfold processItems
      simp only [h1]
      exact hpre

/-- A line that throws after the lines before it were processed makes the loop
throw the same error. -/
theorem processItems_append_error {isInterState : Bool} :
    ∀ (pre : List Item) (st st1 : LoopState) (line : Item) (post : List Item) (e : String),
      processItems isInterState st pre = .ok st1 →
      processItem isInterState st1 line = .error e →
      processItems isInterState st (pre ++ line :: post) = .error e := by
  intro pre
  induction pre with
  | nil =>
    intro st st1 line post e hpre hline
    simp only [processItems, Except.ok.injEq] at hpre
    subst hpre
    simp [processItems, hline]
  | cons item rest ih =>
    intro st st1 line post e hpre hline
    unfold processItems at hpre
    cases h1 : processItem isInterState st item with
    | error e1 => simp [h1] at hpre
    | ok st2 =>
      simp only [h1] at hpre
      rw [List.cons_append]
      unfold processItems
      simp only [h1]
      exact ih st2 st1 line post e hpre hline

/-! ## The request as a whole -/

theorem notFoundMessage_ne_empty (productId : String) : notFoundMessage productId ≠ "" := by
  intro h
  have h1 := congrArg String.data h
  simp [notFoundMessage, String.data_append] at h1

theorem insufficientStockMessage_ne_empty (name : String) (a r : ℤ) :
    insufficientStockMessage name a r ≠ "" := by
  intro h
  have h1 := congrArg String.data h
  simp [insufficientStockMessage, String.data_append] at h1

theorem notFoundMessage_ne_insufficientStockMessage (productId name : String) (a r : ℤ) :
    notFoundMessage productId ≠ insufficientStockMessage name a r := by
  intro h
  have h1 := congrArg String.data h
  simp [notFoundMessage, insufficientStockMessage, String.data_append] at h1

/-- The error a line throws is never the empty text. -/
theorem processItem_error_ne_empty {isInterState : Bool} {st : LoopState} {item : Item}
    {e : String} (h : processItem isInterState st item = .error e) : e ≠ "" := by
  rcases processItem_error h with ⟨-, he⟩ | ⟨p, -, -, he⟩
  · rw [he]
    exact notFoundMessage_ne_empty _
  · rw [he]
    exact insufficientStockMessage_ne_empty _ _ _

/-- A request that passes validation has only lines of quantity at least 1. -/
theorem validationResult_quantity (body : Body) (hv : validationResult body = []) :
    ∀ item ∈ body.items, 1 ≤ item.quantity := by
  intro item hmem
  unfold validationResult at hv
  simp only [List.append_eq_nil] at hv
  have h3 := hv.1.1.1.1.1.1.1.1.2
  rw [List.flatten_eq_nil_iff] at h3
  have h4 := h3 _ (List.mem_map_of_mem _ hmem)
  by_contra hq
  simp [check, hq] at h4

/-- The response to a validated request whose line loop completes. -/
theorem processSale_ok (now : DateTime) (body : Body) (db : Db) (st : LoopState)
    (hv : validationResult body = [])
    (hloop : processItems (body.isInterState.getD false) (initialLoopState db) body.items
      = .ok st) :
    ∃ result, processSale now body db = (st.tx.createSale result.sale, .created result) ∧
      result.saleItems = st.saleItems ∧
      result.totalAmount = st.totalAmount ∧
      result.discountedAmount =
        Math.max 0 (st.totalAmount - .fin (body.discountAmount.getD 0)) ∧
      result.finalGstAmount = st.totalGstAmount * (result.discountedAmount / st.totalAmount) ∧
      result.sale.totalAmount = Math.round (result.discountedAmount * 100) / 100 ∧
      result.sale.gstAmount = Math.round (result.finalGstAmount * 100) / 100 ∧
      result.sale.paymentMode = body.paymentMode ∧
      result.sale.createdAt = now.time := by
  simp only [processSale, hv, List.isEmpty_nil, Bool.not_true, Bool.false_eq_true, if_false,
    transaction, saleTransaction, hloop]
  refine ⟨⟨_, _, _, _, _, _, _, _, _, _⟩, rfl, ?_⟩
  exact ⟨rfl, rfl, rfl, rfl, rfl, rfl, rfl, rfl⟩

/-- The response to a validated request whose line loop throws: the store is the one
before the request and the error text is the one thrown. -/
theorem processSale_error (now : DateTime) (body : Body) (db : Db) (e : String)
    (hv : validationResult body = [])
    (hloop : processItems (body.isInterState.getD false) (initialLoopState db) body.items
      = .error e) :
    processSale now body db =
      (db, .serverError (if e = "" then "Internal server error" else e)) := by
  simp only [processSale, hv, List.isEmpty_nil, Bool.not_true, Bool.false_eq_true, if_false,
    transaction, saleTransaction, hloop]

/-- A `201` response comes from a validated request whose line loop completed. -/
theorem processSale_created (now : DateTime) (body : Body) (db db1 : Db) (result : SaleData)
    (h : processSale now body db = (db1, .created result)) :
    validationResult body = [] ∧
      ∃ st, processItems (body.isInterState.getD false) (initialLoopState db) body.items
        = .ok st := by
  cases hv : validationResult body with
  | cons m ms =>
    simp [processSale, hv] at h
  | nil =>
    refine ⟨rfl, ?_⟩
    cases hloop : processItems (body.isInterState.getD false) (initialLoopState db) body.items with
    | error e =>
      rw [processSale_error now body db e hv hloop] at h
      simp at h
    | ok st => exact ⟨st, rfl⟩

/-- When every line asks for a non-negative quantity, a loop that completes has
found, for each line, at least the line's quantity on hand at the start. -/
theorem processItems_ok_le {isInterState : Bool} :
    ∀ (items : List Item) (st st1 : LoopState),
      processItems isInterState st items = .ok st1 →
      (∀ item ∈ items, 0 ≤ item.quantity) →
      ∀ item ∈ items, ∀ p, st.tx.retailProduct item.productId = some p →
        item.quantity ≤ p.quantity := by
  intro items
  induction items with
  | nil =>
    intro st st1 _ _ item hmem
    simp at hmem
  | cons head rest ih =>
    intro st st1 h hnonneg item hmem p hp
    unfold processItems at h
    cases h1 : processItem isInterState st head with
    | error e => simp [h1] at h
    | ok st2 =>
      simp only [h1] at h
      obtain ⟨p0, hp0, hle0, htx, -⟩ := processItem_ok h1
      rcases List.mem_cons.mp hmem with heq | hrest
      · subst heq
        rw [hp0] at hp
        injection hp with hp
        rw [← hp]
        exact hle0
      · have hhead : 0 ≤ head.quantity := hnonneg head (List.mem_cons_self _ _)
        have hrestnonneg : ∀ x ∈ rest, 0 ≤ x.quantity :=
          fun x hx => hnonneg x (List.mem_cons_of_mem _ hx)
        by_cases hid : item.productId = head.productId
        · have hp2 : st2.tx.retailProduct item.productId = some (p.less head.quantity) := by
            rw [htx, decrementQuantity_retailProduct, if_pos hid, hp]
            rfl
          have := ih st2 st1 h hrestnonneg item hrest _ hp2
          simp only [Product.less] at this
          linarith
        · have hp2 : st2.tx.retailProduct item.productId = some p := by
            rw [htx, decrementQuantity_retailProduct, if_neg hid, hp]
          exact ih st2 st1 h hrestnonneg item hrest _ hp2

/-! ## Tax calculator: the claims -/

/-- C3: for every amount and rate (non-finite ones included), the inter-state result
has `igst` equal to `totalGst` and `cgst`, `sgst` equal to 0. -/
theorem calculateGST_interState (amount gstRate : JSNum) :
    (calculateGST amount gstRate true).igst = (calculateGST amount gstRate true).totalGst ∧
      (calculateGST amount gstRate true).cgst = 0 ∧
      (calculateGST amount gstRate true).sgst = 0 := by
  simp [calculateGST]

/-- The tax split of a line total of 2000 at 18 percent, intra-state. -/
theorem calculateGST_2000_18 :
    calculateGST (.fin 2000) (.fin 18) false =
      { baseAmount := .fin (169492 / 100), igst := .fin 0, cgst := .fin (15254 / 100),
        sgst := .fin (15254 / 100), totalGst := .fin (30508 / 100) } := by
  rw [calculateGST_fin _ _ (by norm_num)]
  simp only [Bool.false_eq_true, if_false]
  rw [roundHalfUp2_eq (2000 / (1 + 18 / 100)) 169492 (by norm_num) (by norm_num),
    roundHalfUp2_eq (2000 - 2000 / (1 + 18 / 100)) 30508 (by norm_num) (by norm_num),
    roundHalfUp2_eq ((2000 - 2000 / (1 + 18 / 100)) / 2) 15254 (by norm_num) (by norm_num)]
  norm_num

/-- C6: in any store where product `pid` has selling price 1000, GST rate 18 and
quantity 5, a validated request with the single line `(pid, 2)`, no discount and
`isInterState = false` succeeds with line total 2000, the line breakdown
`baseAmount = 1694.92`, `totalGst = 305.08`, `cgst = sgst = 152.54`, a recorded total
of 2000, and leaves the product's quantity at 3. -/
theorem processSale_scenario_sale (now : DateTime) (body : Body) (db : Db) (pid : String)
    (p : Product) (hv : validationResult body = []) (hitems : body.items = [⟨pid, 2⟩])
    (hd : body.discountAmount.getD 0 = 0) (hi : body.isInterState.getD false = false)
    (hp : db.retailProduct pid = some p) (hprice : p.sellingPrice = 1000)
    (hrate : p.gstRate = 18) (hq : p.quantity = 5) :
    ∃ result, (processSale now body db).2 = .created result ∧
      result.saleItems.map (fun x => x.itemTotal) = [.fin 2000] ∧
      result.saleItems.map (fun x => x.gstBreakdown) =
        [{ baseAmount := .fin (169492 / 100), igst := .fin 0, cgst := .fin (15254 / 100),
           sgst := .fin (15254 / 100), totalGst := .fin (30508 / 100) }] ∧
      result.sale.totalAmount = .fin 2000 ∧
      (processSale now body db).1.quantityOf pid = some 3 := by
  have hitem : ∃ st, processItem false (initialLoopState db) ⟨pid, 2⟩ = .ok st := by
    simp [processItem, initialLoopState, hp, hq]
  obtain ⟨st, hst⟩ := hitem
  have hloop : processItems (body.isInterState.getD false) (initialLoopState db) body.items
      = .ok st := by
    rw [hi, hitems]
    simp [processItems, hst]
  obtain ⟨q, hq1, -, htx, htot, -, hsi, hsg⟩ := processItem_ok hst
  have hpq : q = p := by
    have : db.retailProduct pid = some q := hq1
    rw [hp] at this
    injection this with this
    exact this.symm
  subst hpq
  have hline : q.sellingPrice * ((2 : ℤ) : ℚ) = 2000 := by
    rw [hprice]
    norm_num
  simp only [hline, hrate, calculateGST_2000_18, initialLoopState, List.map_nil,
    List.nil_append] at htot hsi hsg
  obtain ⟨result, hres, hitems1, -, hdisc, -, htotal, -⟩ := processSale_ok now body db st hv hloop
  refine ⟨result, by rw [hres], by rw [hitems1, hsi], by rw [hitems1, hsg], ?_, ?_⟩
  · rw [htotal, hdisc, htot, hd]
    simp only [JSNum.zero_eq_fin, JSNum.ofNat_eq_fin, JSNum.fin_add_fin, JSNum.fin_sub_fin,
      Math.max_fin, JSNum.fin_mul_fin, Math.round_fin, JSNum.fin_div_hundred]
    have h1 : Max.max (0 : ℚ) (0 + 2000 - 0) * 100 + 1 / 2 = ((200000 : ℤ) : ℚ) + 1 / 2 := by
      norm_num
    have h2 : ⌊((200000 : ℤ) : ℚ) + 1 / 2⌋ = 200000 :=
      Int.floor_eq_iff.mpr ⟨by norm_num, by norm_num⟩
    rw [h1, h2]
    norm_num
  · rw [hres]
    show ((st.tx.createSale result.sale).retailProduct pid).map (fun p => p.quantity) = some 3
    show (st.tx.retailProduct pid).map (fun p => p.quantity) = some 3
    rw [htx, decrementQuantity_retailProduct]
    simp [initialLoopState, hp, Product.less, hq]

/-- Witness for C6: the sample store and the request for 2 units of `P`. -/
theorem processSale_scenario_sale_witness :
    ∃ result, (processSale sampleNow (sampleBody [⟨"P", 2⟩]) sampleDb).2 = .created result ∧
      result.saleItems.map (fun x => x.itemTotal) = [.fin 2000] ∧
      result.saleItems.map (fun x => x.gstBreakdown) =
        [{ baseAmount := .fin (169492 / 100), igst := .fin 0, cgst := .fin (15254 / 100),
           sgst := .fin (15254 / 100), totalGst := .fin (30508 / 100) }] ∧
      result.sale.totalAmount = .fin 2000 ∧
      (processSale sampleNow (sampleBody [⟨"P", 2⟩]) sampleDb).1.quantityOf "P" = some 3 :=
  processSale_scenario_sale sampleNow (sampleBody [⟨"P", 2⟩]) sampleDb "P" sampleProduct
    (by decide) rfl rfl rfl rfl rfl rfl rfl

/-- C10: after a successful `processSale`, every product's quantity is its quantity
before minus the sum of the quantities the request's lines ask for it (every other
column of the row being kept), every product no line refers to is unchanged, and
exactly one sale record has been added. -/
theorem processSale_stock_effect (now : DateTime) (body : Body) (db db1 : Db)
    (result : SaleData) (h : processSale now body db = (db1, .created result)) :
    (∀ k, db1.retailProduct k =
        (db.retailProduct k).map (fun p => p.less (requestedFor body.items k))) ∧
      (∀ k, db1.quantityOf k =
        (db.quantityOf k).map (fun q => q - requestedFor body.items k)) ∧
      (∀ k, (∀ item ∈ body.items, item.productId ≠ k) →
        db1.retailProduct k = db.retailProduct k) ∧
      db1.sale = db.sale ++ [result.sale] := by
  obtain ⟨hv, st, hloop⟩ := processSale_created now body db db1 result h
  obtain ⟨r, hres, -⟩ := processSale_ok now body db st hv hloop
  rw [hres] at h
  injection h with hdb hresp
  injection hresp with hresp
  subst hresp
  obtain ⟨hsale, hprod⟩ := processItems_tx body.items _ _ hloop
  have hrows : ∀ k, db1.retailProduct k =
      (db.retailProduct k).map (fun p => p.less (requestedFor body.items k)) := by
    intro k
    rw [← hdb]
    exact hprod k
  refine ⟨hrows, ?_, ?_, ?_⟩
  · intro k
    unfold Db.quantityOf
    rw [hrows k]
    cases db.retailProduct k <;> simp [Product.less]
  · intro k hk
    rw [hrows k]
    have hzero : requestedFor body.items k = 0 := by
      unfold requestedFor
      rw [List.filter_eq_nil_iff.mpr]
      · rfl
      · intro item hmem
        simpa using hk item hmem
    rw [hzero]
    cases db.retailProduct k <;> simp [Product.less_zero]
  · rw [← hdb]
    show st.tx.sale ++ [r.sale] = db.sale ++ [r.sale]
    rw [hsale]
    rfl

/-- Witness for C10: the sample store and the request for 2 units of `P`. -/
theorem processSale_stock_effect_witness :
    ∃ db1 result,
      processSale sampleNow (sampleBody [⟨"P", 2⟩]) sampleDb = (db1, .created result) ∧
      db1.quantityOf "P" = some 3 ∧ db1.sale = [result.sale] := by
  obtain ⟨st, hst⟩ : ∃ st, processItems (((sampleBody [⟨"P", 2⟩]).isInterState).getD false)
      (initialLoopState sampleDb) (sampleBody [⟨"P", 2⟩]).items = .ok st := by
    simp [processItems, processItem, initialLoopState, sampleBody, sampleDb, sampleProduct]
  obtain ⟨r, hres, -⟩ := processSale_ok sampleNow _ sampleDb st (by decide) hst
  have hall := processSale_stock_effect sampleNow _ sampleDb _ r hres
  refine ⟨_, r, hres, ?_, ?_⟩
  · rw [hall.2.1 "P"]
    simp [Db.quantityOf, sampleDb, sampleProduct, sampleBody, requestedFor]
  · rw [hall.2.2.2]
    rfl

/-- C8, as stated, fails: the validated request `[(X, 1), (P, 6)]` on the sample
store has a line asking 6 of a product with 5 on hand, yet the error text is the
not-found text of the earlier line and names neither the product nor a quantity. -/
theorem processSale_insufficient_stock_counterexample :
    validationResult (sampleBody [⟨"X", 1⟩, ⟨"P", 6⟩]) = [] ∧
      sampleDb.retailProduct "P" = some sampleProduct ∧ sampleProduct.quantity < 6 ∧
      processSale sampleNow (sampleBody [⟨"X", 1⟩, ⟨"P", 6⟩]) sampleDb =
        (sampleDb, .serverError "Product with ID X not found") ∧
      ∀ (name : String) (available requested : ℤ),
        "Product with ID X not found" ≠ insufficientStockMessage name available requested := by
  have hloop : processItems (((sampleBody [⟨"X", 1⟩, ⟨"P", 6⟩]).isInterState).getD false)
      (initialLoopState sampleDb) (sampleBody [⟨"X", 1⟩, ⟨"P", 6⟩]).items
        = .error (notFoundMessage "X") := by
    simp [processItems, processItem, initialLoopState, sampleBody, sampleDb]
  have hmsg : notFoundMessage "X" = "Product with ID X not found" := by decide
  refine ⟨by decide, rfl, by decide, ?_, ?_⟩
  · rw [processSale_error sampleNow _ sampleDb _ (by decide) hloop,
      if_neg (notFoundMessage_ne_empty "X"), hmsg]
  · intro name available requested
    rw [← hmsg]
    exact notFoundMessage_ne_insufficientStockMessage "X" name available requested

/-- C8, amended: a validated request containing a line that asks more than the
on-hand quantity of its product gets a `500` response, and the store afterwards is
the store before (no sale record, every quantity unchanged).  The error text is
that of the first line that fails: the not-found text when that line names a
missing product, otherwise the insufficient-stock text naming that line's product,
the quantity available at that point (on hand less what the earlier lines took of
it) and the requested quantity. -/
theorem processSale_insufficient_stock (now : DateTime) (body : Body) (db : Db)
    (hv : validationResult body = []) (item : Item) (hmem : item ∈ body.items) (p : Product)
    (hp : db.retailProduct item.productId = some p) (hlt : p.quantity < item.quantity) :
    ∃ pre line post message, body.items = pre ++ line :: post ∧
      (∃ st1, processItems (body.isInterState.getD false) (initialLoopState db) pre
        = .ok st1) ∧
      processSale now body db = (db, .serverError message) ∧
      ((db.retailProduct line.productId = none ∧ message = notFoundMessage line.productId) ∨
        ∃ q, db.retailProduct line.productId = some q ∧
          q.quantity - requestedFor pre line.productId < line.quantity ∧
          message = insufficientStockMessage q.name
            (q.quantity - requestedFor pre line.productId) line.quantity) := by
  have hpos := validationResult_quantity body hv
  cases hloop : processItems (body.isInterState.getD false) (initialLoopState db) body.items with
  | ok st =>
    have hle := processItems_ok_le body.items _ _ hloop
      (fun x hx => le_trans (by norm_num) (hpos x hx)) item hmem p hp
    exact absurd hlt (not_lt.mpr hle)
  | error e =>
    obtain ⟨pre, line, post, st1, hsplit, hpre, hline⟩ := processItems_error _ _ _ hloop
    have hrow := (processItems_tx pre _ _ hpre).2 line.productId
    have hne := processItem_error_ne_empty hline
    refine ⟨pre, line, post, e, hsplit, ⟨st1, hpre⟩, ?_, ?_⟩
    · rw [processSale_error now body db e hv hloop, if_neg hne]
    · rcases processItem_error hline with ⟨hnone, he⟩ | ⟨p1, hsome, hlt1, he⟩
      · left
        rw [hrow] at hnone
        refine ⟨?_, he⟩
        cases hdb : db.retailProduct line.productId with
        | none => rfl
        | some q =>
          have hdb1 : (initialLoopState db).tx.retailProduct line.productId = some q := hdb
          simp [hdb1] at hnone
      · right
        rw [hrow] at hsome
        cases hdb : db.retailProduct line.productId with
        | none =>
          have hdb1 : (initialLoopState db).tx.retailProduct line.productId = none := hdb
          simp [hdb1] at hsome
        | some q =>
          have hdb1 : (initialLoopState db).tx.retailProduct line.productId = some q := hdb
          rw [hdb1] at hsome
          simp only [Option.map_some', Option.some.injEq] at hsome
          subst hsome
          exact ⟨q, rfl, hlt1, he⟩

/-- Witness for C8 (amended): stock 5, requested 6; the text names `P`, 5 and 6 and the
quantity remains 5. -/
theorem processSale_insufficient_stock_witness :
    (∃ pre line post message, (sampleBody [⟨"P", 6⟩]).items = pre ++ line :: post ∧
      (∃ st1, processItems (((sampleBody [⟨"P", 6⟩]).isInterState).getD false)
        (initialLoopState sampleDb) pre = .ok st1) ∧
      processSale sampleNow (sampleBody [⟨"P", 6⟩]) sampleDb = (sampleDb, .serverError message) ∧
      ((sampleDb.retailProduct line.productId = none ∧
          message = notFoundMessage line.productId) ∨
        ∃ q, sampleDb.retailProduct line.productId = some q ∧
          q.quantity - requestedFor pre line.productId < line.quantity ∧
          message = insufficientStockMessage q.name
            (q.quantity - requestedFor pre line.productId) line.quantity)) ∧
      insufficientStockMessage "P" 5 6 =
        "Insufficient stock for P. Available: 5, Requested: 6" ∧
      sampleDb.quantityOf "P" = some 5 :=
  ⟨processSale_insufficient_stock sampleNow (sampleBody [⟨"P", 6⟩]) sampleDb (by decide)
      ⟨"P", 6⟩ (List.mem_singleton.mpr rfl) sampleProduct rfl (by decide),
    by decide, rfl⟩

/-- C9: when a line of a validated request throws (missing product or insufficient
stock) after the lines before it were processed inside the transaction, the store
after `processSale` is the store before the call: no earlier decrement is applied and
no sale record is added; the response is `500` with the text thrown. -/
theorem processSale_rollback (now : DateTime) (body : Body) (db : Db)
    (hv : validationResult body = []) (pre : List Item) (line : Item) (post : List Item)
    (st1 : LoopState) (e : String) (hsplit : body.items = pre ++ line :: post)
    (hpre : processItems (body.isInterState.getD false) (initialLoopState db) pre = .ok st1)
    (hline : processItem (body.isInterState.getD false) st1 line = .error e) :
    processSale now body db = (db, .serverError e) := by
  have hloop : processItems (body.isInterState.getD false) (initialLoopState db) body.items
      = .error e := by
    rw [hsplit]
    exact processItems_append_error pre _ st1 line post e hpre hline
  rw [processSale_error now body db e hv hloop, if_neg (processItem_error_ne_empty hline)]

/-- Witness for C9: on the sample store the request `[(P, 2), (X, 1)]` lowers `P` to 3
inside the transaction, then fails on the missing `X`; the store afterwards is the
sample store, with `P` at 5. -/
theorem processSale_rollback_witness :
    ∃ st1, processItems false (initialLoopState sampleDb) [⟨"P", 2⟩] = .ok st1 ∧
      st1.tx.quantityOf "P" = some 3 ∧
      processSale sampleNow (sampleBody [⟨"P", 2⟩, ⟨"X", 1⟩]) sampleDb =
        (sampleDb, .serverError (notFoundMessage "X")) ∧
      sampleDb.quantityOf "P" = some 5 := by
  obtain ⟨st1, hst1⟩ : ∃ st1, processItems false (initialLoopState sampleDb) [⟨"P", 2⟩]
      = .ok st1 := by
    simp [processItems, processItem, initialLoopState, sampleDb, sampleProduct]
  have hrow := (processItems_tx _ _ _ hst1).2
  have hline : processItem false st1 ⟨"X", 1⟩ = .error (notFoundMessage "X") := by
    have hx := hrow "X"
    simp only [initialLoopState, sampleDb] at hx
    simp [processItem, hx]
  refine ⟨st1, hst1, ?_, ?_, rfl⟩
  · unfold Db.quantityOf
    rw [hrow "P"]
    simp [initialLoopState, sampleDb, sampleProduct, Product.less, requestedFor]
  · exact processSale_rollback sampleNow (sampleBody [⟨"P", 2⟩, ⟨"X", 1⟩]) sampleDb (by decide)
      [⟨"P", 2⟩] ⟨"X", 1⟩ [] st1 (notFoundMessage "X") rfl hst1 hline

/-! ## Stock stays non-negative -/

/-- A line that passes its checks keeps every quantity non-negative. -/
theorem processItem_quantitiesNonneg {isInterState : Bool} {st st1 : LoopState} {item : Item}
    (h : processItem isInterState st item = .ok st1) (hnn : st.tx.quantitiesNonneg) :
    st1.tx.quantitiesNonneg := by
  obtain ⟨p, hp, hle, htx, -⟩ := processItem_ok h
  intro k q hk
  rw [htx, decrementQuantity_retailProduct] at hk
  by_cases hid : k = item.productId
  · subst hid
    rw [if_pos rfl, hp] at hk
    simp only [Option.map_some', Option.some.injEq] at hk
    subst hk
    simp only [Product.less]
    linarith
  · rw [if_neg hid] at hk
    exact hnn k q hk

/-- A loop that completes keeps every quantity non-negative, whatever the line
quantities. -/
theorem processItems_quantitiesNonneg {isInterState : Bool} :
    ∀ (items : List Item) (st st1 : LoopState),
      processItems isInterState st items = .ok st1 → st.tx.quantitiesNonneg →
      st1.tx.quantitiesNonneg := by
  intro items
  induction items with
  | nil =>
    intro st st1 h hnn
    simp only [processItems, Except.ok.injEq] at h
    subst h
    exact hnn
  | cons item rest ih =>
    intro st st1 h hnn
    unfold processItems at h
    cases h1 : processItem isInterState st item with
    | error e => simp [h1] at h
    | ok st2 =>
      simp only [h1] at h
      exact ih st2 st1 h (processItem_quantitiesNonneg h1 hnn)

/-- C11: if every product quantity is non-negative before `processSale`, every
product quantity is non-negative after it, whether the request is rejected, fails
inside the transaction or succeeds; and the transaction body keeps the invariant for
any lines at all, validated or not. -/
theorem processSale_quantitiesNonneg (now : DateTime) (body : Body) (db : Db)
    (hnn : db.quantitiesNonneg) :
    (processSale now body db).1.quantitiesNonneg ∧
      ∀ (items : List Item) (customerInfo : CustomerInfo) (paymentMode : String)
        (discountAmount : JSNum) (isInterState : Bool) (notes invoiceNumber : String)
        (tx : Db) (result : SaleData),
        saleTransaction now items customerInfo paymentMode discountAmount isInterState notes
          invoiceNumber db = .ok (tx, result) → tx.quantitiesNonneg := by
  constructor
  · cases hv : validationResult body with
    | cons m ms =>
      simp only [processSale, hv]
      exact hnn
    | nil =>
      cases hloop : processItems (body.isInterState.getD false) (initialLoopState db)
          body.items with
      | error e =>
        rw [processSale_error now body db e hv hloop]
        exact hnn
      | ok st =>
        obtain ⟨r, hres, -⟩ := processSale_ok now body db st hv hloop
        rw [hres]
        exact processItems_quantitiesNonneg body.items _ st hloop hnn
  · intro items customerInfo paymentMode discountAmount isInterState notes invoiceNumber tx
      result h
    unfold saleTransaction at h
    cases hloop : processItems isInterState (initialLoopState db) items with
    | error e => simp [hloop] at h
    | ok st =>
      simp only [hloop, Except.ok.injEq, Prod.mk.injEq] at h
      rw [← h.1]
      exact processItems_quantitiesNonneg items _ st hloop hnn

/-- Witness for C11: the sample store, before and after the sale of 2 units. -/
theorem processSale_quantitiesNonneg_witness :
    sampleDb.quantitiesNonneg ∧
      (processSale sampleNow (sampleBody [⟨"P", 2⟩]) sampleDb).1.quantitiesNonneg := by
  have hnn : sampleDb.quantitiesNonneg := by
    intro k p hk
    simp only [sampleDb] at hk
    by_cases h : k = "P"
    · simp only [h, if_true, Option.some.injEq] at hk
      rw [← hk]
      decide
    · simp [h] at hk
  exact ⟨hnn, (processSale_quantitiesNonneg sampleNow (sampleBody [⟨"P", 2⟩]) sampleDb hnn).1⟩

/-! ## The recorded GST amount -/

theorem sumLineGst_append (xs : List SaleItem) (x : SaleItem) :
    sumLineGst (xs ++ [x]) = sumLineGst xs + x.gstBreakdown.totalGst := by
  simp [sumLineGst, List.foldl_append]

/-- The running GST total is the sum of the per-line `totalGst` values. -/
theorem processItems_totalGst {isInterState : Bool} :
    ∀ (items : List Item) (st st1 : LoopState),
      processItems isInterState st items = .ok st1 →
      st.totalGstAmount = sumLineGst st.saleItems →
      st1.totalGstAmount = sumLineGst st1.saleItems := by
  intro items
  induction items with
  | nil =>
    intro st st1 h hg
    simp only [processItems, Except.ok.injEq] at h
    subst h
    exact hg
  | cons item rest ih =>
    intro st st1 h hg
    unfold processItems at h
    cases h1 : processItem isInterState st item with
    | error e => simp [h1] at h
    | ok st2 =>
      simp only [h1] at h
      refine ih st2 st1 h ?_
      unfold processItem at h1
      cases hp : st.tx.retailProduct item.productId with
      | none => simp [hp] at h1
      | some p =>
        simp only [hp] at h1
        by_cases hq : p.quantity < item.quantity
        · simp [hq] at h1
        · simp only [hq, if_false, Except.ok.injEq] at h1
          subst h1
          simp only [sumLineGst_append, hg]

/-- The totals of a completed loop that started from the initial state. -/
theorem processItems_initial_totals {isInterState : Bool} (db : Db) (items : List Item)
    (st : LoopState) (h : processItems isInterState (initialLoopState db) items = .ok st) :
    st.totalAmount = .fin (lineTotal db items) ∧ st.totalGstAmount = sumLineGst st.saleItems := by
  constructor
  · have := processItems_totalAmount items _ _ 0 h (by simp [initialLoopState])
    simpa [initialLoopState] using this
  · exact processItems_totalGst items _ _ h (by simp [initialLoopState, sumLineGst])

/-- The fields of the transaction result behind a `201` response. -/
theorem processSale_created_fields (now : DateTime) (body : Body) (db db1 : Db)
    (result : SaleData) (h : processSale now body db = (db1, .created result)) :
    ∃ st, processItems (body.isInterState.getD false) (initialLoopState db) body.items = .ok st ∧
      db1 = st.tx.createSale result.sale ∧
      result.saleItems = st.saleItems ∧
      result.sale.items = st.saleItems.map SaleItem.toLine ∧
      result.sale.createdAt = now.time ∧
      result.sale.paymentMode = body.paymentMode ∧
      result.invoiceNumber = generateInvoiceNumber now db ∧
      result.totalAmount = .fin (lineTotal db body.items) ∧
      result.discountAmount = .fin (body.discountAmount.getD 0) ∧
      result.discountedAmount =
        .fin (Max.max 0 (lineTotal db body.items - body.discountAmount.getD 0)) ∧
      result.finalGstAmount =
        sumLineGst st.saleItems * (result.discountedAmount / .fin (lineTotal db body.items)) ∧
      result.sale.totalAmount = Math.round (result.discountedAmount * 100) / 100 ∧
      result.sale.gstAmount = Math.round (result.finalGstAmount * 100) / 100 ∧
      result.isInterState = body.isInterState.getD false := by
  obtain ⟨hv, st, hloop⟩ := processSale_created now body db db1 result h
  obtain ⟨htot, hgst⟩ := processItems_initial_totals db body.items st hloop
  refine ⟨st, hloop, ?_⟩
  simp only [processSale, hv, List.isEmpty_nil, Bool.not_true, Bool.false_eq_true, if_false,
    transaction, saleTransaction, hloop, Prod.mk.injEq, Response.created.injEq] at h
  obtain ⟨hdb, hres⟩ := h
  subst hres
  refine ⟨hdb.symm, rfl, rfl, rfl, rfl, rfl, htot, rfl, ?_, ?_, rfl, rfl, rfl⟩
  · show Math.max 0 (st.totalAmount - _) = _
    rw [htot]
    simp
  · show st.totalGstAmount * (Math.max 0 (st.totalAmount - _) / st.totalAmount) = _
    rw [htot, hgst]

theorem JSNum.mul_nan (x : JSNum) : x * JSNum.nan = JSNum.nan := by
  cases x <;> rfl

/-- With a line total of 0 and a non-negative discount the discount ratio is `0 / 0`
and the rounded GST amount is `NaN`, whatever the accumulated GST. -/
theorem gst_of_zero_total (g : JSNum) (d : ℚ) (hd : 0 ≤ d) :
    Math.round (g * (Math.max 0 (JSNum.fin 0 - JSNum.fin d) / JSNum.fin 0) * 100) / 100
      = JSNum.nan := by
  have hmax : Math.max 0 (JSNum.fin 0 - JSNum.fin d) = JSNum.fin 0 := by
    simp only [JSNum.zero_eq_fin, JSNum.fin_sub_fin, Math.max_fin]
    congr 1
    exact max_eq_left (by linarith)
  have hdiv : JSNum.fin 0 / JSNum.fin 0 = JSNum.nan := by
    show JSNum.div (JSNum.fin 0) (JSNum.fin 0) = JSNum.nan
    simp [JSNum.div]
  rw [hmax, hdiv, JSNum.mul_nan]
  rfl

/-- Every successful `processSale` whose summed line total is 0 records `NaN` as
`gstAmount`. -/
theorem processSale_gstAmount_zero_total (now : DateTime) (body : Body) (db db1 : Db)
    (result : SaleData) (h : processSale now body db = (db1, .created result))
    (hT : lineTotal db body.items = 0) : result.sale.gstAmount = .nan := by
  obtain ⟨hv, -⟩ := processSale_created now body db db1 result h
  obtain ⟨st, hloop, -, -, -, -, -, -, -, -, hdisc, hfinal, -, hgst, -⟩ :=
    processSale_created_fields now body db db1 result h
  have hd : 0 ≤ body.discountAmount.getD 0 := by
    unfold validationResult at hv
    simp only [List.append_eq_nil] at hv
    have h5 := hv.1.1.1.1.1.1.2
    cases hda : body.discountAmount with
    | none => simp
    | some d =>
      rw [hda] at h5
      simp only [Option.getD_some]
      by_contra hneg
      simp [optionalCheck, check, hneg] at h5
  rw [hgst, hfinal, hdisc, hT]
  have := gst_of_zero_total (sumLineGst st.saleItems) (body.discountAmount.getD 0) hd
  simpa using this

/-- C13, on the code: for a product with selling price 0 the summed line total is 0,
the discount ratio is `0 / 0`, and both `processSale` and `createSalesCart` report
`NaN` as the GST amount; the ratio is not special-cased. -/
theorem zero_total_gst_is_nan :
    (∃ db1 result,
      processSale sampleNow (sampleBody [⟨"Z", 1⟩]) zeroPriceDb = (db1, .created result) ∧
      result.totalAmount = .fin 0 ∧ result.sale.gstAmount = .nan) ∧
    (∃ cart, createSalesCart (sampleBody [⟨"Z", 1⟩]) zeroPriceDb = .ok cart ∧
      cart.subtotal = .fin 0 ∧ cart.totalGstAmount = .nan) := by
  constructor
  · obtain ⟨st, hst⟩ : ∃ st, processItems (((sampleBody [⟨"Z", 1⟩]).isInterState).getD false)
        (initialLoopState zeroPriceDb) (sampleBody [⟨"Z", 1⟩]).items = .ok st := by
      simp [processItems, processItem, initialLoopState, sampleBody, zeroPriceDb]
    obtain ⟨r, hres, -⟩ := processSale_ok sampleNow _ zeroPriceDb st (by decide) hst
    have hT : lineTotal zeroPriceDb (sampleBody [⟨"Z", 1⟩]).items = 0 := by
      simp [lineTotal, unitPrice, zeroPriceDb, sampleBody]
    obtain ⟨-, -, -, -, -, -, -, -, htot, -⟩ :=
      processSale_created_fields sampleNow _ zeroPriceDb _ r hres
    refine ⟨_, r, hres, ?_, processSale_gstAmount_zero_total sampleNow _ zeroPriceDb _ r hres hT⟩
    rw [htot, hT]
  · have hv : cartValidationResult (sampleBody [⟨"Z", 1⟩]) = [] := by decide
    have hg := gst_of_zero_total
      (0 + (calculateGST (JSNum.fin 0 * JSNum.fin ((1 : ℤ) : ℚ)) (JSNum.fin 18) false).totalGst) 0
      (le_refl 0)
    have h51 : ¬ ((5 : ℤ) < 1) := by decide
    simp only [createSalesCart, hv, List.isEmpty_nil, Bool.not_true, Bool.false_eq_true,
      if_false]
    simp only [cartItems, cartItem, zeroPriceDb, sampleBody, if_true, h51, if_false]
    refine ⟨_, rfl, ?_, ?_⟩
    · simp
    · simpa using hg

/-! ## Decimal numerals -/

theorem digitChar_value (k : ℕ) (hk : k < 10) : (Nat.digitChar k).toNat - 48 = k := by
  interval_cases k <;> rfl

/-- The value of the digits `Nat.toDigitsCore` produces, given enough fuel. -/
theorem toDigitsCore_value : ∀ (fuel n : ℕ) (ds : List Char), n < fuel →
    decimalValue (Nat.toDigitsCore 10 fuel n ds) = n * 10 ^ ds.length + decimalValue ds := by
  intro fuel
  induction fuel with
  | zero =>
    intro n ds h
    omega
  | succ fuel ih =>
    intro n ds h
    simp only [Nat.toDigitsCore]
    have hd := digitChar_value (n % 10) (Nat.mod_lt _ (by norm_num))
    by_cases h0 : n / 10 = 0
    · simp only [h0, if_true, decimalValue, hd]
      have hmod : n % 10 = n := Nat.mod_eq_of_lt (by omega)
      rw [hmod]
    · simp only [h0, if_false]
      rw [ih (n / 10) _ (by omega)]
      simp only [decimalValue, hd, List.length_cons, pow_succ]
      have hn : n * 10 ^ ds.length = (10 * (n / 10) + n % 10) * 10 ^ ds.length := by
        rw [Nat.div_add_mod n 10]
      rw [hn]
      ring

/-- The text of a natural number denotes that number. -/
theorem decimalValue_toString (n : ℕ) : decimalValue (toString (n : ℤ)).data = n := by
  show decimalValue (Nat.toDigits 10 n) = n
  unfold Nat.toDigits
  rw [toDigitsCore_value _ _ _ (Nat.lt_succ_self n)]
  simp [decimalValue]

theorem decimalValue_zeros (k : ℕ) (cs : List Char) :
    decimalValue (List.replicate k '0' ++ cs) = decimalValue cs := by
  induction k with
  | zero => rfl
  | succ k ih =>
    rw [List.replicate_succ, List.cons_append]
    simp only [decimalValue, ih]
    have h0 : '0'.toNat - 48 = 0 := rfl
    rw [h0]
    simp

/-- Padding with zeros keeps the number a numeral denotes. -/
theorem decimalValue_padStart (s : String) (n : ℕ) :
    decimalValue (padStart s n '0').data = decimalValue s.data := by
  unfold padStart
  rw [String.data_append]
  exact decimalValue_zeros _ _

theorem toDigitsCore_append : ∀ (fuel n : ℕ) (ds : List Char),
    Nat.toDigitsCore 10 fuel n ds = Nat.toDigitsCore 10 fuel n [] ++ ds := by
  intro fuel
  induction fuel with
  | zero =>
    intro n ds
    rfl
  | succ fuel ih =>
    intro n ds
    simp only [Nat.toDigitsCore]
    by_cases h0 : n / 10 = 0
    · simp [h0]
    · simp only [h0, if_false]
      rw [ih (n / 10) (_ :: ds), ih (n / 10) [_]]
      simp

theorem toDigitsCore_fuel : ∀ (fuel1 fuel2 n : ℕ), n < fuel1 → n < fuel2 →
    Nat.toDigitsCore 10 fuel1 n [] = Nat.toDigitsCore 10 fuel2 n [] := by
  intro fuel1
  induction fuel1 with
  | zero =>
    intro fuel2 n h
    omega
  | succ fuel1 ih =>
    intro fuel2 n h1 h2
    cases fuel2 with
    | zero => omega
    | succ fuel2 =>
      simp only [Nat.toDigitsCore]
      by_cases h0 : n / 10 = 0
      · simp [h0]
      · simp only [h0, if_false]
        rw [toDigitsCore_append fuel1, toDigitsCore_append fuel2,
          ih fuel2 (n / 10) (by omega) (by omega)]

/-- The digits of a number of at least two digits: those of its tenth, then its last
digit. -/
theorem toDigits_step (n : ℕ) (h : 10 ≤ n) :
    Nat.toDigits 10 n = Nat.toDigits 10 (n / 10) ++ [Nat.digitChar (n % 10)] := by
  unfold Nat.toDigits
  have h0 : ¬ n / 10 = 0 := by omega
  rw [Nat.toDigitsCore]
  simp only [h0, if_false]
  rw [toDigitsCore_append, toDigitsCore_fuel n (n / 10 + 1) (n / 10) (by omega) (by omega)]

theorem toDigits_small (n : ℕ) (h : n < 10) : Nat.toDigits 10 n = [Nat.digitChar n] := by
  unfold Nat.toDigits
  rw [Nat.toDigitsCore]
  have h0 : n / 10 = 0 := by omega
  simp [h0, Nat.mod_eq_of_lt h]

theorem toString_data (n : ℕ) : (toString (n : ℤ)).data = Nat.toDigits 10 n := rfl

/-- The last two characters of the text of a number of at least two digits are its
last two decimal digits. -/
theorem sliceLast2_toString (y : ℕ) (hy : 10 ≤ y) :
    sliceLast2 (toString (y : ℤ)) = twoDigits y := by
  have hstep := toDigits_step y hy
  have htens : ∃ pre, Nat.toDigits 10 (y / 10) = pre ++ [Nat.digitChar (y / 10 % 10)] := by
    by_cases h : y / 10 < 10
    · refine ⟨[], ?_⟩
      rw [toDigits_small _ h, Nat.mod_eq_of_lt h]
      rfl
    · exact ⟨_, toDigits_step (y / 10) (by omega)⟩
  obtain ⟨pre, hpre⟩ := htens
  have hdata : (toString (y : ℤ)).data =
      pre ++ [Nat.digitChar (y / 10 % 10), Nat.digitChar (y % 10)] := by
    rw [toString_data, hstep, hpre]
    simp
  unfold sliceLast2 twoDigits
  congr 1
  show List.drop ((toString (y : ℤ)).data.length - 2) (toString (y : ℤ)).data = _
  rw [hdata]
  simp

/-- The text of a positive number below 10000, padded to width 4 with zeros, is the
number written with four digits. -/
theorem padStart_toString (m : ℕ) (hm : m < 10000) :
    padStart (toString (m : ℤ)) 4 '0' = fourDigits m := by
  have hzero : Nat.digitChar 0 = '0' := rfl
  have hdata : (toString (m : ℤ)).data = Nat.toDigits 10 m := rfl
  have hlen : (toString (m : ℤ)).length = (Nat.toDigits 10 m).length := rfl
  apply String.ext
  unfold padStart fourDigits
  rw [String.data_append, hdata, hlen]
  by_cases h1 : m < 10
  · rw [toDigits_small m h1]
    have e1 : m / 1000 % 10 = 0 := by omega
    have e2 : m / 100 % 10 = 0 := by omega
    have e3 : m / 10 % 10 = 0 := by omega
    have e4 : m % 10 = m := by omega
    simp [e1, e2, e3, e4, hzero, List.replicate]
  · by_cases h2 : m < 100
    · rw [toDigits_step m (by omega), toDigits_small (m / 10) (by omega)]
      have e1 : m / 1000 % 10 = 0 := by omega
      have e2 : m / 100 % 10 = 0 := by omega
      have e3 : m / 10 % 10 = m / 10 := by omega
      simp [e1, e2, e3, hzero, List.replicate]
    · by_cases h3 : m < 1000
      · rw [toDigits_step m (by omega), toDigits_step (m / 10) (by omega),
          toDigits_small (m / 10 / 10) (by omega)]
        have e1 : m / 1000 % 10 = 0 := by omega
        have e2 : m / 100 % 10 = m / 10 / 10 := by omega
        simp [e1, e2, hzero, List.replicate]
      · rw [toDigits_step m (by omega), toDigits_step (m / 10) (by omega),
          toDigits_step (m / 10 / 10) (by omega), toDigits_small (m / 10 / 10 / 10) (by omega)]
        have e1 : m / 1000 % 10 = m / 10 / 10 / 10 := by omega
        have e2 : m / 100 % 10 = m / 10 / 10 % 10 := by omega
        simp [e1, e2]

/-! ## Invoice numbers -/

/-- The invoice number in terms of the start year and of the count of sales in the
window of that year. -/
theorem generateInvoiceNumber_eq (now : DateTime) (db : Db) :
    generateInvoiceNumber now db =
      "KM" ++ "/" ++
        (toString (startYear now) ++ "-" ++ sliceLast2 (toString (startYear now + 1))) ++ "/" ++
        padStart (toString (((countInWindow db (startYear now) : ℕ) : ℤ) + 1)) 4 '0' := by
  unfold generateInvoiceNumber startYear countInWindow
  by_cases h : now.month + 1 ≥ GST_CONFIG.FINANCIAL_YEAR_START
  · have h4 : now.month + 1 ≥ 4 := h
    simp only [h, h4, if_true]
    rfl
  · have h4 : ¬ now.month + 1 ≥ 4 := h
    simp only [h, h4, if_false, sub_add_cancel]
    rfl

/-- C14: for every clock reading and store, with `S` the calendar year from April on
and the year before until March, and `n` the number of sales created in the window
of `S`, the invoice number is `KM/`, `S`, `-`, the last two characters of `S + 1`,
`/`, and `n + 1` padded with zeros to width 4; when `S + 1` has at least two digits
and `n + 1` is below 10000 these are the last two decimal digits of `S + 1` and
`n + 1` written with four digits. -/
theorem generateInvoiceNumber_format (now : DateTime) (db : Db) :
    generateInvoiceNumber now db =
        "KM" ++ "/" ++
          (toString (startYear now) ++ "-" ++ sliceLast2 (toString (startYear now + 1))) ++
          "/" ++ padStart (toString (((countInWindow db (startYear now) : ℕ) : ℤ) + 1)) 4 '0' ∧
      ∀ y : ℕ, startYear now + 1 = (y : ℤ) → 10 ≤ y →
        countInWindow db (startYear now) + 1 < 10000 →
        generateInvoiceNumber now db =
          "KM" ++ "/" ++ (toString (startYear now) ++ "-" ++ twoDigits y) ++ "/" ++
            fourDigits (countInWindow db (startYear now) + 1) := by
  refine ⟨generateInvoiceNumber_eq now db, ?_⟩
  intro y hy h10 hn
  rw [generateInvoiceNumber_eq now db, hy, sliceLast2_toString y h10]
  have hcast : ((countInWindow db (startYear now) : ℕ) : ℤ) + 1 =
      ((countInWindow db (startYear now) + 1 : ℕ) : ℤ) := by push_cast; rfl
  rw [hcast, padStart_toString _ hn]

/-- Witness for C14: July 2024 with no prior sale gives `KM/2024-25/0001`. -/
theorem generateInvoiceNumber_format_witness :
    startYear sampleNow + 1 = ((2025 : ℕ) : ℤ) ∧ countInWindow sampleDb (startYear sampleNow) = 0 ∧
      generateInvoiceNumber sampleNow sampleDb = "KM/2024-25/0001" :=
  ⟨by decide, by decide,
    ((generateInvoiceNumber_format sampleNow sampleDb).2 2025 (by decide) (by decide)
      (by decide)).trans (by decide)⟩

/-! ## The persisted lines -/

theorem gstRateOf_decrementQuantity (db : Db) (id : String) (n : ℤ) (k : String) :
    gstRateOf (db.decrementQuantity id n) k = gstRateOf db k := by
  unfold gstRateOf
  rw [decrementQuantity_retailProduct]
  by_cases h : k = id
  · simp only [h, if_true]
    cases db.retailProduct id <;> rfl
  · simp only [h, if_false]

theorem expectedLine_decrementQuantity (db : Db) (id : String) (n : ℤ) (item : Item) :
    expectedLine (db.decrementQuantity id n) item = expectedLine db item := by
  simp only [expectedLine, unitPrice_decrementQuantity, gstRateOf_decrementQuantity]

/-- The entry a line that passes its checks appends to `saleItems`. -/
theorem processItem_saleItems {isInterState : Bool} {st st1 : LoopState} {item : Item}
    (h : processItem isInterState st item = .ok st1) :
    ∃ x, st1.saleItems = st.saleItems ++ [x] ∧ x.toLine = expectedLine st.tx item ∧
      x.itemTotal = JSNum.fin x.priceAtSale * JSNum.fin x.quantity ∧
      x.gstBreakdown = calculateGST x.itemTotal (JSNum.fin x.gstAtSale) isInterState := by
  unfold processItem at h
  cases hp : st.tx.retailProduct item.productId with
  | none => simp [hp] at h
  | some p =>
    simp only [hp] at h
    by_cases hq : p.quantity < item.quantity
    · simp [hq] at h
    · simp only [hq, if_false, Except.ok.injEq] at h
      subst h
      refine ⟨_, rfl, ?_, rfl, rfl⟩
      simp [SaleItem.toLine, expectedLine, unitPrice, gstRateOf, hp]

/-- The entries a completed loop has appended: one per line, in line order, with the
price and rate of the product, the line total and its tax split. -/
theorem processItems_saleItems {isInterState : Bool} :
    ∀ (items : List Item) (st st1 : LoopState),
      processItems isInterState st items = .ok st1 →
      ∃ xs, st1.saleItems = st.saleItems ++ xs ∧
        xs.map SaleItem.toLine = items.map (expectedLine st.tx) ∧
        ∀ x ∈ xs, x.itemTotal = JSNum.fin x.priceAtSale * JSNum.fin x.quantity ∧
          x.gstBreakdown = calculateGST x.itemTotal (JSNum.fin x.gstAtSale) isInterState := by
  intro items
  induction items with
  | nil =>
    intro st st1 h
    simp only [processItems, Except.ok.injEq] at h
    subst h
    exact ⟨[], by simp, rfl, by simp⟩
  | cons item rest ih =>
    intro st st1 h
    unfold processItems at h
    cases h1 : processItem isInterState st item with
    | error e => simp [h1] at h
    | ok st2 =>
      simp only [h1] at h
      obtain ⟨x, hx, hline, hwf⟩ := processItem_saleItems h1
      obtain ⟨-, -, -, htx, -⟩ := processItem_ok h1
      obtain ⟨xs, hxs, hlines, hwfs⟩ := ih st2 st1 h
      refine ⟨x :: xs, ?_, ?_, ?_⟩
      · rw [hxs, hx]
        simp
      · rw [List.map_cons, List.map_cons, hline, hlines, htx]
        congr 1
        exact List.map_congr_left (fun a _ => expectedLine_decrementQuantity _ _ _ a)
      · intro y hy
        rcases List.mem_cons.mp hy with rfl | hy
        · exact hwf
        · exact hwfs y hy

/-- C18: for every successful `processSale`, the sale record added to the store has
one line per request line, in request order, each with the line's product and
quantity and with `priceAtSale`, `gstAtSale` equal to the `sellingPrice`, `gstRate`
of that product in the store the sale ran on; every product named exists there. -/
theorem processSale_lines (now : DateTime) (body : Body) (db db1 : Db) (result : SaleData)
    (h : processSale now body db = (db1, .created result)) :
    db1.sale = db.sale ++ [result.sale] ∧
      result.sale.items = body.items.map (expectedLine db) ∧
      result.sale.items.length = body.items.length ∧
      ∀ item ∈ body.items, ∃ p, db.retailProduct item.productId = some p ∧
        unitPrice db item.productId = p.sellingPrice ∧
        gstRateOf db item.productId = p.gstRate := by
  obtain ⟨st, hloop, hdb, -, hlines, -⟩ := processSale_created_fields now body db db1 result h
  obtain ⟨xs, hxs, hmap, -⟩ := processItems_saleItems body.items _ _ hloop
  have hitems : result.sale.items = body.items.map (expectedLine db) := by
    rw [hlines, hxs]
    simpa [initialLoopState] using hmap
  refine ⟨?_, hitems, by rw [hitems, List.length_map], ?_⟩
  · rw [hdb]
    show st.tx.sale ++ [result.sale] = db.sale ++ [result.sale]
    rw [(processItems_tx body.items _ _ hloop).1]
    rfl
  · intro item hmem
    have hrow := (processItems_tx body.items _ _ hloop).2 item.productId
    cases hp : db.retailProduct item.productId with
    | some p => exact ⟨p, rfl, by simp [unitPrice, hp], by simp [gstRateOf, hp]⟩
    | none =>
      exfalso
      obtain ⟨pre, post, hsplit⟩ := List.append_of_mem hmem
      rw [hsplit] at hloop
      have hfail : ∀ (pre : List Item) (s : LoopState),
          s.tx.retailProduct item.productId = none →
          ∀ s1, processItems (body.isInterState.getD false) s (pre ++ item :: post) ≠ .ok s1 := by
        intro pre
        induction pre with
        | nil =>
          intro s hs s1 hok
          simp [processItems, processItem, hs] at hok
        | cons a as ih =>
          intro s hs s1 hok
          rw [List.cons_append] at hok
          unfold processItems at hok
          cases ha : processItem (body.isInterState.getD false) s a with
          | error e => simp [ha] at hok
          | ok s2 =>
            simp only [ha] at hok
            obtain ⟨-, -, -, htx, -⟩ := processItem_ok ha
            refine ih s2 ?_ s1 hok
            rw [htx, decrementQuantity_retailProduct]
            by_cases hid : item.productId = a.productId
            · rw [if_pos hid, hs]
              rfl
            · rw [if_neg hid, hs]
      exact hfail pre _ hp st hloop

/-- Witness for C18: the sample store and the request for 2 units of `P`. -/
theorem processSale_lines_witness :
    ∃ db1 result,
      processSale sampleNow (sampleBody [⟨"P", 2⟩]) sampleDb = (db1, .created result) ∧
      result.sale.items = [⟨"P", 2, 1000, 18⟩] := by
  obtain ⟨st, hst⟩ : ∃ st, processItems (((sampleBody [⟨"P", 2⟩]).isInterState).getD false)
      (initialLoopState sampleDb) (sampleBody [⟨"P", 2⟩]).items = .ok st := by
    simp [processItems, processItem, initialLoopState, sampleBody, sampleDb, sampleProduct]
  obtain ⟨r, hres, -⟩ := processSale_ok sampleNow _ sampleDb st (by decide) hst
  have hall := processSale_lines sampleNow _ sampleDb _ r hres
  refine ⟨_, r, hres, ?_⟩
  rw [hall.2.1]
  simp [sampleBody, expectedLine, unitPrice, gstRateOf, sampleDb, sampleProduct]

/-! ## Invoice numbers across requests -/

theorem string_append_cancel (a x y : String) (h : a ++ x = a ++ y) : x = y := by
  have h1 := congrArg String.data h
  rw [String.data_append, String.data_append] at h1
  exact String.ext (List.append_cancel_left h1)

/-- For one start year, the invoice number determines the count of sales in the
window. -/
theorem invoiceNumber_count_injective (now1 now2 : DateTime) (db1 db2 : Db)
    (hS : startYear now1 = startYear now2)
    (h : generateInvoiceNumber now1 db1 = generateInvoiceNumber now2 db2) :
    countInWindow db1 (startYear now1) = countInWindow db2 (startYear now1) := by
  rw [generateInvoiceNumber_eq, generateInvoiceNumber_eq, ← hS] at h
  have h1 := string_append_cancel _ _ _ h
  have h2 := congrArg (fun s => decimalValue s.data) h1
  simp only [decimalValue_padStart] at h2
  have c1 : ((countInWindow db1 (startYear now1) : ℕ) : ℤ) + 1 =
      ((countInWindow db1 (startYear now1) + 1 : ℕ) : ℤ) := by push_cast; rfl
  have c2 : ((countInWindow db2 (startYear now1) : ℕ) : ℤ) + 1 =
      ((countInWindow db2 (startYear now1) + 1 : ℕ) : ℤ) := by push_cast; rfl
  rw [c1, c2, decimalValue_toString, decimalValue_toString] at h2
  omega

/-- The count of a window after one more sale has been stored. -/
theorem countInWindow_append (db db1 : Db) (sale : Sale) (S : ℤ)
    (h : db1.sale = db.sale ++ [sale]) :
    countInWindow db1 S = countInWindow db S +
      (if aprilFirst S ≤ sale.createdAt ∧ sale.createdAt < aprilFirst (S + 1) then 1 else 0) := by
  unfold countInWindow
  rw [h, List.filter_append, List.length_append]
  congr 1
  by_cases hw : aprilFirst S ≤ sale.createdAt ∧ sale.createdAt < aprilFirst (S + 1)
  · simp [List.filter_cons, hw.1, hw.2]
  · rw [if_neg hw]
    rw [not_and_or] at hw
    rcases hw with hw | hw <;> simp [List.filter_cons, hw]

/-- The store a `201` response leaves: one more sale, and every product row lowered
by what the lines ask for it. -/
theorem processSale_created_store (now : DateTime) (body : Body) (db db1 : Db)
    (result : SaleData) (h : processSale now body db = (db1, .created result)) :
    db1.sale = db.sale ++ [result.sale] ∧
      ∀ k, db1.retailProduct k =
        (db.retailProduct k).map (fun p => p.less (requestedFor body.items k)) := by
  obtain ⟨st, hloop, hdb, -⟩ := processSale_created_fields now body db db1 result h
  obtain ⟨hsale, hprod⟩ := processItems_tx body.items _ _ hloop
  constructor
  · rw [hdb]
    show st.tx.sale ++ [result.sale] = db.sale ++ [result.sale]
    rw [hsale]
    rfl
  · intro k
    rw [hdb]
    exact hprod k

/-- Two sales made one after the other in the financial year of start year `S` get
different invoice numbers, provided the first was created inside the window
`[April 1 of S, April 1 of S+1)` that the count is taken over. -/
theorem sequential_invoiceNumbers_distinct (now1 now2 : DateTime) (body1 body2 : Body)
    (db db1 db2 : Db) (r1 r2 : SaleData)
    (h1 : processSale now1 body1 db = (db1, .created r1))
    (h2 : processSale now2 body2 db1 = (db2, .created r2))
    (hS : startYear now1 = startYear now2)
    (hw : aprilFirst (startYear now1) ≤ now1.time ∧ now1.time < aprilFirst (startYear now1 + 1)) :
    r1.invoiceNumber ≠ r2.invoiceNumber := by
  obtain ⟨-, -, -, -, -, hat, -, hn1, -⟩ := processSale_created_fields now1 body1 db db1 r1 h1
  obtain ⟨-, -, -, -, -, -, -, hn2, -⟩ := processSale_created_fields now2 body2 db1 db2 r2 h2
  have hsale := (processSale_created_store now1 body1 db db1 r1 h1).1
  intro heq
  rw [hn1, hn2] at heq
  have hc := invoiceNumber_count_injective now1 now2 db db1 hS heq
  rw [countInWindow_append db db1 r1.sale _ hsale, hat, if_pos hw] at hc
  omega

/-- A single line for an existing product with enough stock passes the loop. -/
theorem processItems_single_ok (isInterState : Bool) (db : Db) (id : String) (n : ℤ)
    (p : Product) (hp : db.retailProduct id = some p) (hn : n ≤ p.quantity) :
    ∃ st, processItems isInterState (initialLoopState db) [⟨id, n⟩] = .ok st := by
  simp [processItems, processItem, initialLoopState, hp, not_lt.mpr hn]

/-- C15, on the code: at 01:30 on 1 April 2024 in India the local calendar reads April,
so the start year is 2024, but the window starts at midnight UTC of 1 April, later
than the reading; a sale created at that very instant is not counted and the
number issued is `0001`. -/
theorem invoice_window_excludes_now :
    startYear indiaNow1 = 2024 ∧
      indiaNow1.time < aprilFirst (startYear indiaNow1) ∧
      countInWindow { sampleDb with sale := [sampleSaleAt indiaNow1.time] }
        (startYear indiaNow1) = 0 ∧
      generateInvoiceNumber indiaNow1 { sampleDb with sale := [sampleSaleAt indiaNow1.time] }
        = "KM/2024-25/0001" := by
  refine ⟨by decide, by decide, by decide, by decide⟩

/-- C16, on the code: two sales made one after the other at 01:30 and 02:30 on 1 April
2024 in India both succeed, both carry the label of the financial year 2024-25, and
both get the invoice number `KM/2024-25/0001`. -/
theorem sequential_invoiceNumbers_collide :
    ∃ db1 r1 db2 r2,
      processSale indiaNow1 (sampleBody [⟨"P", 2⟩]) sampleDb = (db1, .created r1) ∧
      processSale indiaNow2 (sampleBody [⟨"P", 2⟩]) db1 = (db2, .created r2) ∧
      startYear indiaNow1 = startYear indiaNow2 ∧
      r1.invoiceNumber = "KM/2024-25/0001" ∧ r2.invoiceNumber = "KM/2024-25/0001" := by
  obtain ⟨st1, hst1⟩ := processItems_single_ok false sampleDb "P" 2 sampleProduct rfl
    (by decide)
  obtain ⟨r1, hres1, -⟩ := processSale_ok indiaNow1 (sampleBody [⟨"P", 2⟩]) sampleDb st1
    (by decide) hst1
  obtain ⟨hsale1, hrow1⟩ := processSale_created_store indiaNow1 _ sampleDb _ r1 hres1
  obtain ⟨-, -, -, -, -, hat1, -, hn1, -⟩ :=
    processSale_created_fields indiaNow1 _ sampleDb _ r1 hres1
  have hP : (st1.tx.createSale r1.sale).retailProduct "P" = some (sampleProduct.less 2) := by
    rw [hrow1 "P"]
    simp [sampleDb, sampleBody, requestedFor]
  obtain ⟨st2, hst2⟩ := processItems_single_ok false (st1.tx.createSale r1.sale) "P" 2 _ hP
    (by decide)
  obtain ⟨r2, hres2, -⟩ := processSale_ok indiaNow2 (sampleBody [⟨"P", 2⟩])
    (st1.tx.createSale r1.sale) st2 (by decide) hst2
  obtain ⟨-, -, -, -, -, -, -, hn2, -⟩ :=
    processSale_created_fields indiaNow2 _ _ _ r2 hres2
  refine ⟨_, r1, _, r2, hres1, hres2, by decide, ?_, ?_⟩
  · rw [hn1]
    decide
  · rw [hn2, generateInvoiceNumber_eq,
      countInWindow_append sampleDb _ r1.sale _ hsale1, hat1]
    decide

/-! ## Sale retrieval -/

/-- The entries `getSaleById` rebuilds when every stored line still has its product
row: one per line, with the figures recomputed from the line. -/
theorem regenerateSaleItems_core (db : Db) :
    ∀ (lines : List SaleLine),
      (∀ line ∈ lines, ∃ p, db.retailProduct line.productId = some p) →
      ∃ items, regenerateSaleItems db lines = some items ∧
        items.map SaleItem.core = lines.map SaleLine.core := by
  intro lines
  induction lines with
  | nil =>
    intro _
    exact ⟨[], rfl, rfl⟩
  | cons line rest ih =>
    intro hall
    obtain ⟨p, hp⟩ := hall line (List.mem_cons_self _ _)
    obtain ⟨items, hitems, hcore⟩ := ih (fun l hl => hall l (List.mem_cons_of_mem _ hl))
    simp only [regenerateSaleItems, hp, hitems]
    refine ⟨_, rfl, ?_⟩
    rw [List.map_cons, List.map_cons, hcore]
    rfl

/-- The response of `getSaleById` for a stored sale whose lines can be rebuilt. -/
theorem getSaleById_ok (now : DateTime) (id : Nat) (db : Db) (sale : Sale)
    (items : List SaleItem) (hget : db.sale.get? id = some sale)
    (hitems : regenerateSaleItems db sale.items = some items) :
    ∃ invoice, getSaleById now id db = .ok sale invoice ∧
      invoice.invoiceNumber = generateInvoiceNumber now db ∧
      invoice.items.map InvoiceItem.figures = (items.map SaleItem.core).map figuresOf ∧
      invoice.items.map InvoiceItem.taxes = (items.map SaleItem.core).map taxesOf ∧
      invoice.summary.subtotal = Math.round (sale.totalAmount * 100) / 100 ∧
      invoice.summary.discount = Math.round ((0 : JSNum) * 100) / 100 ∧
      invoice.summary.grandTotal = Math.round (sale.totalAmount * 100) / 100 := by
  simp only [getSaleById, hget, hitems]
  refine ⟨_, rfl, rfl, ?_, ?_, rfl, rfl, rfl⟩
  · simp [generateGSTInvoice, InvoiceItem.figures, SaleItem.core, figuresOf]
  · simp [generateGSTInvoice, InvoiceItem.taxes, SaleItem.core, taxesOf]

/-- The lines and summary figures of the invoice composed from a sale data object. -/
theorem generateGSTInvoice_figures (saleData : SaleData) :
    (generateGSTInvoice saleData).items.map InvoiceItem.figures =
        (saleData.saleItems.map SaleItem.core).map figuresOf ∧
      (generateGSTInvoice saleData).items.map InvoiceItem.taxes =
        (saleData.saleItems.map SaleItem.core).map taxesOf ∧
      (generateGSTInvoice saleData).summary.subtotal =
        Math.round (saleData.totalAmount * 100) / 100 ∧
      (generateGSTInvoice saleData).summary.discount =
        Math.round (saleData.discountAmount * 100) / 100 ∧
      (generateGSTInvoice saleData).summary.grandTotal =
        Math.round (saleData.discountedAmount * 100) / 100 := by
  refine ⟨?_, ?_, rfl, rfl, rfl⟩
  · simp [generateGSTInvoice, InvoiceItem.figures, SaleItem.core, figuresOf]
  · simp [generateGSTInvoice, InvoiceItem.taxes, SaleItem.core, taxesOf]

/-- C17: on the sample store in July 2024, a sale is made and viewed, a second sale is
made, and the first sale is viewed again: the sale was numbered `0001` when made, its
invoice reads `0002` at the first view and `0003` at the second. -/
theorem getSaleById_invoiceNumber_changes :
    ∃ db1 r1 db2 r2 invoice1 invoice2,
      processSale sampleNow (sampleBody [⟨"P", 2⟩]) sampleDb = (db1, .created r1) ∧
      getSaleById sampleNow 0 db1 = .ok r1.sale invoice1 ∧
      processSale sampleNow (sampleBody [⟨"P", 2⟩]) db1 = (db2, .created r2) ∧
      getSaleById sampleNow 0 db2 = .ok r1.sale invoice2 ∧
      r1.invoiceNumber = "KM/2024-25/0001" ∧
      invoice1.invoiceNumber = "KM/2024-25/0002" ∧
      invoice2.invoiceNumber = "KM/2024-25/0003" ∧
      invoice1.invoiceNumber ≠ invoice2.invoiceNumber := by
  obtain ⟨st1, hst1⟩ := processItems_single_ok false sampleDb "P" 2 sampleProduct rfl
    (by decide)
  obtain ⟨r1, hres1, -⟩ := processSale_ok sampleNow (sampleBody [⟨"P", 2⟩]) sampleDb st1
    (by decide) hst1
  obtain ⟨hsale1, hrow1⟩ := processSale_created_store sampleNow _ sampleDb _ r1 hres1
  obtain ⟨s1, hs1, -, -, hlines1, hat1, -, hn1, -⟩ :=
    processSale_created_fields sampleNow _ sampleDb _ r1 hres1
  have hs : st1 = s1 := by
    have e : (Except.ok st1 : Except String LoopState) = Except.ok s1 := hst1.symm.trans hs1
    injection e
  subst hs
  have hP : (st1.tx.createSale r1.sale).retailProduct "P" = some (sampleProduct.less 2) := by
    rw [hrow1 "P"]
    simp [sampleDb, sampleBody, requestedFor]
  obtain ⟨st2, hst2⟩ := processItems_single_ok false (st1.tx.createSale r1.sale) "P" 2 _ hP
    (by decide)
  obtain ⟨r2, hres2, -⟩ := processSale_ok sampleNow (sampleBody [⟨"P", 2⟩])
    (st1.tx.createSale r1.sale) st2 (by decide) hst2
  obtain ⟨hsale2, hrow2⟩ := processSale_created_store sampleNow _ _ _ r2 hres2
  obtain ⟨-, -, -, -, -, hat2, -⟩ := processSale_created_fields sampleNow _ _ _ r2 hres2
  have hitems : r1.sale.items = [⟨"P", 2, 1000, 18⟩] := by
    obtain ⟨xs, hxs, hmap, -⟩ := processItems_saleItems _ _ _ hst1
    rw [hlines1, hxs]
    simpa [initialLoopState, sampleBody, expectedLine, unitPrice, gstRateOf, sampleDb,
      sampleProduct] using hmap
  have hP2 : (st2.tx.createSale r2.sale).retailProduct "P"
      = some ((sampleProduct.less 2).less 2) := by
    rw [hrow2 "P", hP]
    simp [sampleBody, requestedFor]
  obtain ⟨items1, hreg1, -⟩ := regenerateSaleItems_core (st1.tx.createSale r1.sale) r1.sale.items
    (by
      intro line hline
      rw [hitems] at hline
      simp only [List.mem_singleton] at hline
      subst hline
      exact ⟨_, hP⟩)
  obtain ⟨items2, hreg2, -⟩ := regenerateSaleItems_core (st2.tx.createSale r2.sale) r1.sale.items
    (by
      intro line hline
      rw [hitems] at hline
      simp only [List.mem_singleton] at hline
      subst hline
      exact ⟨_, hP2⟩)
  have hget1 : (st1.tx.createSale r1.sale).sale.get? 0 = some r1.sale := by
    rw [hsale1]
    simp [sampleDb]
  have hget2 : (st2.tx.createSale r2.sale).sale.get? 0 = some r1.sale := by
    rw [hsale2, hsale1]
    simp [sampleDb]
  obtain ⟨inv1, hview1, hnum1, -⟩ := getSaleById_ok sampleNow 0 _ r1.sale items1 hget1 hreg1
  obtain ⟨inv2, hview2, hnum2, -⟩ := getSaleById_ok sampleNow 0 _ r1.sale items2 hget2 hreg2
  have h1 : inv1.invoiceNumber = "KM/2024-25/0002" := by
    rw [hnum1, generateInvoiceNumber_eq, countInWindow_append sampleDb _ r1.sale _ hsale1, hat1]
    decide
  have h2 : inv2.invoiceNumber = "KM/2024-25/0003" := by
    rw [hnum2, generateInvoiceNumber_eq, countInWindow_append _ _ r2.sale _ hsale2,
      countInWindow_append sampleDb _ r1.sale _ hsale1, hat1, hat2]
    decide
  refine ⟨_, r1, _, r2, inv1, inv2, hres1, hview1, hres2, hview2, ?_, h1, h2, ?_⟩
  · rw [hn1]
    decide
  · rw [h1, h2]
    decide

/-! ## The regenerated invoice -/

theorem calculateGST_baseAmount_mode (amount gstRate : JSNum) (isInterState : Bool) :
    (calculateGST amount gstRate isInterState).baseAmount =
      (calculateGST amount gstRate false).baseAmount := by
  cases isInterState <;> simp [calculateGST]

/-- Rounding to 2 decimals a second time changes nothing. -/
theorem roundHalfUp2_idem (x : ℚ) : roundHalfUp2 (roundHalfUp2 x) = roundHalfUp2 x := by
  have h : roundHalfUp2 x = (⌊x * 100 + 1 / 2⌋ : ℤ) / 100 := rfl
  rw [h]
  generalize ⌊x * 100 + 1 / 2⌋ = n
  have hc : (n : ℚ) / 100 * 100 = n := by
    field_simp
  exact roundHalfUp2_eq _ n (by rw [hc]; linarith) (by rw [hc]; linarith)

/-- C19, amended: a sale made by `processSale` and retrieved by `getSaleById` from a
store that still holds its record and a row for each of its products gets an
invoice with the same per-line quantity, unit price, total price, GST rate and
taxable value and the same grand total as the invoice composed at creation.  The
per-line `cgst`, `sgst`, `igst` agree when the sale was intra-state, and subtotal
and discount agree when the sale had no discount and a non-negative line total. -/
theorem getSaleById_regenerated_invoice (now now2 : DateTime) (body : Body) (db db1 db2 : Db)
    (result : SaleData) (id : Nat)
    (h : processSale now body db = (db1, .created result))
    (hget : db2.sale.get? id = some result.sale)
    (hprod : ∀ item ∈ body.items, ∃ p, db2.retailProduct item.productId = some p) :
    ∃ invoice, getSaleById now2 id db2 = .ok result.sale invoice ∧
      invoice.items.map InvoiceItem.figures =
        (generateGSTInvoice result).items.map InvoiceItem.figures ∧
      invoice.summary.grandTotal = (generateGSTInvoice result).summary.grandTotal ∧
      (result.isInterState = false →
        invoice.items.map InvoiceItem.taxes =
          (generateGSTInvoice result).items.map InvoiceItem.taxes) ∧
      (body.discountAmount.getD 0 = 0 → 0 ≤ lineTotal db body.items →
        invoice.summary.subtotal = (generateGSTInvoice result).summary.subtotal ∧
        invoice.summary.discount = (generateGSTInvoice result).summary.discount) := by
  obtain ⟨st, hloop, -, hsi, hlines, -, -, -, htot, hdamt, hdisc, -, hsaletot, -, hinter⟩ :=
    processSale_created_fields now body db db1 result h
  obtain ⟨xs, hxs, hmap, hwf⟩ := processItems_saleItems body.items _ _ hloop
  have hxs1 : st.saleItems = xs := by simpa [initialLoopState] using hxs
  have hmap1 : xs.map SaleItem.toLine = body.items.map (expectedLine db) := hmap
  have hexists : ∀ line ∈ result.sale.items, ∃ p, db2.retailProduct line.productId = some p := by
    intro line hline
    rw [hlines, hxs1, hmap1, List.mem_map] at hline
    obtain ⟨item, hitem, rfl⟩ := hline
    exact hprod item hitem
  obtain ⟨items2, hreg, hcore⟩ := regenerateSaleItems_core db2 result.sale.items hexists
  obtain ⟨invoice, hview, -, hfig, htax, hsub, hdis, hgrand⟩ :=
    getSaleById_ok now2 id db2 result.sale items2 hget hreg
  obtain ⟨cfig, ctax, csub, cdis, cgrand⟩ := generateGSTInvoice_figures result
  have hpoint : ∀ x ∈ xs, figuresOf (SaleLine.core x.toLine) = figuresOf (SaleItem.core x) := by
    intro x hx
    obtain ⟨h1, h2⟩ := hwf x hx
    simp only [figuresOf, SaleLine.core, SaleItem.core, SaleItem.toLine]
    rw [h2, calculateGST_baseAmount_mode _ _ (body.isInterState.getD false), h1]
  refine ⟨invoice, hview, ?_, ?_, ?_, ?_⟩
  · rw [hfig, cfig, hcore, hlines, hsi, hxs1, List.map_map, List.map_map, List.map_map]
    exact List.map_congr_left (fun x hx => hpoint x hx)
  · rw [hgrand, cgrand, hsaletot, hdisc, round_times_hundred, round_times_hundred,
      roundHalfUp2_idem]
  · intro hintra
    rw [htax, ctax, hcore, hlines, hsi, hxs1, List.map_map, List.map_map, List.map_map]
    refine List.map_congr_left (fun x hx => ?_)
    obtain ⟨h1, h2⟩ := hwf x hx
    rw [hinter] at hintra
    simp only [Function.comp, taxesOf, SaleLine.core, SaleItem.core, SaleItem.toLine]
    rw [h2, hintra, h1]
  · intro hd hT
    constructor
    · rw [hsub, csub, hsaletot, hdisc, htot, hd, sub_zero, max_eq_right hT,
        round_times_hundred, round_times_hundred, roundHalfUp2_idem]
    · rw [hdis, cdis, hdamt, hd]
      simp

/-- Witness for C19 (amended): the sample sale of 2 units, viewed right after it was
made. -/
theorem getSaleById_regenerated_invoice_witness :
    ∃ db1 result invoice,
      processSale sampleNow (sampleBody [⟨"P", 2⟩]) sampleDb = (db1, .created result) ∧
      getSaleById sampleNow 0 db1 = .ok result.sale invoice ∧
      invoice.items.map InvoiceItem.figures =
        (generateGSTInvoice result).items.map InvoiceItem.figures ∧
      invoice.summary.grandTotal = (generateGSTInvoice result).summary.grandTotal := by
  obtain ⟨st1, hst1⟩ := processItems_single_ok false sampleDb "P" 2 sampleProduct rfl
    (by decide)
  obtain ⟨r1, hres1, -⟩ := processSale_ok sampleNow (sampleBody [⟨"P", 2⟩]) sampleDb st1
    (by decide) hst1
  obtain ⟨hsale1, hrow1⟩ := processSale_created_store sampleNow _ sampleDb _ r1 hres1
  have hget : (st1.tx.createSale r1.sale).sale.get? 0 = some r1.sale := by
    rw [hsale1]
    simp [sampleDb]
  have hprod : ∀ item ∈ (sampleBody [⟨"P", 2⟩]).items,
      ∃ p, (st1.tx.createSale r1.sale).retailProduct item.productId = some p := by
    intro item hitem
    simp only [sampleBody, List.mem_singleton] at hitem
    subst hitem
    rw [hrow1 "P"]
    simp [sampleDb]
  obtain ⟨invoice, hview, hfig, hgrand, -⟩ :=
    getSaleById_regenerated_invoice sampleNow sampleNow _ sampleDb _ _ r1 0 hres1 hget hprod
  exact ⟨_, r1, invoice, hres1, hview, hfig, hgrand⟩

/-- The tax split of a line total of 2000 at 18 percent, inter-state. -/
theorem calculateGST_2000_18_inter :
    calculateGST (.fin 2000) (.fin 18) true =
      { baseAmount := .fin (169492 / 100), igst := .fin (30508 / 100), cgst := .fin 0,
        sgst := .fin 0, totalGst := .fin (30508 / 100) } := by
  rw [calculateGST_fin _ _ (by norm_num)]
  simp only [if_true]
  rw [roundHalfUp2_eq (2000 / (1 + 18 / 100)) 169492 (by norm_num) (by norm_num),
    roundHalfUp2_eq (2000 - 2000 / (1 + 18 / 100)) 30508 (by norm_num) (by norm_num)]
  norm_num

/-- Rounding a value that has 2 decimals gives it back. -/
theorem round_two_decimals (n : ℤ) :
    Math.round (JSNum.fin (n / 100) * 100) / 100 = JSNum.fin (n / 100) := by
  rw [round_times_hundred]
  have hc : (n : ℚ) / 100 * 100 = n := by
    field_simp
  rw [roundHalfUp2_eq _ n (by rw [hc]; linarith) (by rw [hc]; linarith)]

/-- C19, as stated, fails: for an inter-state sale of 2 units with a discount of 500,
the invoice at creation has `igst = 305.08`, `cgst = sgst = 0`, subtotal 2000 and
discount 500, while the invoice regenerated by `getSaleById` has `igst = 0`,
`cgst = sgst = 152.54`, subtotal 1500 and discount 0. -/
theorem getSaleById_regenerated_invoice_counterexample :
    ∃ db1 result invoice,
      processSale sampleNow (sampleBodyWith [⟨"P", 2⟩] 500 true) sampleDb
        = (db1, .created result) ∧
      getSaleById sampleNow 0 db1 = .ok result.sale invoice ∧
      (generateGSTInvoice result).items.map InvoiceItem.taxes =
        [(.fin 0, .fin 0, .fin (30508 / 100))] ∧
      invoice.items.map InvoiceItem.taxes =
        [(.fin (15254 / 100), .fin (15254 / 100), .fin 0)] ∧
      (generateGSTInvoice result).summary.subtotal = .fin 2000 ∧
      invoice.summary.subtotal = .fin 1500 ∧
      (generateGSTInvoice result).summary.discount = .fin 500 ∧
      invoice.summary.discount = .fin 0 ∧
      invoice.items.map InvoiceItem.taxes ≠
        (generateGSTInvoice result).items.map InvoiceItem.taxes ∧
      invoice.summary.subtotal ≠ (generateGSTInvoice result).summary.subtotal ∧
      invoice.summary.discount ≠ (generateGSTInvoice result).summary.discount := by
  obtain ⟨st, hst⟩ := processItems_single_ok true sampleDb "P" 2 sampleProduct rfl
    (by decide)
  obtain ⟨r, hres, -⟩ := processSale_ok sampleNow (sampleBodyWith [⟨"P", 2⟩] 500 true)
    sampleDb st (by decide) hst
  obtain ⟨hsale, hrow⟩ := processSale_created_store sampleNow _ sampleDb _ r hres
  obtain ⟨s1, hs1, -, hsi, hlines, -, -, -, htot, hdamt, hdisc, -, hsaletot, -⟩ :=
    processSale_created_fields sampleNow _ sampleDb _ r hres
  have hs : st = s1 := by
    have e : (Except.ok st : Except String LoopState) = Except.ok s1 := hst.symm.trans hs1
    injection e
  subst hs
  have hT : lineTotal sampleDb (sampleBodyWith [⟨"P", 2⟩] 500 true).items = 2000 := by
    simp [lineTotal, unitPrice, sampleDb, sampleProduct, sampleBodyWith]
    norm_num
  have hd : ((sampleBodyWith [⟨"P", 2⟩] 500 true).discountAmount).getD 0 = 500 := rfl
  rw [hT, hd] at hdisc
  rw [hT] at htot
  rw [hd] at hdamt
  have hmax : Max.max (0 : ℚ) (2000 - 500) = 1500 := by norm_num
  rw [hmax] at hdisc
  obtain ⟨xs, hxs, hmap, hwf⟩ := processItems_saleItems _ _ _ hst
  have hxs1 : st.saleItems = xs := by simpa [initialLoopState] using hxs
  have hcoreC : xs.map SaleItem.core =
      [(2, 1000, .fin 2000, 18, calculateGST (.fin 2000) (.fin 18) true)] := by
    match xs, hmap, hwf with
    | [], hmap, _ => simp at hmap
    | [x], hmap, hwf =>
      obtain ⟨h1, h2⟩ := hwf x (List.mem_singleton.mpr rfl)
      simp only [List.map_cons, List.map_nil, List.cons.injEq, and_true, SaleItem.toLine,
        expectedLine, SaleLine.mk.injEq, initialLoopState, unitPrice, gstRateOf, sampleDb,
        sampleProduct] at hmap
      obtain ⟨-, hq, hp, hg⟩ := hmap
      simp only [if_true, Option.map_some', Option.getD_some] at hp hg
      have hit : x.itemTotal = .fin 2000 := by
        rw [h1, hp, hq]
        simp
        norm_num
      simp only [List.map_cons, List.map_nil, SaleItem.core, h2, hit, hp, hq, hg]
    | _ :: _ :: _, hmap, _ => simp at hmap
  have hlinesR : r.sale.items = [⟨"P", 2, 1000, 18⟩] := by
    rw [hlines, hxs1, hmap]
    simp [initialLoopState, sampleBodyWith, expectedLine, unitPrice, gstRateOf, sampleDb,
      sampleProduct]
  have hP : (st.tx.createSale r.sale).retailProduct "P" = some (sampleProduct.less 2) := by
    rw [hrow "P"]
    simp [sampleDb, sampleBodyWith, requestedFor]
  obtain ⟨items2, hreg, hcore2⟩ := regenerateSaleItems_core (st.tx.createSale r.sale)
    r.sale.items
    (by
      intro line hline
      rw [hlinesR] at hline
      simp only [List.mem_singleton] at hline
      subst hline
      exact ⟨_, hP⟩)
  have hget : (st.tx.createSale r.sale).sale.get? 0 = some r.sale := by
    rw [hsale]
    simp [sampleDb]
  obtain ⟨invoice, hview, -, -, htax, hsub, hdis, -⟩ :=
    getSaleById_ok sampleNow 0 _ r.sale items2 hget hreg
  obtain ⟨-, ctax, csub, cdis, -⟩ := generateGSTInvoice_figures r
  have hcoreR : items2.map SaleItem.core =
      [(2, 1000, .fin 2000, 18, calculateGST (.fin 2000) (.fin 18) false)] := by
    rw [hcore2, hlinesR]
    simp [SaleLine.core]
    norm_num
  have r0 : Math.round (JSNum.fin 0 * 100) / 100 = JSNum.fin 0 := by
    have := round_two_decimals 0
    simpa using this
  have r500 : Math.round (JSNum.fin 500 * 100) / 100 = JSNum.fin 500 := by
    have := round_two_decimals 50000
    norm_num at this
    exact this
  have r1500 : Math.round (JSNum.fin 1500 * 100) / 100 = JSNum.fin 1500 := by
    have := round_two_decimals 150000
    norm_num at this
    exact this
  have r2000 : Math.round (JSNum.fin 2000 * 100) / 100 = JSNum.fin 2000 := by
    have := round_two_decimals 200000
    norm_num at this
    exact this
  have rigst : Math.round (JSNum.fin (30508 / 100) * 100) / 100 = JSNum.fin (30508 / 100) := by
    have := round_two_decimals 30508
    push_cast at this
    exact this
  have rcgst : Math.round (JSNum.fin (15254 / 100) * 100) / 100 = JSNum.fin (15254 / 100) := by
    have := round_two_decimals 15254
    push_cast at this
    exact this
  have ctaxv : (generateGSTInvoice r).items.map InvoiceItem.taxes =
      [(.fin 0, .fin 0, .fin (30508 / 100))] := by
    rw [ctax, hsi, hxs1, hcoreC, calculateGST_2000_18_inter]
    simp only [List.map_cons, List.map_nil, taxesOf, r0, rigst]
  have htaxv : invoice.items.map InvoiceItem.taxes =
      [(.fin (15254 / 100), .fin (15254 / 100), .fin 0)] := by
    rw [htax, hcoreR, calculateGST_2000_18]
    simp only [List.map_cons, List.map_nil, taxesOf, r0, rcgst]
  have csubv : (generateGSTInvoice r).summary.subtotal = .fin 2000 := by
    rw [csub, htot, r2000]
  have hsubv : invoice.summary.subtotal = .fin 1500 := by
    rw [hsub, hsaletot, hdisc, r1500, r1500]
  have cdisv : (generateGSTInvoice r).summary.discount = .fin 500 := by
    rw [cdis, hdamt, r500]
  have hdisv : invoice.summary.discount = .fin 0 := by
    rw [hdis]
    simpa using r0
  refine ⟨_, r, invoice, hres, hview, ctaxv, htaxv, csubv, hsubv, cdisv, hdisv, ?_, ?_, ?_⟩
  · rw [htaxv, ctaxv]
    intro hne
    simp only [List.cons.injEq, Prod.mk.injEq, JSNum.fin.injEq, and_true] at hne
    norm_num at hne
  · rw [hsubv, csubv]
    intro hne
    simp only [JSNum.fin.injEq] at hne
    norm_num at hne
  · rw [hdisv, cdisv]
    intro hne
    simp only [JSNum.fin.injEq] at hne
    norm_num at hne

/-! ## The customer block -/

/-- C20: for every sale data, `generateGSTInvoice` gives `customer.name` the text
`Walk-in Customer` when `customerInfo` has no name (or an empty one) and the given
name unchanged when it is non-empty; an absent phone, address or gstin gives the
empty text. -/
theorem generateGSTInvoice_customer (saleData : SaleData) :
    (saleData.customerInfo.name = none →
        (generateGSTInvoice saleData).customer.name = "Walk-in Customer") ∧
      (saleData.customerInfo.name = some "" →
        (generateGSTInvoice saleData).customer.name = "Walk-in Customer") ∧
      (∀ v, saleData.customerInfo.name = some v → v ≠ "" →
        (generateGSTInvoice saleData).customer.name = v) ∧
      (saleData.customerInfo.phone = none → (generateGSTInvoice saleData).customer.phone = "") ∧
      (saleData.customerInfo.address = none →
        (generateGSTInvoice saleData).customer.address = "") ∧
      (saleData.customerInfo.gstin = none → (generateGSTInvoice saleData).customer.gstin = "") := by
  refine ⟨?_, ?_, ?_, ?_, ?_, ?_⟩
  · intro h
    simp [generateGSTInvoice, orElse, h]
  · intro h
    simp [generateGSTInvoice, orElse, h]
  · intro v h hv
    simp [generateGSTInvoice, orElse, h, hv]
  · intro h
    simp [generateGSTInvoice, orElse, h]
  · intro h
    simp [generateGSTInvoice, orElse, h]
  · intro h
    simp [generateGSTInvoice, orElse, h]

/-- Witness for C20: a sale data without customer details, and one with a name. -/
theorem generateGSTInvoice_customer_witness :
    (generateGSTInvoice (sampleSaleData ⟨none, none, none, none, none⟩)).customer.name
        = "Walk-in Customer" ∧
      (generateGSTInvoice (sampleSaleData ⟨none, none, none, none, none⟩)).customer.phone = "" ∧
      (generateGSTInvoice (sampleSaleData ⟨some "Asha", none, none, none, none⟩)).customer.name
        = "Asha" :=
  ⟨(generateGSTInvoice_customer (sampleSaleData ⟨none, none, none, none, none⟩)).1 rfl,
    (generateGSTInvoice_customer (sampleSaleData ⟨none, none, none, none, none⟩)).2.2.2.1 rfl,
    (generateGSTInvoice_customer (sampleSaleData ⟨some "Asha", none, none, none, none⟩)).2.2.1
      "Asha" rfl (by decide)⟩

/-! ## The two halves of the tax -/

/-- The two roundings of C4 and C26: twice the rounded half differs from the rounded
whole by at most one hundredth. -/
theorem roundHalfUp2_half_twice (g : ℚ) :
    |roundHalfUp2 (g / 2) + roundHalfUp2 (g / 2) - roundHalfUp2 g| ≤ 1 / 100 := by
  unfold roundHalfUp2
  have m1 := Int.floor_le (g / 2 * 100 + 1 / 2)
  have m2 := Int.lt_floor_add_one (g / 2 * 100 + 1 / 2)
  have n1 := Int.floor_le (g * 100 + 1 / 2)
  have n2 := Int.lt_floor_add_one (g * 100 + 1 / 2)
  generalize ⌊g / 2 * 100 + 1 / 2⌋ = m at m1 m2 ⊢
  generalize ⌊g * 100 + 1 / 2⌋ = n at n1 n2 ⊢
  have h1 : ((2 * m - n : ℤ) : ℚ) < 2 := by
    push_cast
    linarith
  have h2 : ((n - 2 * m : ℤ) : ℚ) < 2 := by
    push_cast
    linarith
  have h3 : 2 * m - n < 2 := by exact_mod_cast h1
  have h4 : n - 2 * m < 2 := by exact_mod_cast h2
  have h5 : ((2 * m - n : ℤ) : ℚ) ≤ 1 := by exact_mod_cast (by omega : 2 * m - n ≤ 1)
  have h6 : ((n - 2 * m : ℤ) : ℚ) ≤ 1 := by exact_mod_cast (by omega : n - 2 * m ≤ 1)
  push_cast at h5 h6
  rw [abs_le]
  constructor <;> linarith

theorem hsnCodeOf_eq (category : String) :
    (if category = "Mobile Phone" then GST_CONFIG.HSN_CODE_MOBILE
      else GST_CONFIG.HSN_CODE_ACCESSORIES) = hsnCodeOf category := rfl

theorem categoryOf_decrementQuantity (db : Db) (id : String) (n : ℤ) (k : String) :
    categoryOf (db.decrementQuantity id n) k = categoryOf db k := by
  unfold categoryOf
  rw [decrementQuantity_retailProduct]
  by_cases h : k = id
  · simp only [h, if_true]
    cases db.retailProduct id <;> rfl
  · simp only [h, if_false]

/-- The HSN codes of the entries a completed loop has appended. -/
theorem processItems_hsn {isInterState : Bool} :
    ∀ (items : List Item) (st st1 : LoopState),
      processItems isInterState st items = .ok st1 →
      st1.saleItems.map (fun x => x.hsnCode) =
        st.saleItems.map (fun x => x.hsnCode) ++
          items.map (fun item => hsnCodeOf (categoryOf st.tx item.productId)) := by
  intro items
  induction items with
  | nil =>
    intro st st1 h
    simp only [processItems, Except.ok.injEq] at h
    subst h
    simp
  | cons item rest ih =>
    intro st st1 h
    unfold processItems at h
    cases h1 : processItem isInterState st item with
    | error e => simp [h1] at h
    | ok st2 =>
      simp only [h1] at h
      rw [ih st2 st1 h]
      unfold processItem at h1
      cases hp : st.tx.retailProduct item.productId with
      | none => simp [hp] at h1
      | some p =>
        simp only [hp] at h1
        by_cases hq : p.quantity < item.quantity
        · simp [hq] at h1
        · simp only [hq, if_false, Except.ok.injEq] at h1
          subst h1
          have hc : categoryOf st.tx item.productId = p.category := by
            simp [categoryOf, hp]
          simp only [categoryOf_decrementQuantity, List.map_append, List.map_cons, List.map_nil,
            List.append_assoc, List.singleton_append, hsnCodeOf_eq, hc]

/-- The HSN codes of the entries a completed cart loop has appended. -/
theorem cartItems_hsn (db : Db) :
    ∀ (items : List Item) (st st1 : CartState),
      cartItems db st items = .ok st1 →
      st1.cartItems.map (fun c => c.hsnCode) =
        st.cartItems.map (fun c => c.hsnCode) ++
          items.map (fun item => hsnCodeOf (categoryOf db item.productId)) := by
  intro items
  induction items with
  | nil =>
    intro st st1 h
    simp only [cartItems, Except.ok.injEq] at h
    subst h
    simp
  | cons item rest ih =>
    intro st st1 h
    unfold cartItems at h
    cases h1 : cartItem db st item with
    | error e => simp [h1] at h
    | ok st2 =>
      simp only [h1] at h
      rw [ih st2 st1 h]
      unfold cartItem at h1
      cases hp : db.retailProduct item.productId with
      | none => simp [hp] at h1
      | some p =>
        simp only [hp] at h1
        by_cases hq : p.quantity < item.quantity
        · simp [hq] at h1
        · simp only [hq, if_false, Except.ok.injEq] at h1
          subst h1
          simp [hsnCodeOf_eq, categoryOf, hp]

/-- A `200` response of `createSalesCart` comes from a validated request whose cart
loop completed; the cart is built from the final loop state. -/
theorem createSalesCart_ok_inv (body : Body) (db : Db) (cart : Cart)
    (h : createSalesCart body db = .ok cart) :
    cartValidationResult body = [] ∧
      ∃ st, cartItems db initialCartState body.items = .ok st ∧
        cart.items = st.cartItems ∧
        cart.subtotal = st.totalAmount ∧
        cart.discountedAmount =
          Math.max 0 (st.totalAmount - .fin (body.discountAmount.getD 0)) ∧
        cart.totalGstAmount =
          Math.round (st.totalGstAmount * (cart.discountedAmount / st.totalAmount) * 100) / 100 ∧
        cart.finalAmount = Math.round (cart.discountedAmount * 100) / 100 := by
  cases hv : cartValidationResult body with
  | cons m ms => simp [createSalesCart, hv] at h
  | nil =>
    refine ⟨rfl, ?_⟩
    simp only [createSalesCart, hv, List.isEmpty_nil, Bool.not_true, Bool.false_eq_true,
      if_false] at h
    cases hloop : cartItems db initialCartState body.items with
    | error r =>
      have hloop1 : cartItems db
          { totalAmount := 0, totalGstAmount := 0, cartItems := [], productValidation := [] }
          body.items = .error r := hloop
      simp only [hloop1] at h
      exfalso
      revert hloop
      clear hloop1
      subst h
      intro hloop
      have hne : ∀ (items : List Item) (st : CartState) (c : Cart),
          cartItems db st items ≠ .error (.ok c) := by
        intro items
        induction items with
        | nil =>
          intro st c hc
          simp [cartItems] at hc
        | cons item rest ih =>
          intro st c hc
          unfold cartItems at hc
          cases h1 : cartItem db st item with
          | error e =>
            simp only [h1, Except.error.injEq] at hc
            unfold cartItem at h1
            cases hp : db.retailProduct item.productId with
            | none =>
              simp only [hp, Except.error.injEq] at h1
              rw [hc] at h1
              cases h1
            | some p =>
              simp only [hp] at h1
              by_cases hq : p.quantity < item.quantity
              · simp only [hq, if_true, Except.error.injEq] at h1
                rw [hc] at h1
                cases h1
              · simp [hq] at h1
          | ok st2 =>
            simp only [h1] at hc
            exact ih st2 c hc
      exact hne _ _ _ hloop
    | ok st =>
      have hloop1 : cartItems db
          { totalAmount := 0, totalGstAmount := 0, cartItems := [], productValidation := [] }
          body.items = .ok st := hloop
      simp only [hloop1, CartResponse.ok.injEq] at h
      subst h
      exact ⟨st, rfl, rfl, rfl, rfl, rfl, rfl⟩

/-- The lines of the invoice `getSaleById` sends. -/
theorem getSaleById_ok_inv (now : DateTime) (id : Nat) (db : Db) (sale : Sale)
    (invoice : Invoice) (h : getSaleById now id db = .ok sale invoice) :
    db.sale.get? id = some sale ∧
      ∃ items, regenerateSaleItems db sale.items = some items ∧
        invoice.items.map (fun x => x.hsnCode) = items.map (fun x => x.hsnCode) := by
  unfold getSaleById at h
  cases hget : db.sale.get? id with
  | none =>
    rw [hget] at h
    cases h
  | some s =>
    rw [hget] at h
    dsimp only at h
    cases hreg : regenerateSaleItems db s.items with
    | none =>
      rw [hreg] at h
      cases h
    | some items =>
      rw [hreg] at h
      simp only [SaleResponse.ok.injEq] at h
      obtain ⟨hs, hinv⟩ := h
      subst hs
      subst hinv
      refine ⟨rfl, items, hreg, ?_⟩
      simp [generateGSTInvoice]

/-- The HSN codes of the entries `getSaleById` rebuilds. -/
theorem regenerateSaleItems_hsn (db : Db) :
    ∀ (lines : List SaleLine) (items : List SaleItem),
      regenerateSaleItems db lines = some items →
      items.map (fun x => x.hsnCode) =
        lines.map (fun l => hsnCodeOf (categoryOf db l.productId)) := by
  intro lines
  induction lines with
  | nil =>
    intro items h
    simp only [regenerateSaleItems, Option.some.injEq] at h
    subst h
    rfl
  | cons line rest ih =>
    intro items h
    unfold regenerateSaleItems at h
    cases hp : db.retailProduct line.productId with
    | none => simp [hp] at h
    | some p =>
      simp only [hp] at h
      cases hrest : regenerateSaleItems db rest with
      | none => simp [hrest] at h
      | some items1 =>
        simp only [hrest, Option.some.injEq] at h
        subst h
        simp [ih items1 hrest, hsnCodeOf_eq, categoryOf, hp]

/-- C21: on every line of a successful `processSale` (in `saleItems` and on the
invoice), of a `createSalesCart` cart and of an invoice regenerated by
`getSaleById`, the HSN code is that of the product's category: `85171200` exactly
when the category is `Mobile Phone`, `85444900` for every other category. -/
theorem hsnCode_by_category :
    (∀ (now : DateTime) (body : Body) (db db1 : Db) (result : SaleData),
      processSale now body db = (db1, .created result) →
      result.saleItems.map (fun x => x.hsnCode) =
          body.items.map (fun item => hsnCodeOf (categoryOf db item.productId)) ∧
        (generateGSTInvoice result).items.map (fun x => x.hsnCode) =
          body.items.map (fun item => hsnCodeOf (categoryOf db item.productId))) ∧
      (∀ (body : Body) (db : Db) (cart : Cart), createSalesCart body db = .ok cart →
        cart.items.map (fun c => c.hsnCode) =
          body.items.map (fun item => hsnCodeOf (categoryOf db item.productId))) ∧
      (∀ (now : DateTime) (id : Nat) (db : Db) (sale : Sale) (invoice : Invoice),
        getSaleById now id db = .ok sale invoice →
        invoice.items.map (fun x => x.hsnCode) =
          sale.items.map (fun l => hsnCodeOf (categoryOf db l.productId))) ∧
      (∀ category : String,
        (hsnCodeOf category = "85171200" ↔ category = "Mobile Phone") ∧
        (category ≠ "Mobile Phone" → hsnCodeOf category = "85444900")) := by
  refine ⟨?_, ?_, ?_, ?_⟩
  · intro now body db db1 result h
    obtain ⟨st, hloop, -, hsi, -⟩ := processSale_created_fields now body db db1 result h
    have hcodes := processItems_hsn body.items _ _ hloop
    simp only [initialLoopState, List.map_nil, List.nil_append] at hcodes
    refine ⟨by rw [hsi, hcodes], ?_⟩
    rw [← hcodes, ← hsi]
    simp [generateGSTInvoice]
  · intro body db cart h
    obtain ⟨-, st, hloop, hitems, -⟩ := createSalesCart_ok_inv body db cart h
    have hcodes := cartItems_hsn db body.items _ _ hloop
    simp only [initialCartState, List.map_nil, List.nil_append] at hcodes
    rw [hitems, hcodes]
  · intro now id db sale invoice h
    obtain ⟨-, items, hreg, hinv⟩ := getSaleById_ok_inv now id db sale invoice h
    rw [hinv, regenerateSaleItems_hsn db _ _ hreg]
  · intro category
    unfold hsnCodeOf
    by_cases hc : category = "Mobile Phone"
    · simp [hc]
    · rw [if_neg hc]
      exact ⟨⟨fun h => absurd h (by decide), fun h => absurd h hc⟩, fun _ => rfl⟩

/-- Witness for C21: the sample sale of a mobile phone carries the code `85171200`. -/
theorem hsnCode_by_category_witness :
    ∃ db1 result,
      processSale sampleNow (sampleBody [⟨"P", 2⟩]) sampleDb = (db1, .created result) ∧
      result.saleItems.map (fun x => x.hsnCode) = ["85171200"] := by
  obtain ⟨st, hst⟩ := processItems_single_ok false sampleDb "P" 2 sampleProduct rfl
    (by decide)
  obtain ⟨r, hres, -⟩ := processSale_ok sampleNow (sampleBody [⟨"P", 2⟩]) sampleDb st
    (by decide) hst
  refine ⟨_, r, hres, ?_⟩
  rw [(hsnCode_by_category.1 sampleNow _ sampleDb _ r hres).1]
  decide

/-! ## Sale listing -/

/-- The number of rows `findMany` returns. -/
theorem findManySales_length (db : Db) (test : Sale → Bool) (skip take : ℕ) :
    (findManySales db test skip take).length =
      min take ((db.sale.filter test).length - skip) := by
  unfold findManySales
  rw [List.length_take, List.length_drop, List.length_mergeSort]

/-- The response of `getAllSales` for a page number of at least 1. -/
theorem getAllSales_ok (query : SalesQuery) (db : Db) (page limit : ℕ)
    (hpage : query.page.getD 1 = page) (hlimit : query.limit.getD 50 = limit)
    (hp : 1 ≤ page) :
    getAllSales query db =
      .ok (findManySales db (whereClause query) ((page - 1) * limit) limit)
        { currentPage := page
          totalPages :=
            Math.ceil (JSNum.fin ((db.sale.filter (whereClause query)).length : ℕ) /
              JSNum.fin ((limit : ℤ) : ℚ))
          totalCount := (db.sale.filter (whereClause query)).length
          hasNext := decide (((page : ℤ) - 1) * limit + limit <
            (((db.sale.filter (whereClause query)).length : ℕ) : ℤ))
          hasPrev := decide ((page : ℤ) > 1) } := by
  have hskip : ¬ (((page : ℤ) - 1) * (limit : ℤ) < 0) := by
    have h1 : (0 : ℤ) ≤ (page : ℤ) - 1 := by omega
    have h2 : (0 : ℤ) ≤ (limit : ℤ) := by omega
    exact not_lt.mpr (mul_nonneg h1 h2)
  have htoNat : (((page : ℤ) - 1) * (limit : ℤ)).toNat = (page - 1) * limit := by
    have h1 : ((page : ℤ) - 1) * (limit : ℤ) = (((page - 1) * limit : ℕ) : ℤ) := by
      push_cast [Nat.cast_sub hp]
      ring
    rw [h1, Int.toNat_natCast]
  simp only [getAllSales, hpage, hlimit, hskip, if_false, htoNat, Int.toNat_natCast]

/-- C30: for every page of at least 1 and limit of at least 1 (the defaults 1 and 50
included), `getAllSales` skips `(page - 1) x limit` rows, and its pagination block has
`totalPages = ceil(totalCount / limit)`, `hasPrev` exactly when `page > 1` and
`hasNext` exactly when `currentPage < totalPages`. -/
theorem getAllSales_pagination (query : SalesQuery) (db : Db) (page limit : ℕ)
    (hpage : query.page.getD 1 = page) (hlimit : query.limit.getD 50 = limit)
    (hp : 1 ≤ page) (hl : 1 ≤ limit) :
    ∃ pagination,
      getAllSales query db =
        .ok (findManySales db (whereClause query) ((page - 1) * limit) limit) pagination ∧
      pagination.currentPage = page ∧
      pagination.totalCount = (db.sale.filter (whereClause query)).length ∧
      pagination.totalPages =
        .fin ((⌈((pagination.totalCount : ℕ) : ℚ) / (limit : ℚ)⌉ : ℤ) : ℚ) ∧
      (pagination.hasPrev = true ↔ 1 < page) ∧
      (pagination.hasNext = true ↔
        pagination.currentPage < ⌈((pagination.totalCount : ℕ) : ℚ) / (limit : ℚ)⌉) := by
  refine ⟨_, getAllSales_ok query db page limit hpage hlimit hp, rfl, rfl, ?_, ?_, ?_⟩
  · have hl0 : ((limit : ℤ) : ℚ) ≠ 0 := by
      have : (0 : ℚ) < ((limit : ℤ) : ℚ) := by exact_mod_cast hl
      exact ne_of_gt this
    show Math.ceil (JSNum.fin _ / JSNum.fin _) = _
    rw [JSNum.fin_div_fin _ _ hl0]
    simp [Math.ceil]
  · simp
  · have hlpos : (0 : ℚ) < (limit : ℚ) := by exact_mod_cast hl
    simp only [decide_eq_true_eq]
    rw [Int.lt_ceil, lt_div_iff₀ hlpos]
    constructor
    · intro h
      have h1 : (page : ℤ) * limit < ((db.sale.filter (whereClause query)).length : ℕ) := by
        linarith
      exact_mod_cast h1
    · intro h
      have h1 : (page : ℤ) * limit < ((db.sale.filter (whereClause query)).length : ℕ) := by
        exact_mod_cast h
      linarith

/-- Witness for C30: page 2 of 3 sales listed 2 at a time. -/
theorem getAllSales_pagination_witness :
    ∃ pagination,
      getAllSales ⟨none, none, none, none, none, some 2, some 2⟩
          { sampleDb with sale := List.replicate 3 (sampleSaleAt 1720000000000) } =
        .ok (findManySales { sampleDb with sale := List.replicate 3 (sampleSaleAt 1720000000000) }
          (whereClause ⟨none, none, none, none, none, some 2, some 2⟩) ((2 - 1) * 2) 2)
          pagination ∧
      pagination.currentPage = 2 ∧ pagination.totalCount = 3 ∧
      (pagination.hasPrev = true ↔ 1 < 2) :=
  let ⟨pagination, h1, h2, h3, _, h5, _⟩ :=
    getAllSales_pagination ⟨none, none, none, none, none, some 2, some 2⟩
      { sampleDb with sale := List.replicate 3 (sampleSaleAt 1720000000000) } 2 2 rfl rfl
      (by decide) (by decide)
  ⟨pagination, h1, h2, h3.trans (by decide), h5⟩

/-- C22, on the code: with 101 sales stored, a listing request with `limit=1000`
gets a page of 101 sales; the route declares a validator with a maximum of 100, but
`getAllSales` never reads the validation result. -/
theorem getAllSales_exceeds_cap :
    ∃ sales pagination, getAllSales wideQuery manySalesDb = .ok sales pagination ∧
      sales.length = 101 ∧ 100 < sales.length := by
  have hok := getAllSales_ok wideQuery manySalesDb 1 1000 rfl rfl (le_refl 1)
  have hlen : (findManySales manySalesDb (whereClause wideQuery) ((1 - 1) * 1000) 1000).length
      = 101 := by
    rw [findManySales_length]
    have hfilter : (manySalesDb.sale.filter (whereClause wideQuery)).length = 101 := by
      simp [manySalesDb, whereClause, wideQuery]
    rw [hfilter]
    decide
  exact ⟨_, _, hok, hlen, by rw [hlen]; decide⟩

/-! ## A failing store -/

/-- On a store that does not fail, `processSaleWith` is `processSale`. -/
theorem processSaleWith_none (now : DateTime) (body : Body) (db : Db) :
    processSaleWith none now body db = processSale now body db := rfl

/-- The response to a validated request whose lines pass but whose `sale.create` is
rejected: the store is rolled back and the error text is the one of the store. -/
theorem processSaleWith_createError (message : String) (now : DateTime) (body : Body)
    (db : Db) (st : LoopState) (hv : validationResult body = [])
    (hloop : processItems (body.isInterState.getD false) (initialLoopState db) body.items
      = .ok st) :
    processSaleWith (some message) now body db =
      (db, .serverError (if message = "" then "Internal server error" else message)) := by
  simp only [processSaleWith, hv, List.isEmpty_nil, Bool.not_true, Bool.false_eq_true,
    if_false, transaction, saleTransactionWith, hloop]

/-- C23, on the code: when the lines of a request pass and the store then rejects
`sale.create` with the text `database is locked`, the `500` response carries that
text, not `Internal server error`. -/
theorem processSale_forwards_internal_message :
    processSaleWith (some "database is locked") sampleNow (sampleBody [⟨"P", 2⟩]) sampleDb =
        (sampleDb, .serverError "database is locked") ∧
      "database is locked" ≠ "Internal server error" := by
  obtain ⟨st, hst⟩ := processItems_single_ok false sampleDb "P" 2 sampleProduct rfl
    (by decide)
  refine ⟨?_, by decide⟩
  rw [processSaleWith_createError "database is locked" sampleNow (sampleBody [⟨"P", 2⟩])
    sampleDb st (by decide) hst]
  rfl

/-! ## Spare parts of a repair job -/

/-- What a `201` response of `addPartToRepairJob` says about the request and the
tables. -/
theorem addPartToRepairJob_added (id : String) (body : AddPartBody) (db db1 : RepairDb)
    (usageId : ℕ) (usage : RepairPartUsage)
    (h : addPartToRepairJob id body db = (db1, .partAdded usageId usage)) :
    ∃ part, db.repairPart body.repairPartId = some part ∧
      body.quantityUsed ≤ part.quantity ∧
      usageId = db.nextUsageId ∧
      usage = { repairJobId := id, repairPartId := body.repairPartId,
                quantityUsed := body.quantityUsed } ∧
      db1 = (db.createUsage usage).incrementQuantity body.repairPartId (-body.quantityUsed) := by
  unfold addPartToRepairJob at h
  cases hv : addPartValidationResult body with
  | cons m ms => simp [hv] at h
  | nil =>
    simp only [hv, List.isEmpty_nil, Bool.not_true, Bool.false_eq_true, if_false] at h
    cases hjob : db.repairJob id with
    | none => simp [hjob] at h
    | some job =>
      simp only [hjob] at h
      cases hpart : db.repairPart body.repairPartId with
      | none => simp [hpart] at h
      | some part =>
        simp only [hpart] at h
        by_cases hq : part.quantity < body.quantityUsed
        · simp [hq] at h
        · simp only [hq, if_false, Prod.mk.injEq, RepairResponse.partAdded.injEq] at h
          obtain ⟨hdb, hid, husage⟩ := h
          exact ⟨part, rfl, not_lt.mp hq, hid.symm, husage.symm, by rw [← hdb, husage]⟩

theorem findUsage_createUsage (db : RepairDb) (usage : RepairPartUsage)
    (hfresh : db.keysFresh) :
    (db.createUsage usage).findUsage db.nextUsageId = some usage := by
  unfold RepairDb.findUsage RepairDb.createUsage
  have hnone : db.repairPartUsage.find? (fun e => decide (e.1 = db.nextUsageId)) = none := by
    rw [List.find?_eq_none]
    intro e he
    have := hfresh e he
    simp
    omega
  simp [List.find?_append, hnone]

theorem deleteUsage_createUsage (db : RepairDb) (usage : RepairPartUsage)
    (hfresh : db.keysFresh) :
    ((db.createUsage usage).deleteUsage db.nextUsageId).repairPartUsage
      = db.repairPartUsage := by
  unfold RepairDb.deleteUsage RepairDb.createUsage
  simp only [List.filter_append]
  have hall : db.repairPartUsage.filter (fun e => decide (e.1 ≠ db.nextUsageId))
      = db.repairPartUsage := by
    rw [List.filter_eq_self]
    intro e he
    have := hfresh e he
    simp
    omega
  rw [hall]
  simp

/-- C24: in tables whose generated keys are new, a part added to a repair job by
`addPartToRepairJob` and then removed by `removePartFromRepairJob` with the key of
that usage leaves every part row, the part's quantity included, and the usage table
as they were before the add, with no record under that key; and a request for more
than the part's quantity is rejected with the tables unchanged. -/
theorem addPart_then_removePart :
    (∀ (id : String) (body : AddPartBody) (db db1 : RepairDb) (usageId : ℕ)
        (usage : RepairPartUsage), db.keysFresh →
      addPartToRepairJob id body db = (db1, .partAdded usageId usage) →
      ∃ db2, removePartFromRepairJob id usageId db1 = (db2, .partRemoved) ∧
        db2.quantityOf body.repairPartId = db.quantityOf body.repairPartId ∧
        (∀ k, db2.repairPart k = db.repairPart k) ∧
        db2.repairPartUsage = db.repairPartUsage ∧
        db2.findUsage usageId = none) ∧
      (∀ (id : String) (body : AddPartBody) (db : RepairDb) (job : RepairJob)
        (part : RepairPart), addPartValidationResult body = [] →
        db.repairJob id = some job → db.repairPart body.repairPartId = some part →
        part.quantity < body.quantityUsed →
        addPartToRepairJob id body db =
          (db, .rejected (partStockMessage part.quantity body.quantityUsed))) := by
  constructor
  · intro id body db db1 usageId usage hfresh hadd
    obtain ⟨part, hpart, hle, hid, husage, hdb1⟩ :=
      addPartToRepairJob_added id body db db1 usageId usage hadd
    subst hid
    have hfind : db1.findUsage db.nextUsageId = some usage := by
      rw [hdb1]
      exact findUsage_createUsage db usage hfresh
    have hjobid : usage.repairJobId = id := by rw [husage]
    have hpid : usage.repairPartId = body.repairPartId := by rw [husage]
    have hqty : usage.quantityUsed = body.quantityUsed := by rw [husage]
    have hrow1 : ∀ k, db1.repairPart k =
        if k = body.repairPartId then
          (db.repairPart k).map (fun p => { p with quantity := p.quantity + -body.quantityUsed })
        else db.repairPart k := by
      intro k
      rw [hdb1]
      rfl
    have hpart1 : db1.repairPart usage.repairPartId
        = some { part with quantity := part.quantity + -body.quantityUsed } := by
      rw [hpid, hrow1, if_pos rfl, hpart]
      rfl
    have hrem : removePartFromRepairJob id db.nextUsageId db1 =
        ((db1.incrementQuantity usage.repairPartId usage.quantityUsed).deleteUsage
          db.nextUsageId, .partRemoved) := by
      simp only [removePartFromRepairJob, hfind, hjobid, ne_eq, not_true_eq_false, if_false,
        hpart1]
    have hrows : ∀ k,
        ((db1.incrementQuantity usage.repairPartId usage.quantityUsed).deleteUsage
          db.nextUsageId).repairPart k = db.repairPart k := by
      intro k
      show (if k = usage.repairPartId then
          (db1.repairPart k).map (fun p => { p with quantity := p.quantity + usage.quantityUsed })
        else db1.repairPart k) = db.repairPart k
      rw [hrow1, hpid, hqty]
      by_cases hk : k = body.repairPartId
      · simp only [hk, if_true, hpart, Option.map_some', Option.some.injEq]
        cases part
        simp
      · simp only [hk, if_false]
    have husages :
        ((db1.incrementQuantity usage.repairPartId usage.quantityUsed).deleteUsage
          db.nextUsageId).repairPartUsage = db.repairPartUsage := by
      rw [hdb1]
      exact deleteUsage_createUsage db usage hfresh
    refine ⟨_, hrem, ?_, hrows, husages, ?_⟩
    · unfold RepairDb.quantityOf
      rw [hrows]
    · unfold RepairDb.findUsage
      rw [husages]
      have hnone : db.repairPartUsage.find? (fun e => decide (e.1 = db.nextUsageId)) = none := by
        rw [List.find?_eq_none]
        intro e he
        have := hfresh e he
        simp
        omega
      rw [hnone]
      rfl
  · intro id body db job part hv hjob hpart hlt
    simp only [addPartToRepairJob, hv, List.isEmpty_nil, Bool.not_true, Bool.false_eq_true,
      if_false, hjob, hpart, hlt, if_true]

/-- Witness for C24: 3 of the 4 displays are added to job `J` and removed again,
leaving 4; a request for 5 is rejected. -/
theorem addPart_then_removePart_witness :
    (∃ db1 db2, addPartToRepairJob "J" ⟨"S", 3⟩ sampleRepairDb =
        (db1, .partAdded 0 ⟨"J", "S", 3⟩) ∧
      db1.quantityOf "S" = some 1 ∧
      removePartFromRepairJob "J" 0 db1 = (db2, .partRemoved) ∧
      db2.quantityOf "S" = some 4 ∧ db2.repairPartUsage = []) ∧
      addPartToRepairJob "J" ⟨"S", 5⟩ sampleRepairDb =
        (sampleRepairDb, .rejected (partStockMessage 4 5)) := by
  have hfresh : sampleRepairDb.keysFresh := by
    intro e he
    simp [sampleRepairDb] at he
  have hadd : addPartToRepairJob "J" ⟨"S", 3⟩ sampleRepairDb =
      ((sampleRepairDb.createUsage ⟨"J", "S", 3⟩).incrementQuantity "S" (-3),
        .partAdded 0 ⟨"J", "S", 3⟩) := by
    have hv : addPartValidationResult ⟨"S", 3⟩ = [] := by decide
    simp [addPartToRepairJob, hv, sampleRepairDb]
  obtain ⟨db2, hrem, hq, -, hus, -⟩ :=
    addPart_then_removePart.1 "J" ⟨"S", 3⟩ sampleRepairDb _ 0 ⟨"J", "S", 3⟩ hfresh hadd
  refine ⟨⟨_, db2, hadd, ?_, hrem, ?_, ?_⟩, ?_⟩
  · simp [RepairDb.quantityOf, RepairDb.incrementQuantity, RepairDb.createUsage, sampleRepairDb]
  · rw [hq]
    simp [RepairDb.quantityOf, sampleRepairDb]
  · rw [hus]
    rfl
  · exact addPart_then_removePart.2 "J" ⟨"S", 5⟩ sampleRepairDb _ _ (by decide) rfl rfl
      (by decide)

/-! ## The cost of a repair job -/

theorem foldl_partsCost (usages : List (RepairPartUsage × RepairPart)) (start : ℚ) :
    usages.foldl
        (fun (total : ℚ) usage => total + usage.2.costPrice * (usage.1.quantityUsed : ℚ)) start
      = start + partsCostOf usages := by
  induction usages generalizing start with
  | nil => simp [partsCostOf]
  | cons u rest ih =>
    rw [List.foldl_cons, ih]
    simp only [partsCostOf, List.map_cons, List.sum_cons]
    ring

/-- C25: for a validated status update of an existing job: with status `COMPLETED`
and a labor cost supplied, the stored `laborCost` is the one supplied and the stored
`totalCost` is the labor cost plus the sum over the job's part usages of cost price
times quantity used; with any other status, or without a labor cost, `laborCost` and
`totalCost` are the ones stored before and only the status changes. -/
theorem updateRepairJobStatus_totalCost (id : String) (body : StatusBody) (db : RepairDb)
    (job : RepairJob) (hv : statusValidationResult body = [])
    (hjob : db.repairJob id = some job) :
    (∀ (labor : ℚ) (usages : List (RepairPartUsage × RepairPart)),
      body.status = "COMPLETED" → body.laborCost = some labor →
      partsUsed db id = some usages →
      ∃ db1 updated, updateRepairJobStatus id body db = (db1, .statusUpdated updated) ∧
        db1.repairJob id = some updated ∧
        updated.status = "COMPLETED" ∧
        updated.laborCost = labor ∧
        updated.totalCost = labor + partsCostOf usages) ∧
      ((body.status ≠ "COMPLETED" ∨ body.laborCost = none) →
        ∃ db1 updated, updateRepairJobStatus id body db = (db1, .statusUpdated updated) ∧
          db1.repairJob id = some updated ∧
          updated.status = body.status ∧
          updated.laborCost = job.laborCost ∧
          updated.totalCost = job.totalCost) := by
  constructor
  · intro labor usages hstatus hlabor hparts
    have hl : (if labor = 0 then (0 : ℚ) else labor) = labor := by
      by_cases h0 : labor = 0
      · simp [h0]
      · simp [h0]
    simp only [updateRepairJobStatus, hv, List.isEmpty_nil, Bool.not_true, Bool.false_eq_true,
      if_false, hjob, hparts, hlabor, hstatus, if_true, foldl_partsCost, hl, zero_add]
    refine ⟨_, _, rfl, by simp, rfl, rfl, ?_⟩
    show partsCostOf usages + labor = labor + partsCostOf usages
    ring
  · intro hother
    rcases hother with hstatus | hlabor
    · cases hl : body.laborCost with
      | none =>
        simp only [updateRepairJobStatus, hv, List.isEmpty_nil, Bool.not_true,
          Bool.false_eq_true, if_false, hjob, hl]
        exact ⟨_, _, rfl, by simp, rfl, rfl, rfl⟩
      | some labor =>
        simp only [updateRepairJobStatus, hv, List.isEmpty_nil, Bool.not_true,
          Bool.false_eq_true, if_false, hjob, hl, hstatus]
        exact ⟨_, _, rfl, by simp, rfl, rfl, rfl⟩
    · simp only [updateRepairJobStatus, hv, List.isEmpty_nil, Bool.not_true,
        Bool.false_eq_true, if_false, hjob, hlabor]
      exact ⟨_, _, rfl, by simp, rfl, rfl, rfl⟩

/-- Witness for C25: job `J` with one display of cost 250 is completed with a labor
cost of 500, giving a total cost of 750. -/
theorem updateRepairJobStatus_totalCost_witness :
    ∃ db1 updated,
      updateRepairJobStatus "J" ⟨"COMPLETED", some 500⟩ usedRepairDb
        = (db1, .statusUpdated updated) ∧
      updated.laborCost = 500 ∧ updated.totalCost = 750 := by
  have hparts : partsUsed usedRepairDb "J" =
      some [(⟨"J", "S", 1⟩, ⟨"S", "Display", "D-1", 250, 4⟩)] := by
    simp [partsUsed, joinParts, usedRepairDb, sampleRepairDb]
  obtain ⟨db1, updated, hres, -, -, hlabor, htotal⟩ :=
    (updateRepairJobStatus_totalCost "J" ⟨"COMPLETED", some 500⟩ usedRepairDb
      { id := "J", status := "IN_PROGRESS", laborCost := 0, totalCost := 0 } (by decide) rfl).1
      500 _ rfl rfl hparts
  refine ⟨db1, updated, hres, hlabor, ?_⟩
  rw [htotal]
  simp [partsCostOf]
  norm_num

/-! ## When a sale succeeds -/

theorem requestedFor_nonneg (items : List Item) (k : String)
    (h : ∀ item ∈ items, 0 ≤ item.quantity) : 0 ≤ requestedFor items k := by
  induction items with
  | nil => simp [requestedFor_nil]
  | cons head rest ih =>
    rw [requestedFor_cons]
    have h1 := ih (fun x hx => h x (List.mem_cons_of_mem _ hx))
    have h2 := h head (List.mem_cons_self _ _)
    by_cases hid : head.productId = k
    · simp only [hid, if_true]
      linarith
    · simp only [hid, if_false]
      linarith

theorem requestedFor_of_not_mem (items : List Item) (k : String)
    (h : ∀ item ∈ items, item.productId ≠ k) : requestedFor items k = 0 := by
  induction items with
  | nil => simp [requestedFor_nil]
  | cons head rest ih =>
    rw [requestedFor_cons, ih (fun x hx => h x (List.mem_cons_of_mem _ hx)),
      if_neg (h head (List.mem_cons_self _ _))]
    rfl

/-- A line whose product exists with enough on hand is processed. -/
theorem processItem_succeeds (isInterState : Bool) (st : LoopState) (item : Item) (p : Product)
    (hp : st.tx.retailProduct item.productId = some p) (hle : item.quantity ≤ p.quantity) :
    ∃ st1, processItem isInterState st item = .ok st1 ∧
      st1.tx = st.tx.decrementQuantity item.productId item.quantity := by
  simp [processItem, hp, not_lt.mpr hle]

/-- A line is processed exactly when its product exists with enough on hand. -/
theorem processItem_ok_iff (isInterState : Bool) (st : LoopState) (item : Item) :
    (∃ st1, processItem isInterState st item = .ok st1) ↔
      ∃ p, st.tx.retailProduct item.productId = some p ∧ item.quantity ≤ p.quantity := by
  constructor
  · rintro ⟨st1, h⟩
    obtain ⟨p, hp, hle, -⟩ := processItem_ok h
    exact ⟨p, hp, hle⟩
  · rintro ⟨p, hp, hle⟩
    obtain ⟨st1, h, -⟩ := processItem_succeeds isInterState st item p hp hle
    exact ⟨st1, h⟩

/-- When no line asks for a negative quantity, the loop completes exactly when every
line names a product of which the lines together ask for no more than is on hand. -/
theorem processItems_ok_iff {isInterState : Bool} :
    ∀ (items : List Item) (st : LoopState), (∀ item ∈ items, 0 ≤ item.quantity) →
      ((∃ st1, processItems isInterState st items = .ok st1) ↔
        ∀ item ∈ items, ∃ p, st.tx.retailProduct item.productId = some p ∧
          requestedFor items item.productId ≤ p.quantity) := by
  intro items
  induction items with
  | nil =>
    intro st _
    simp [processItems]
  | cons head rest ih =>
    intro st hnonneg
    have hrest : ∀ x ∈ rest, 0 ≤ x.quantity := fun x hx => hnonneg x (List.mem_cons_of_mem _ hx)
    constructor
    · rintro ⟨st1, h⟩
      unfold processItems at h
      cases h1 : processItem isInterState st head with
      | error e => simp [h1] at h
      | ok st2 =>
        simp only [h1] at h
        obtain ⟨p0, hp0, hle0, htx, -⟩ := processItem_ok h1
        have hih := (ih st2 hrest).mp ⟨st1, h⟩
        intro item hmem
        by_cases hid : item.productId = head.productId
        · rw [hid]
          refine ⟨p0, hp0, ?_⟩
          rw [requestedFor_cons, if_pos rfl]
          by_cases hex : ∃ x ∈ rest, x.productId = head.productId
          · obtain ⟨x, hx, hxid⟩ := hex
            obtain ⟨p, hp, hle⟩ := hih x hx
            rw [hxid, htx, decrementQuantity_retailProduct, if_pos rfl, hp0] at hp
            simp only [Option.map_some', Option.some.injEq] at hp
            rw [← hp, hxid] at hle
            simp only [Product.less] at hle
            linarith
          · rw [requestedFor_of_not_mem rest _ (fun x hx hxid => hex ⟨x, hx, hxid⟩)]
            linarith
        · have hmem1 : item ∈ rest := by
            rcases List.mem_cons.mp hmem with heq | h2
            · exact absurd (by rw [heq]) hid
            · exact h2
          obtain ⟨p, hp, hle⟩ := hih item hmem1
          rw [htx, decrementQuantity_retailProduct, if_neg hid] at hp
          refine ⟨p, hp, ?_⟩
          rw [requestedFor_cons, if_neg (fun h => hid h.symm)]
          linarith
    · intro hcond
      obtain ⟨p0, hp0, hle0⟩ := hcond head (List.mem_cons_self _ _)
      rw [requestedFor_cons, if_pos rfl] at hle0
      have hreq := requestedFor_nonneg rest head.productId hrest
      obtain ⟨st2, h1, htx⟩ := processItem_succeeds isInterState st head p0 hp0 (by linarith)
      have hih : ∃ st1, processItems isInterState st2 rest = .ok st1 := by
        refine (ih st2 hrest).mpr (fun item hmem => ?_)
        obtain ⟨p, hp, hle⟩ := hcond item (List.mem_cons_of_mem _ hmem)
        rw [requestedFor_cons] at hle
        by_cases hid : item.productId = head.productId
        · refine ⟨p.less head.quantity, ?_, ?_⟩
          · rw [htx, decrementQuantity_retailProduct, if_pos hid, hp]
            rfl
          · rw [if_pos hid.symm] at hle
            simp only [Product.less]
            linarith
        · refine ⟨p, ?_, ?_⟩
          · rw [htx, decrementQuantity_retailProduct, if_neg hid, hp]
          · rw [if_neg (fun h => hid h.symm)] at hle
            linarith
      obtain ⟨st1, h⟩ := hih
      refine ⟨st1, ?_⟩
      unfold processItems
      simp only [h1]
      exact h

/-- C27: for a request whose line quantities are all at least 1, the line loop of
processSale completes exactly when every line names an existing product of which the
lines together request no more than is on hand, and so does processSale itself on a
request that passes validation; a line that comes after other lines is checked
against the on-hand quantity less what the earlier lines took of the same product. -/
theorem processSale_succeeds_iff (now : DateTime) (body : Body) (db : Db)
    (hq : ∀ item ∈ body.items, 1 ≤ item.quantity) :
    ((∃ st, processItems (body.isInterState.getD false) (initialLoopState db) body.items
        = .ok st) ↔
      ∀ item ∈ body.items, ∃ p, db.retailProduct item.productId = some p ∧
        requestedFor body.items item.productId ≤ p.quantity) ∧
    (validationResult body = [] →
      ((∃ db1 result, processSale now body db = (db1, .created result)) ↔
        ∀ item ∈ body.items, ∃ p, db.retailProduct item.productId = some p ∧
          requestedFor body.items item.productId ≤ p.quantity)) ∧
    (∀ pre line post st1, body.items = pre ++ line :: post →
      processItems (body.isInterState.getD false) (initialLoopState db) pre = .ok st1 →
      ((∃ st2, processItem (body.isInterState.getD false) st1 line = .ok st2) ↔
        ∃ p, db.retailProduct line.productId = some p ∧
          line.quantity ≤ p.quantity - requestedFor pre line.productId)) := by
  have hnonneg : ∀ item ∈ body.items, 0 ≤ item.quantity :=
    fun item hmem => le_trans (by norm_num) (hq item hmem)
  have hloop : (∃ st, processItems (body.isInterState.getD false) (initialLoopState db)
      body.items = .ok st) ↔
      ∀ item ∈ body.items, ∃ p, db.retailProduct item.productId = some p ∧
        requestedFor body.items item.productId ≤ p.quantity :=
    processItems_ok_iff body.items (initialLoopState db) hnonneg
  refine ⟨hloop, fun hv => ?_, ?_⟩
  · rw [← hloop]
    constructor
    · rintro ⟨db1, result, h⟩
      exact (processSale_created now body db db1 result h).2
    · rintro ⟨st, h⟩
      obtain ⟨result, hres, -⟩ := processSale_ok now body db st hv h
      exact ⟨_, result, hres⟩
  · intro pre line post st1 _ hpre
    obtain ⟨-, htx⟩ := processItems_tx pre _ _ hpre
    rw [processItem_ok_iff, htx line.productId]
    simp only [initialLoopState]
    constructor
    · rintro ⟨p, hp, hle⟩
      cases hdb : db.retailProduct line.productId with
      | none => simp [hdb] at hp
      | some p0 =>
        rw [hdb] at hp
        simp only [Option.map_some', Option.some.injEq] at hp
        refine ⟨p0, rfl, ?_⟩
        rw [← hp] at hle
        simpa [Product.less] using hle
    · rintro ⟨p, hp, hle⟩
      refine ⟨p.less (requestedFor pre line.productId), by rw [hp]; rfl, ?_⟩
      simpa [Product.less] using hle

/-- C27 on two lines of 3 and 2 for the sample product with 5 on hand: the second
line is checked against the 2 left, and the sale succeeds. -/
theorem processSale_succeeds_iff_witness :
    (∀ item ∈ (sampleBody [⟨"P", 3⟩, ⟨"P", 2⟩]).items, 1 ≤ item.quantity) ∧
      (∃ db1 result, processSale sampleNow (sampleBody [⟨"P", 3⟩, ⟨"P", 2⟩]) sampleDb
        = (db1, .created result)) ∧
      ¬ (∃ db1 result, processSale sampleNow (sampleBody [⟨"P", 3⟩, ⟨"P", 3⟩]) sampleDb
        = (db1, .created result)) := by
  have hq2 : ∀ item ∈ (sampleBody [⟨"P", 3⟩, ⟨"P", 2⟩]).items, 1 ≤ item.quantity := by
    simp [sampleBody]
  have hq3 : ∀ item ∈ (sampleBody [⟨"P", 3⟩, ⟨"P", 3⟩]).items, 1 ≤ item.quantity := by
    simp [sampleBody]
  refine ⟨hq2, ?_, ?_⟩
  · refine ((processSale_succeeds_iff sampleNow _ sampleDb hq2).2.1 (by decide)).mpr ?_
    intro item hmem
    simp only [sampleBody, List.mem_cons, List.mem_singleton, List.not_mem_nil, or_false] at hmem
    rcases hmem with hmem | hmem
    · rw [hmem]
      exact ⟨sampleProduct, rfl, by decide⟩
    · rw [hmem]
      exact ⟨sampleProduct, rfl, by decide⟩
  · intro h
    obtain ⟨p, hp, hle⟩ :=
      ((processSale_succeeds_iff sampleNow _ sampleDb hq3).2.1 (by decide)).mp h ⟨"P", 3⟩
        (by simp [sampleBody])
    have hp1 : sampleDb.retailProduct "P" = some sampleProduct := rfl
    rw [hp1] at hp
    simp only [Option.some.injEq] at hp
    rw [← hp] at hle
    revert hle
    decide
/-! ## The cart and the sale -/

/-- The tax total does not depend on the mode. -/
theorem calculateGST_totalGst_mode (amount gstRate : JSNum) (isInterState : Bool) :
    (calculateGST amount gstRate isInterState).totalGst =
      (calculateGST amount gstRate false).totalGst := by
  cases isInterState <;> simp [calculateGST]

/-- The validators of the cart route are among those of the sale route, and none of
them reads the inter-state flag. -/
theorem cartValidationResult_of_validationResult (body : Body) (flag : Option Bool)
    (hv : validationResult body = []) :
    cartValidationResult { body with isInterState := flag } = [] := by
  unfold validationResult at hv
  unfold cartValidationResult
  simp only [List.append_eq_nil] at hv ⊢
  exact hv.1.1.1

/-- The cart loop completes on every list of lines the sale loop completes on, with
the same running totals: the sale loop reads rows whose quantity is the stored one
less what earlier lines took, the cart loop reads the stored rows. -/
theorem cartItems_of_processItems {isInterState : Bool} (db : Db) :
    ∀ (items : List Item) (st st1 : LoopState) (cst : CartState) (taken : String → ℤ),
      (∀ item ∈ items, 0 ≤ item.quantity) → (∀ k, 0 ≤ taken k) →
      (∀ k, st.tx.retailProduct k = (db.retailProduct k).map (fun p => p.less (taken k))) →
      processItems isInterState st items = .ok st1 →
      cst.totalAmount = st.totalAmount → cst.totalGstAmount = st.totalGstAmount →
      ∃ cst1, cartItems db cst items = .ok cst1 ∧ cst1.totalAmount = st1.totalAmount ∧
        cst1.totalGstAmount = st1.totalGstAmount := by
  intro items
  induction items with
  | nil =>
    intro st st1 cst taken _ _ _ h ha hg
    simp only [processItems, Except.ok.injEq] at h
    subst h
    exact ⟨cst, rfl, ha, hg⟩
  | cons head rest ih =>
    intro st st1 cst taken hnonneg htaken hrows h ha hg
    unfold processItems at h
    cases h1 : processItem isInterState st head with
    | error e => simp [h1] at h
    | ok st2 =>
      simp only [h1] at h
      obtain ⟨p1, hp1, hle1, htx, htot, hgst, -⟩ := processItem_ok h1
      have hhead : 0 ≤ head.quantity := hnonneg head (List.mem_cons_self _ _)
      rw [hrows head.productId] at hp1
      cases hp : db.retailProduct head.productId with
      | none => simp [hp] at hp1
      | some p =>
        rw [hp] at hp1
        simp only [Option.map_some', Option.some.injEq] at hp1
        subst hp1
        have hle : ¬ p.quantity < head.quantity := by
          have := htaken head.productId
          simp only [Product.less] at hle1
          exact not_lt.mpr (by linarith)
        obtain ⟨cst1, hc, hca, hcg⟩ := ih st2 st1
          { totalAmount := cst.totalAmount + JSNum.fin p.sellingPrice * JSNum.fin head.quantity
            totalGstAmount := cst.totalGstAmount +
              (calculateGST (JSNum.fin p.sellingPrice * JSNum.fin head.quantity)
                (JSNum.fin p.gstRate) false).totalGst
            cartItems := cst.cartItems ++
              [{ product := p
                 quantity := head.quantity
                 unitPrice := p.sellingPrice
                 itemTotal := JSNum.fin p.sellingPrice * JSNum.fin head.quantity
                 gstBreakdown := calculateGST
                   (JSNum.fin p.sellingPrice * JSNum.fin head.quantity) (JSNum.fin p.gstRate) false
                 hsnCode :=
                   if p.category = "Mobile Phone" then GST_CONFIG.HSN_CODE_MOBILE
                   else GST_CONFIG.HSN_CODE_ACCESSORIES }]
            productValidation := cst.productValidation ++
              [{ productId := p.id
                 requestedQuantity := head.quantity
                 availableQuantity := p.quantity }] }
          (fun k => taken k + if k = head.productId then head.quantity else 0)
          (fun x hx => hnonneg x (List.mem_cons_of_mem _ hx))
          (fun k => by
            have := htaken k
            by_cases hk : k = head.productId
            · simp only [hk, if_true]
              have := htaken head.productId
              linarith
            · simp only [hk, if_false]
              linarith)
          (fun k => by
            rw [htx, decrementQuantity_retailProduct, hrows k]
            by_cases hk : k = head.productId
            · simp only [hk, if_true, Option.map_map]
              congr 1
              funext q
              simp [Product.less_less]
            · simp [hk])
          h
          (by
            rw [htot, ha]
            rfl)
          (by
            rw [hgst, calculateGST_totalGst_mode _ _ isInterState]
            show cst.totalGstAmount + _ = _
            rw [hg]
            rfl)
        refine ⟨cst1, ?_, hca, hcg⟩
        unfold cartItems
        simp only [cartItem, hp, hle, if_false]
        exact hc

/-- C28: whenever processSale succeeds, createSalesCart on the same store, with the
same items and discount and any inter-state flag on either request, succeeds too and
reports finalAmount equal to the sale's totalAmount and totalGstAmount equal to the
sale's gstAmount; createSalesCart only reads the store. -/
theorem createSalesCart_agrees_with_processSale (now : DateTime) (body : Body) (db db1 : Db)
    (result : SaleData) (h : processSale now body db = (db1, .created result)) :
    ∀ flag : Option Bool, ∃ cart,
      createSalesCart { body with isInterState := flag } db = .ok cart ∧
        cart.finalAmount = result.sale.totalAmount ∧
        cart.totalGstAmount = result.sale.gstAmount := by
  intro flag
  obtain ⟨hv, st, hloop⟩ := processSale_created now body db db1 result h
  obtain ⟨result1, hres, -, -, hdisc, hfinal, htotal, hgst, -⟩ :=
    processSale_ok now body db st hv hloop
  rw [h] at hres
  simp only [Prod.mk.injEq, Response.created.injEq] at hres
  obtain ⟨-, hres⟩ := hres
  subst hres
  have hq := validationResult_quantity body hv
  obtain ⟨cst, hc, hca, hcg⟩ := cartItems_of_processItems db body.items (initialLoopState db) st
    { totalAmount := 0, totalGstAmount := 0, cartItems := [], productValidation := [] }
    (fun _ => 0) (fun item hmem => le_trans (by norm_num) (hq item hmem)) (fun _ => le_refl 0)
    (fun k => by
      cases hk : db.retailProduct k with
      | none => simp [initialLoopState, hk]
      | some p => simp [initialLoopState, hk, Product.less_zero])
    hloop rfl rfl
  simp only [createSalesCart, cartValidationResult_of_validationResult body flag hv,
    List.isEmpty_nil, Bool.not_true, Bool.false_eq_true, if_false, hc]
  refine ⟨_, rfl, ?_, ?_⟩
  · show Math.round (Math.max 0 (cst.totalAmount - _) * 100) / 100 = _
    rw [htotal, hdisc, hca]
  · show Math.round (cst.totalGstAmount * (Math.max 0 (cst.totalAmount - _) / cst.totalAmount)
      * 100) / 100 = _
    rw [hgst, hfinal, hdisc, hca, hcg]

/-- C28 on an inter-state sale of two units of the sample product with a discount of
500: the cart reports the totals the sale records. -/
theorem createSalesCart_agrees_with_processSale_witness :
    ∃ db1 result cart,
      processSale sampleNow (sampleBodyWith [⟨"P", 2⟩] 500 true) sampleDb
        = (db1, .created result) ∧
      createSalesCart { sampleBodyWith [⟨"P", 2⟩] 500 true with isInterState := some false }
        sampleDb = .ok cart ∧
      cart.finalAmount = result.sale.totalAmount ∧
      cart.totalGstAmount = result.sale.gstAmount := by
  obtain ⟨st, hst⟩ := processItems_single_ok true sampleDb "P" 2 sampleProduct rfl (by decide)
  obtain ⟨result, hres, -⟩ :=
    processSale_ok sampleNow (sampleBodyWith [⟨"P", 2⟩] 500 true) sampleDb st (by decide) hst
  obtain ⟨cart, hcart, h1, h2⟩ :=
    createSalesCart_agrees_with_processSale sampleNow _ sampleDb _ result hres (some false)
  exact ⟨_, result, cart, hres, hcart, h1, h2⟩
/-! ## The invoice summary -/

theorem isCents_zero : IsCents (JSNum.fin 0) := ⟨0, by simp⟩

theorem isCents_roundHalfUp2 (x : ℚ) : IsCents (JSNum.fin (roundHalfUp2 x)) := ⟨_, rfl⟩

theorem isCents_add {x y : JSNum} (hx : IsCents x) (hy : IsCents y) : IsCents (x + y) := by
  obtain ⟨n, rfl⟩ := hx
  obtain ⟨m, rfl⟩ := hy
  refine ⟨n + m, ?_⟩
  rw [JSNum.fin_add_fin]
  congr 1
  push_cast
  ring

/-- Rounding a value with at most 2 decimals gives it back. -/
theorem isCents_round {x : JSNum} (hx : IsCents x) : Math.round (x * 100) / 100 = x := by
  obtain ⟨n, rfl⟩ := hx
  exact round_two_decimals n

theorem isCents_foldl (xs : List JSNum) (h : ∀ x ∈ xs, IsCents x) :
    ∀ acc, IsCents acc → IsCents (xs.foldl (fun a x => a + x) acc) := by
  induction xs with
  | nil =>
    intro acc hacc
    exact hacc
  | cons x rest ih =>
    intro acc hacc
    simp only [List.foldl_cons]
    exact ih (fun y hy => h y (List.mem_cons_of_mem _ hy)) _
      (isCents_add hacc (h x (List.mem_cons_self _ _)))

/-- A sum of values with at most 2 decimals has at most 2 decimals. -/
theorem isCents_sumOf (xs : List JSNum) (h : ∀ x ∈ xs, IsCents x) : IsCents (sumOf xs) :=
  isCents_foldl xs h _ ⟨0, by simp⟩

/-- The tax fields `calculateGST` returns have at most 2 decimals. -/
theorem calculateGST_inCents (a r : ℚ) (hr : r ≠ -100) (isInterState : Bool) :
    (calculateGST (.fin a) (.fin r) isInterState).InCents := by
  rw [calculateGST_fin a r hr]
  cases isInterState
  · exact ⟨isCents_roundHalfUp2 _, isCents_roundHalfUp2 _, isCents_zero, isCents_roundHalfUp2 _⟩
  · exact ⟨isCents_zero, isCents_zero, isCents_roundHalfUp2 _, isCents_roundHalfUp2 _⟩

/-- Rounding commutes with subtracting a value that has at most 2 decimals. -/
theorem roundHalfUp2_sub_cents (x : ℚ) (n : ℤ) :
    roundHalfUp2 (x - n / 100) = roundHalfUp2 x - n / 100 := by
  unfold roundHalfUp2
  have h : (x - (n : ℚ) / 100) * 100 + 1 / 2 = x * 100 + 1 / 2 - n := by
    field_simp
    ring
  rw [h, Int.floor_sub_int]
  push_cast
  ring

/-- The breakdowns a completed loop has recorded have at most 2 decimals when no
product has rate `-100`. -/
theorem processItems_inCents {isInterState : Bool} :
    ∀ (items : List Item) (st st1 : LoopState),
      processItems isInterState st items = .ok st1 →
      (∀ k p, st.tx.retailProduct k = some p → p.gstRate ≠ -100) →
      (∀ b ∈ st.saleItems.map (fun x => x.gstBreakdown), b.InCents) →
      ∀ b ∈ st1.saleItems.map (fun x => x.gstBreakdown), b.InCents := by
  intro items
  induction items with
  | nil =>
    intro st st1 h _ hb
    simp only [processItems, Except.ok.injEq] at h
    subst h
    exact hb
  | cons head rest ih =>
    intro st st1 h hrate hb
    unfold processItems at h
    cases h1 : processItem isInterState st head with
    | error e => simp [h1] at h
    | ok st2 =>
      simp only [h1] at h
      obtain ⟨p, hp, -, htx, -, -, -, hbs⟩ := processItem_ok h1
      refine ih st2 st1 h ?_ ?_
      · intro k q hq
        rw [htx, decrementQuantity_retailProduct] at hq
        by_cases hk : k = head.productId
        · rw [if_pos hk] at hq
          cases hdb : st.tx.retailProduct k with
          | none => simp [hdb] at hq
          | some q0 =>
            rw [hdb] at hq
            simp only [Option.map_some', Option.some.injEq] at hq
            rw [← hq]
            exact hrate k q0 hdb
        · rw [if_neg hk] at hq
          exact hrate k q hq
      · intro b hmem
        rw [hbs, List.mem_append, List.mem_singleton] at hmem
        rcases hmem with hmem | hmem
        · exact hb b hmem
        · rw [hmem]
          exact calculateGST_inCents _ _ (hrate _ p hp) _

/-- The line total of a store with non-negative prices and lines of non-negative
quantity is non-negative. -/
theorem lineTotal_nonneg (db : Db) (items : List Item)
    (hprice : ∀ k p, db.retailProduct k = some p → 0 ≤ p.sellingPrice)
    (hq : ∀ item ∈ items, 0 ≤ item.quantity) : 0 ≤ lineTotal db items := by
  unfold lineTotal
  apply List.sum_nonneg
  intro x hx
  obtain ⟨item, hmem, rfl⟩ := List.mem_map.mp hx
  have h1 : (0 : ℚ) ≤ item.quantity := by exact_mod_cast hq item hmem
  have h2 : 0 ≤ unitPrice db item.productId := by
    unfold unitPrice
    cases hp : db.retailProduct item.productId with
    | none => simp
    | some p => simpa using hprice _ p hp
  exact mul_nonneg h2 h1

/-- The running tax totals of the invoice composer are the sums of the per-line
values. -/
theorem consolidatedGST_foldl (xs : List SaleItem) :
    ∀ acc : ConsolidatedGST,
      let r := xs.foldl
        (fun (acc : ConsolidatedGST) (item : SaleItem) =>
          ({ totalCGST := acc.totalCGST + item.gstBreakdown.cgst
             totalSGST := acc.totalSGST + item.gstBreakdown.sgst
             totalIGST := acc.totalIGST + item.gstBreakdown.igst
             totalGST := acc.totalGST + item.gstBreakdown.totalGst } : ConsolidatedGST))
        acc
      r.totalCGST = (xs.map (fun x => x.gstBreakdown.cgst)).foldl (fun a x => a + x)
          acc.totalCGST ∧
        r.totalSGST = (xs.map (fun x => x.gstBreakdown.sgst)).foldl (fun a x => a + x)
          acc.totalSGST ∧
        r.totalIGST = (xs.map (fun x => x.gstBreakdown.igst)).foldl (fun a x => a + x)
          acc.totalIGST ∧
        r.totalGST = (xs.map (fun x => x.gstBreakdown.totalGst)).foldl (fun a x => a + x)
          acc.totalGST := by
  induction xs with
  | nil =>
    intro acc
    exact ⟨rfl, rfl, rfl, rfl⟩
  | cons x rest ih =>
    intro acc
    simp only [List.foldl_cons, List.map_cons]
    exact ih _

/-- The summary taxes of an invoice whose line breakdowns have at most 2 decimals:
the sums of the per-line values, in both the stored and the printed form. -/
theorem generateGSTInvoice_taxTotals (saleData : SaleData)
    (hb : ∀ b ∈ saleData.saleItems.map (fun x => x.gstBreakdown), b.InCents) :
    (generateGSTInvoice saleData).summary.totalCGST =
        sumOf ((generateGSTInvoice saleData).items.map (fun x => x.cgst)) ∧
      (generateGSTInvoice saleData).summary.totalSGST =
        sumOf ((generateGSTInvoice saleData).items.map (fun x => x.sgst)) ∧
      (generateGSTInvoice saleData).summary.totalIGST =
        sumOf ((generateGSTInvoice saleData).items.map (fun x => x.igst)) ∧
      (generateGSTInvoice saleData).summary.totalGST =
        sumOf (saleData.saleItems.map (fun x => x.gstBreakdown.totalGst)) ∧
      IsCents (generateGSTInvoice saleData).summary.totalCGST ∧
      IsCents (generateGSTInvoice saleData).summary.totalSGST ∧
      IsCents (generateGSTInvoice saleData).summary.totalIGST ∧
      IsCents (generateGSTInvoice saleData).summary.totalGST := by
  have hx : ∀ x ∈ saleData.saleItems, x.gstBreakdown.InCents :=
    fun x hmem => hb _ (List.mem_map_of_mem _ hmem)
  obtain ⟨h1, h2, h3, h4⟩ := consolidatedGST_foldl saleData.saleItems
    { totalCGST := 0, totalSGST := 0, totalIGST := 0, totalGST := 0 }
  have hc : (generateGSTInvoice saleData).items.map (fun x => x.cgst) =
      saleData.saleItems.map (fun x => x.gstBreakdown.cgst) := by
    simp only [generateGSTInvoice, List.map_map]
    exact List.map_congr_left (fun x hmem => isCents_round (hx x hmem).1)
  have hs : (generateGSTInvoice saleData).items.map (fun x => x.sgst) =
      saleData.saleItems.map (fun x => x.gstBreakdown.sgst) := by
    simp only [generateGSTInvoice, List.map_map]
    exact List.map_congr_left (fun x hmem => isCents_round (hx x hmem).2.1)
  have hi : (generateGSTInvoice saleData).items.map (fun x => x.igst) =
      saleData.saleItems.map (fun x => x.gstBreakdown.igst) := by
    simp only [generateGSTInvoice, List.map_map]
    exact List.map_congr_left (fun x hmem => isCents_round (hx x hmem).2.2.1)
  have c1 : IsCents (sumOf (saleData.saleItems.map (fun x => x.gstBreakdown.cgst))) :=
    isCents_sumOf _ (fun y hy => by
      obtain ⟨x, hmem, rfl⟩ := List.mem_map.mp hy
      exact (hx x hmem).1)
  have c2 : IsCents (sumOf (saleData.saleItems.map (fun x => x.gstBreakdown.sgst))) :=
    isCents_sumOf _ (fun y hy => by
      obtain ⟨x, hmem, rfl⟩ := List.mem_map.mp hy
      exact (hx x hmem).2.1)
  have c3 : IsCents (sumOf (saleData.saleItems.map (fun x => x.gstBreakdown.igst))) :=
    isCents_sumOf _ (fun y hy => by
      obtain ⟨x, hmem, rfl⟩ := List.mem_map.mp hy
      exact (hx x hmem).2.2.1)
  have c4 : IsCents (sumOf (saleData.saleItems.map (fun x => x.gstBreakdown.totalGst))) :=
    isCents_sumOf _ (fun y hy => by
      obtain ⟨x, hmem, rfl⟩ := List.mem_map.mp hy
      exact (hx x hmem).2.2.2)
  have e1 : (generateGSTInvoice saleData).summary.totalCGST =
      sumOf (saleData.saleItems.map (fun x => x.gstBreakdown.cgst)) := by
    show Math.round (_ * 100) / 100 = _
    rw [h1]
    exact isCents_round c1
  have e2 : (generateGSTInvoice saleData).summary.totalSGST =
      sumOf (saleData.saleItems.map (fun x => x.gstBreakdown.sgst)) := by
    show Math.round (_ * 100) / 100 = _
    rw [h2]
    exact isCents_round c2
  have e3 : (generateGSTInvoice saleData).summary.totalIGST =
      sumOf (saleData.saleItems.map (fun x => x.gstBreakdown.igst)) := by
    show Math.round (_ * 100) / 100 = _
    rw [h3]
    exact isCents_round c3
  have e4 : (generateGSTInvoice saleData).summary.totalGST =
      sumOf (saleData.saleItems.map (fun x => x.gstBreakdown.totalGst)) := by
    show Math.round (_ * 100) / 100 = _
    rw [h4]
    exact isCents_round c4
  refine ⟨?_, ?_, ?_, e4, ?_, ?_, ?_, ?_⟩
  · rw [hc]
    exact e1
  · rw [hs]
    exact e2
  · rw [hi]
    exact e3
  · rw [e1]
    exact c1
  · rw [e2]
    exact c2
  · rw [e3]
    exact c3
  · rw [e4]
    exact c4

end KingsMobile
